import Mathlib

/-!
# Predator-prey automaton on an offset hexagonal grid

Shallow embedding of `src/predator_prey.cpp` (functions `getNeighbors`,
`updatePrey`, `updatePredator`, `updateGrid`) and the properties proved about it.

Modelling conventions.

* `vector<vector<Cell>>` is `List (List Cell)`; coordinates are `Int`, as the
  source's `int row, col` and `pair<int, int>`.
* An index outside a vector, and `rand() % 0`, are undefined behaviour in the
  source.  The embedding makes them explicit faults of the `Except` monad, one
  constructor of `Fault` per kind of access.
* `rand()` is a stream of naturals, threaded through the functions that draw
  from it; "every outcome of the random draws" is "every stream".
* `int` arithmetic on energy and cooldown is `Int`.  The source never overflows
  on the values it produces in a run (signed overflow is undefined in C++ and is
  not modelled).
* `updatePrey` writes the acting cell's cooldown through a reference into the
  grid it reads, so it returns the current grid next to `nextGrid`.  The two
  grids are distinct objects (`updateGrid` copies), as in the source.

The file has the embedding first, then the vocabulary of the statements, the
total forms of the rules used in the proofs, the lemmas, and last the claims
`C1`, `C2`, ... in order, each with its theorem and witness.
-/

namespace PredatorPrey

/-! ## Data model -/

/-- Status of a cell: `enum CellStatus` of the source. -/
inductive CellStatus where
  | Dead
  | Prey
  | Predator
  deriving DecidableEq

/-- Cell of the grid: `struct Cell`, with the source's default member values. -/
structure Cell where
  status : CellStatus
  energy : Int := 0
  reproductionCooldown : Int := 0
  deriving DecidableEq

/-- Grid of cells, `using Grid = vector<vector<Cell>>`. -/
abbrev Grid := List (List Cell)

/-- Coordinates of a cell, `pair<int, int>`: row first. -/
abbrev Pos := Int × Int

/-- Undefined behaviour the source can run into, by kind of access. -/
inductive Fault where
  | gridIndex
  | listIndex
  | modZero
  deriving DecidableEq

/-- Stream of the values `rand()` returns, next value first. -/
abbrev Rand := Nat → Nat

/-- One call of `rand()`: the value drawn and the rest of the stream. -/
def rand (rng : Rand) : Nat × Rand := (rng 0, fun n => rng (n + 1))

/-! ## Grid access -/

/-- Row `grid[r]`; a fault when `r` is outside the vector. -/
def rowAt (grid : Grid) (r : Int) : Except Fault (List Cell) :=
  if r < 0 then .error .gridIndex
  else match grid[r.toNat]? with
    | some cells => .ok cells
    | none => .error .gridIndex

/-- Cell `grid[r][c]`; a fault when either index is outside its vector. -/
def cellAt (grid : Grid) (r c : Int) : Except Fault Cell :=
  match rowAt grid r with
  | .error e => .error e
  | .ok cells =>
    if c < 0 then .error .gridIndex
    else match cells[c.toNat]? with
      | some cell => .ok cell
      | none => .error .gridIndex

/-- Write through the reference `grid[r][c]`: the cell becomes `f` of its old
value; a fault when either index is outside its vector. -/
def modifyCell (grid : Grid) (r c : Int) (f : Cell → Cell) : Except Fault Grid :=
  match rowAt grid r, cellAt grid r c with
  | .ok cells, .ok cell => .ok (grid.set r.toNat (cells.set c.toNat (f cell)))
  | .error e, _ => .error e
  | _, .error e => .error e

/-! ## getNeighbors -/

/-- Offset table of an even row (source line 47). -/
def evenOffsets : List (Int × Int) :=
  [(-1, -1), (-1, 0), (0, -1), (0, 1), (1, -1), (1, 0)]

/-- Offset table of an odd row (source line 50). -/
def oddOffsets : List (Int × Int) :=
  [(-1, 0), (-1, 1), (0, -1), (0, 1), (1, 0), (1, 1)]

/-- Offset table chosen by `row % 2 == 0`.  The test is the same for the
truncating `%` of C++ and the `%` of `Int`: both are `0` exactly on even rows. -/
def offsetsOf (row : Int) : List (Int × Int) :=
  if row % 2 = 0 then evenOffsets else oddOffsets

/-- Bounds test of source line 57. -/
def inRange (rows cols : Int) (p : Pos) : Bool :=
  decide (p.1 ≥ 0 ∧ p.1 < rows ∧ p.2 ≥ 0 ∧ p.2 < cols)

/-- Function `getNeighbors` of the source: the in-range cells among the six
offsets of the row's parity, in table order.  `grid[0]` faults on an empty grid. -/
def getNeighbors (row col : Int) (grid : Grid) : Except Fault (List Pos) :=
  match rowAt grid 0 with
  | .error e => .error e
  | .ok row0 =>
    let rows : Int := grid.length
    let cols : Int := row0.length
    .ok (((offsetsOf row).map (fun off => (row + off.1, col + off.2))).filter
      (inRange rows cols))

/-! ## Neighbour classification and random choice -/

/-- Neighbour lists built by the classification loops: prey, empty (Dead) and
predator neighbours, each in neighbour order. -/
structure Split where
  preyNeighbors : List Pos
  emptyNeighbors : List Pos
  predatorNeighbors : List Pos

/-- Classification loop of `updatePredator` (source lines 132-142); the loop of
`updatePrey` (lines 77-85) is the same without the predator list, which
`updatePrey` does not read. -/
def classify (grid : Grid) : List Pos → Except Fault Split
  | [] => .ok ⟨[], [], []⟩
  | (nRow, nCol) :: rest =>
    match cellAt grid nRow nCol with
    | .error e => .error e
    | .ok cell =>
      match classify grid rest with
      | .error e => .error e
      | .ok s =>
        if cell.status = .Prey then
          .ok { s with preyNeighbors := (nRow, nCol) :: s.preyNeighbors }
        else if cell.status = .Dead then
          .ok { s with emptyNeighbors := (nRow, nCol) :: s.emptyNeighbors }
        else if cell.status = .Predator then
          .ok { s with predatorNeighbors := (nRow, nCol) :: s.predatorNeighbors }
        else .ok s

/-- Expression `xs[rand() % xs.size()]`: faults on an empty list (modulus zero)
and on an index outside the list. -/
def randomChoice (xs : List Pos) (rng : Rand) : Except Fault (Pos × Rand) :=
  let draw := rand rng
  if xs.length = 0 then .error .modZero
  else match xs[draw.1 % xs.length]? with
    | some x => .ok (x, draw.2)
    | none => .error .listIndex

/-! ## The two rules -/

/-- State of one step: the grid being read, the next-state buffer and the
random stream. -/
structure Sim where
  grid : Grid
  nextGrid : Grid
  rng : Rand

/-- Reproduction attempt of `updatePrey` (source lines 88-97): with a prey
neighbour, cooldown 0 and an empty neighbour, a fresh prey is written into
`nextGrid` at a random empty neighbour and the acting cell's cooldown is set to
2 in the grid being read (`cell` is a reference to `grid[row][col]`). -/
def preyReproduce (row col : Int) (cell : Cell) (nb : Split) (s : Sim) : Except Fault Sim :=
  if nb.preyNeighbors ≠ [] ∧ cell.reproductionCooldown = 0 then
    if nb.emptyNeighbors ≠ [] then do
      let (newLocation, rng1) ← randomChoice nb.emptyNeighbors s.rng
      let next1 ← modifyCell s.nextGrid newLocation.1 newLocation.2
        (fun _ => { status := .Prey })
      let grid1 ← modifyCell s.grid row col (fun c => { c with reproductionCooldown := 2 })
      .ok { grid := grid1, nextGrid := next1, rng := rng1 }
    else .ok s
  else .ok s

/-- Destination of the prey (source lines 100-104): a random empty neighbour when
there is one, the cell itself otherwise. -/
def preyTarget (row col : Int) (nb : Split) (rng : Rand) : Except Fault (Pos × Rand) :=
  if nb.emptyNeighbors ≠ [] then randomChoice nb.emptyNeighbors rng
  else .ok ((row, col), rng)

/-- Function `updatePrey` of the source. -/
def updatePrey (row col : Int) (s : Sim) : Except Fault Sim := do
  let cell ← cellAt s.grid row col
  if cell.status ≠ .Prey then .ok s
  else do
    let neighbors ← getNeighbors row col s.grid
    let nb ← classify s.grid neighbors
    let s1 ← preyReproduce row col cell nb s
    let (bestLocation, rng2) ← preyTarget row col nb s1.rng
    -- `cell` is a reference: line 109 reads the cooldown as line 95 left it
    let cell1 ← cellAt s1.grid row col
    let next2 ← modifyCell s1.nextGrid bestLocation.1 bestLocation.2
      (fun _ => ⟨.Prey, 0, max 0 (cell1.reproductionCooldown - 1)⟩)
    let next3 ←
      if bestLocation ≠ (row, col) then
        modifyCell next2 row col (fun c => { c with status := .Dead })
      else .ok next2
    .ok { grid := s1.grid, nextGrid := next3, rng := rng2 }

/-- Destination of the predator and the `consumedPrey` flag (source lines
145-152). -/
def predatorTarget (row col : Int) (nb : Split) (rng : Rand) :
    Except Fault (Pos × Bool × Rand) :=
  if nb.preyNeighbors ≠ [] then do
    let (newLocation, rng1) ← randomChoice nb.preyNeighbors rng
    .ok (newLocation, true, rng1)
  else if nb.emptyNeighbors ≠ [] then do
    let (newLocation, rng1) ← randomChoice nb.emptyNeighbors rng
    .ok (newLocation, false, rng1)
  else .ok ((row, col), false, rng)

/-- Reproduction scan of `updatePredator` (source lines 165-182): at the first
predator neighbour whose energy in the grid being read is at least 5, spawn at
the first empty neighbour (if any), charge 3 energy at `newLocation` and at the
partner's cell, and stop. -/
def predatorReproduce (grid : Grid) (newLocation : Pos) (emptyNeighbors : List Pos) :
    List Pos → Grid → Except Fault Grid
  | [], nextGrid => .ok nextGrid
  | (pRow, pCol) :: rest, nextGrid =>
    match cellAt grid pRow pCol with
    | .error e => .error e
    | .ok partner =>
      if partner.energy ≥ 5 then
        match emptyNeighbors with
        | [] => .ok nextGrid
        | (eRow, eCol) :: _ => do
          let n1 ← modifyCell nextGrid eRow eCol (fun _ => { status := .Predator, energy := 5 })
          let n2 ← modifyCell n1 newLocation.1 newLocation.2
            (fun c => { c with energy := c.energy - 3 })
          modifyCell n2 pRow pCol (fun c => { c with energy := c.energy - 3 })
      else predatorReproduce grid newLocation emptyNeighbors rest nextGrid

/-- Function `updatePredator` of the source. -/
def updatePredator (row col : Int) (s : Sim) : Except Fault Sim := do
  let cell ← cellAt s.grid row col
  if cell.status ≠ .Predator then .ok s
  else if cell.energy ≤ 0 then do
    let next1 ← modifyCell s.nextGrid row col (fun c => { c with status := .Dead })
    .ok { s with nextGrid := next1 }
  else do
    let neighbors ← getNeighbors row col s.grid
    let nb ← classify s.grid neighbors
    let (newLocation, consumedPrey, rng1) ← predatorTarget row col nb s.rng
    let newEnergy := cell.energy - 1 + (if consumedPrey then 5 else 0)
    let next1 ← modifyCell s.nextGrid newLocation.1 newLocation.2
      (fun _ => { status := .Predator, energy := newEnergy })
    let next2 ←
      if newLocation ≠ (row, col) then
        modifyCell next1 row col (fun c => { c with status := .Dead })
      else .ok next1
    let next3 ←
      if newEnergy ≥ 5 then
        predatorReproduce s.grid newLocation nb.emptyNeighbors nb.predatorNeighbors next2
      else .ok next2
    .ok { s with nextGrid := next3, rng := rng1 }

/-! ## updateGrid -/

/-- Number of columns the loops of `updateGrid` scan: `grid[0].size()`, read
only when the grid has a row. -/
def scanCols : Grid → Nat
  | [] => 0
  | row0 :: _ => row0.length

/-- Two nested `for` loops over `rows x cols`, row-major, running `body` at
every cell. -/
def forEachCell (rows cols : Nat) (body : Int → Int → Sim → Except Fault Sim) (s : Sim) :
    Except Fault Sim :=
  (List.range rows).foldlM
    (fun acc (r : Nat) =>
      (List.range cols).foldlM (fun acc2 (c : Nat) => body (r : Int) (c : Int) acc2) acc) s

/-- Body of the phase 1 loop (source lines 192-194). -/
def preyBody (row col : Int) (s : Sim) : Except Fault Sim := do
  let cell ← cellAt s.grid row col
  if cell.status = .Prey then updatePrey row col s else .ok s

/-- Body of the phase 2 loop (source lines 201-203). -/
def predatorBody (row col : Int) (s : Sim) : Except Fault Sim := do
  let cell ← cellAt s.grid row col
  if cell.status = .Predator then updatePredator row col s else .ok s

/-- Function `updateGrid` of the source: copy the grid, run the prey rule over
every cell, then the predator rule, and commit the buffer.  The loop bounds are
read once: no write changes the size of a vector. -/
def updateGrid (grid : Grid) (rng : Rand) : Except Fault (Grid × Rand) := do
  let s0 : Sim := { grid := grid, nextGrid := grid, rng := rng }
  let s1 ← forEachCell grid.length (scanCols grid) preyBody s0
  let s2 ← forEachCell grid.length (scanCols grid) predatorBody s1
  .ok (s2.nextGrid, s2.rng)

/-! ## Vocabulary of the statements -/

/-- Rectangular grid of the given size. -/
def Rect (g : Grid) (rows cols : Nat) : Prop :=
  g.length = rows ∧ ∀ cells ∈ g, cells.length = cols

/-- Coordinates inside a `rows x cols` grid. -/
def InB (rows cols : Nat) (p : Pos) : Prop :=
  0 ≤ p.1 ∧ p.1 < rows ∧ 0 ≤ p.2 ∧ p.2 < cols

/-- Both grids of the state are rectangular of the given size. -/
def WF (R C : Nat) (s : Sim) : Prop := Rect s.grid R C ∧ Rect s.nextGrid R C

/-- Total read of a cell, for statements: the Dead default outside the grid. -/
def look (g : Grid) (p : Pos) : Cell :=
  match cellAt g p.1 p.2 with
  | .ok cell => cell
  | .error _ => ⟨.Dead, 0, 0⟩

/-- Some cell of `ns` has status `st` in `g`. -/
def hasNeighbor (g : Grid) (ns : List Pos) (st : CellStatus) : Prop :=
  ∃ q ∈ ns, (look g q).status = st

instance (g : Grid) (ns : List Pos) (st : CellStatus) : Decidable (hasNeighbor g ns st) := by
  unfold hasNeighbor; infer_instance

/-- Every cell of the grid satisfies `P`. -/
def AllCells (P : Cell → Prop) (g : Grid) : Prop := ∀ cells ∈ g, ∀ x ∈ cells, P x

instance (P : Cell → Prop) [DecidablePred P] (g : Grid) : Decidable (AllCells P g) := by
  unfold AllCells; infer_instance

/-- A cell that is a Prey has reproductionCooldown 0, 1 or 2. -/
def CooldownInRange (x : Cell) : Prop :=
  x.status = .Prey →
    x.reproductionCooldown = 0 ∨ x.reproductionCooldown = 1 ∨ x.reproductionCooldown = 2

instance : DecidablePred CooldownInRange := fun x => by
  unfold CooldownInRange; infer_instance

/-- Status Dead, as a predicate on cells. -/
def IsDead (x : Cell) : Prop := x.status = .Dead

instance : DecidablePred IsDead := fun x => by
  unfold IsDead; infer_instance

/-- Number of cells of the grid with status `st`. -/
def countStatus (st : CellStatus) (g : Grid) : Nat :=
  (g.map (fun cells => cells.countP (fun x => decide (x.status = st)))).sum

/-- Hypotheses of a no-event step: no Prey with cooldown 0 has both a Prey
neighbour and a Dead neighbour (no prey reproduces), no Predator has a Prey
neighbour (no predator eats), and every Predator energy is between 1 and 4 (no
predator starves or reproduces). -/
def NoEvent (grid : Grid) : Prop :=
  (∀ (r c : Int) (ns : List Pos), (look grid (r, c)).status = .Prey →
      (look grid (r, c)).reproductionCooldown = 0 → getNeighbors r c grid = .ok ns →
      ¬ (hasNeighbor grid ns .Prey ∧ hasNeighbor grid ns .Dead)) ∧
  (∀ (r c : Int) (ns : List Pos), (look grid (r, c)).status = .Predator →
      getNeighbors r c grid = .ok ns → ¬ hasNeighbor grid ns .Prey) ∧
  (∀ r c : Int, (look grid (r, c)).status = .Predator →
      1 ≤ (look grid (r, c)).energy ∧ (look grid (r, c)).energy ≤ 4)

/-- No contested empty cell: no in-bounds Dead cell of the grid has two distinct
neighbours that hold an organism, so no two organisms can move into the same
cell. -/
def NoContest (grid : Grid) : Prop :=
  ∀ (r c : Int) (x : Cell) (ns : List Pos), cellAt grid r c = .ok x → x.status = .Dead →
    getNeighbors r c grid = .ok ns →
    ∀ a ∈ ns, ∀ b ∈ ns, (look grid a).status ≠ .Dead → (look grid b).status ≠ .Dead → a = b

/-- Some cell of `ns` is a Predator with energy at least 5 in `g`. -/
def hasPartner (g : Grid) (ns : List Pos) : Prop :=
  ∃ q ∈ ns, (look g q).status = .Predator ∧ (look g q).energy ≥ 5

instance (g : Grid) (ns : List Pos) : Decidable (hasPartner g ns) := by
  unfold hasPartner; infer_instance

/-- Cooldown other than 2, as a predicate on cells. -/
def CooldownNotTwo (x : Cell) : Prop := x.reproductionCooldown ≠ 2

instance : DecidablePred CooldownNotTwo := fun x => by
  unfold CooldownNotTwo; infer_instance

/-- A cell other than a Predator with energy 5. -/
def NotFreshPredator (x : Cell) : Prop := ¬ (x.status = .Predator ∧ x.energy = 5)

instance : DecidablePred NotFreshPredator := fun x => by
  unfold NotFreshPredator; infer_instance

/-- Hypothesis of the clean-cell invariant on one cell: a Dead cell has energy 0
and cooldown 0, a Prey has energy 0, a Predator has cooldown 0. -/
def CleanCell (x : Cell) : Prop :=
  (x.status = .Dead → x.energy = 0 ∧ x.reproductionCooldown = 0) ∧
    (x.status = .Prey → x.energy = 0) ∧ (x.status = .Predator → x.reproductionCooldown = 0)

instance : DecidablePred CleanCell := fun x => by
  unfold CleanCell; infer_instance

/-- A cell that is a Predator has energy at least 0. -/
def NonNegPredator (x : Cell) : Prop := x.status = .Predator → 0 ≤ x.energy

instance : DecidablePred NonNegPredator := fun x => by
  unfold NonNegPredator; infer_instance

/-- A cell that is not a Predator. -/
def NotPredator (x : Cell) : Prop := x.status ≠ .Predator

instance : DecidablePred NotPredator := fun x => by
  unfold NotPredator; infer_instance

/-! ## Total forms of the rules

On a well-formed state (both grids rectangular of the same size) no access of the
rules is out of range, and each rule returns the value of a total function on
grids.  The total forms below are what the proofs reason about; the lemmas
`updatePrey_eq`, `updatePredator_eq` and `updateGrid_eq` show that the embedding
returns exactly these values. -/

/-- Total write of a cell, for statements. -/
def put (g : Grid) (p : Pos) (x : Cell) : Grid :=
  g.set p.1.toNat ((g.getD p.1.toNat []).set p.2.toNat x)

/-- Option-valued read of a cell, the common form of `cellAt` and `look`. -/
def cell? (g : Grid) (p : Pos) : Option Cell :=
  if 0 ≤ p.1 ∧ 0 ≤ p.2 then (g[p.1.toNat]?).bind (fun cells => cells[p.2.toNat]?) else none

/-- Neighbours of a cell in a `rows x cols` grid: the value `getNeighbors`
returns on a rectangular grid of that size. -/
def nbrs (R C : Nat) (p : Pos) : List Pos :=
  ((offsetsOf p.1).map (fun off => (p.1 + off.1, p.2 + off.2))).filter (inRange R C)

/-- Cells of `ns` whose status in `g` is `st`, in order. -/
def withStatus (g : Grid) (st : CellStatus) (ns : List Pos) : List Pos :=
  ns.filter (fun q => decide ((look g q).status = st))

/-- Element `xs[rand() % xs.size()]` as a total function. -/
def pick (xs : List Pos) (rng : Rand) : Pos := xs.getD (rng 0 % xs.length) (0, 0)

/-- Stream left after one draw. -/
def advance (rng : Rand) : Rand := fun n => rng (n + 1)

/-- Write `nextGrid[p].status = Dead` as a total function. -/
def kill (g : Grid) (p : Pos) : Grid := put g p { look g p with status := .Dead }

/-- Write `nextGrid[p].energy -= 3` as a total function. -/
def charge (g : Grid) (p : Pos) : Grid :=
  put g p { look g p with energy := (look g p).energy - 3 }

/-- Empty (Dead) neighbours of `p` in the grid being read. -/
def emptyOf (R C : Nat) (g : Grid) (p : Pos) : List Pos := withStatus g .Dead (nbrs R C p)

/-- Prey neighbours of `p` in the grid being read. -/
def preyOf (R C : Nat) (g : Grid) (p : Pos) : List Pos := withStatus g .Prey (nbrs R C p)

/-- Predator neighbours of `p` in the grid being read. -/
def predatorOf (R C : Nat) (g : Grid) (p : Pos) : List Pos :=
  withStatus g .Predator (nbrs R C p)

/-- Total form of `preyReproduce` on a well-formed state. -/
def preyReproduceT (R C : Nat) (p : Pos) (s : Sim) : Sim :=
  if preyOf R C s.grid p ≠ [] ∧ (look s.grid p).reproductionCooldown = 0 ∧
      emptyOf R C s.grid p ≠ [] then
    { grid := put s.grid p { look s.grid p with reproductionCooldown := 2 },
      nextGrid := put s.nextGrid (pick (emptyOf R C s.grid p) s.rng) ⟨.Prey, 0, 0⟩,
      rng := advance s.rng }
  else s

/-- Destination of the prey at `p`, given the stream at the time of the draw. -/
def preyDest (R C : Nat) (g : Grid) (p : Pos) (rng : Rand) : Pos :=
  if emptyOf R C g p ≠ [] then pick (emptyOf R C g p) rng else p

/-- Total form of `updatePrey` on a well-formed state. -/
def updatePreyT (R C : Nat) (p : Pos) (s : Sim) : Sim :=
  if (look s.grid p).status ≠ .Prey then s
  else
    let s1 := preyReproduceT R C p s
    let best := preyDest R C s.grid p s1.rng
    let next2 := put s1.nextGrid best
      ⟨.Prey, 0, max 0 ((look s1.grid p).reproductionCooldown - 1)⟩
    { grid := s1.grid,
      nextGrid := if best ≠ p then kill next2 p else next2,
      rng := if emptyOf R C s.grid p ≠ [] then advance s1.rng else s1.rng }

/-- Destination of the predator at `p`. -/
def predatorDest (R C : Nat) (g : Grid) (p : Pos) (rng : Rand) : Pos :=
  if preyOf R C g p ≠ [] then pick (preyOf R C g p) rng
  else if emptyOf R C g p ≠ [] then pick (emptyOf R C g p) rng
  else p

/-- Energy the predator at `p` is written with: `energy - 1`, plus 5 when it has
a prey neighbour (`consumedPrey`). -/
def newEnergyOf (R C : Nat) (g : Grid) (p : Pos) : Int :=
  (look g p).energy - 1 + (if preyOf R C g p ≠ [] then 5 else 0)

/-- First predator neighbour of `p` with energy at least 5 in the grid being read. -/
def partnerOf (R C : Nat) (g : Grid) (p : Pos) : Option Pos :=
  (predatorOf R C g p).find? (fun q => decide ((look g q).energy ≥ 5))

/-- Total form of `predatorReproduce`, given the partner found by the scan. -/
def spawnT (newLocation : Pos) (emptyNeighbors : List Pos) (partner : Option Pos)
    (nextGrid : Grid) : Grid :=
  match partner, emptyNeighbors with
  | some q, e :: _ => charge (charge (put nextGrid e ⟨.Predator, 5, 0⟩) newLocation) q
  | _, _ => nextGrid

/-- Total form of `updatePredator` on a well-formed state. -/
def updatePredatorT (R C : Nat) (p : Pos) (s : Sim) : Sim :=
  if (look s.grid p).status ≠ .Predator then s
  else if (look s.grid p).energy ≤ 0 then { s with nextGrid := kill s.nextGrid p }
  else
    let dest := predatorDest R C s.grid p s.rng
    let next1 := put s.nextGrid dest ⟨.Predator, newEnergyOf R C s.grid p, 0⟩
    let next2 := if dest ≠ p then kill next1 p else next1
    { s with
      nextGrid :=
        if newEnergyOf R C s.grid p ≥ 5 then
          spawnT dest (emptyOf R C s.grid p) (partnerOf R C s.grid p) next2
        else next2,
      rng := if preyOf R C s.grid p ≠ [] ∨ emptyOf R C s.grid p ≠ [] then advance s.rng
        else s.rng }

/-- Cells of a `rows x cols` grid in the order the loops of `updateGrid` visit
them: row-major. -/
def cellList (R C : Nat) : List Pos :=
  (List.range R).flatMap
    (fun (r : Nat) => (List.range C).map (fun (c : Nat) => ((r : Int), (c : Int))))

/-- Total form of phase 1 of `updateGrid`. -/
def preyPhaseT (R C : Nat) (s : Sim) : Sim :=
  (cellList R C).foldl (fun acc p => updatePreyT R C p acc) s

/-- Total form of phase 2 of `updateGrid`. -/
def predatorPhaseT (R C : Nat) (s : Sim) : Sim :=
  (cellList R C).foldl (fun acc p => updatePredatorT R C p acc) s

/-- Total form of `updateGrid` on a rectangular grid: the state after both phases. -/
def stepT (R C : Nat) (g : Grid) (rng : Rand) : Sim :=
  predatorPhaseT R C (preyPhaseT R C ⟨g, g, rng⟩)

instance (g : Grid) (R C : Nat) : Decidable (Rect g R C) := by
  unfold Rect; infer_instance

instance (R C : Nat) (p : Pos) : Decidable (InB R C p) := by
  unfold InB; infer_instance

instance (R C : Nat) (s : Sim) : Decidable (WF R C s) := by
  unfold WF; infer_instance

/-! ## Vocabulary of the statements built on the total writes -/

/-- Decisions of `updatePredator` for a predator that acts (energy above 0):
destination, `consumedPrey` flag, new energy, and the reproduction decision (the
partner's cell and the spawn cell, when it reproduces). -/
structure Decision where
  dest : Pos
  consumedPrey : Bool
  newEnergy : Int
  reproduction : Option (Pos × Pos)

/-- Writes `updatePredator` performs on a buffer once its decisions are taken
(source lines 156-161 and 173-177). -/
def applyDecision (origin : Pos) (d : Decision) (nextGrid : Grid) : Grid :=
  let n1 := put nextGrid d.dest ⟨.Predator, d.newEnergy, 0⟩
  let n2 := if d.dest ≠ origin then kill n1 origin else n1
  match d.reproduction with
  | some (partner, spawn) => charge (charge (put n2 spawn ⟨.Predator, 5, 0⟩) d.dest) partner
  | none => n2

/-- Reproduction decision of the scan of source lines 164-182, from the lists
of the grid being read: the first predator neighbour with energy at least 5 and
the first empty neighbour, when the new energy is at least 5 and both exist. -/
def reproductionChoice (grid : Grid) (newEnergy : Int) (nb : Split) : Option (Pos × Pos) :=
  if newEnergy ≥ 5 then
    match nb.predatorNeighbors.find? (fun q => decide ((look grid q).energy ≥ 5)),
      nb.emptyNeighbors with
    | some q, e :: _ => some (q, e)
    | _, _ => none
  else none

/-- The only organism of the grid is a Predator at `p`: every other cell of the
`R x C` grid is Dead. -/
def LonePredatorAt (R C : Nat) (g : Grid) (p : Pos) : Prop :=
  (look g p).status = .Predator ∧ ∀ q ∈ cellList R C, q ≠ p → (look g q).status = .Dead

instance (R C : Nat) (g : Grid) (p : Pos) : Decidable (LonePredatorAt R C g p) := by
  unfold LonePredatorAt; infer_instance

/-! ## Invariants used in the proofs -/

/-- Every Prey cell of the grid has a cooldown in {0, 1, 2}. -/
def CoolOK (g : Grid) : Prop :=
  ∀ x : Pos, (look g x).status = .Prey →
    (look g x).reproductionCooldown = 0 ∨ (look g x).reproductionCooldown = 1 ∨
      (look g x).reproductionCooldown = 2

/-- Contribution of one cell to `countStatus`. -/
def ind (st : CellStatus) (x : Cell) : Nat := if x.status = st then 1 else 0

/-- Bounded form of `NoEvent` on a `rows x cols` grid, checked cell by cell. -/
def NoEventCheck (R C : Nat) (grid : Grid) : Prop :=
  ∀ p ∈ cellList R C,
    ((look grid p).status = .Prey → (look grid p).reproductionCooldown = 0 →
      ¬ (hasNeighbor grid (nbrs R C p) .Prey ∧ hasNeighbor grid (nbrs R C p) .Dead)) ∧
    ((look grid p).status = .Predator →
      ¬ hasNeighbor grid (nbrs R C p) .Prey ∧
        1 ≤ (look grid p).energy ∧ (look grid p).energy ≤ 4)

instance (R C : Nat) (grid : Grid) : Decidable (NoEventCheck R C grid) := by
  unfold NoEventCheck; infer_instance

/-- Bounded form of `NoContest` on a `rows x cols` grid, checked cell by cell. -/
def NoContestCheck (R C : Nat) (grid : Grid) : Prop :=
  ∀ p ∈ cellList R C, (look grid p).status = .Dead →
    ∀ a ∈ nbrs R C p, ∀ b ∈ nbrs R C p,
      (look grid a).status ≠ .Dead → (look grid b).status ≠ .Dead → a = b

instance (R C : Nat) (grid : Grid) : Decidable (NoContestCheck R C grid) := by
  unfold NoContestCheck; infer_instance

/-- Cell the prey at `q` is written as when it does not reproduce. -/
def movedPrey (g : Grid) (q : Pos) : Cell :=
  ⟨.Prey, 0, max 0 ((look g q).reproductionCooldown - 1)⟩

/-- The no-event hypotheses in the form the total rules test them. -/
def NoEventT (R C : Nat) (grid : Grid) : Prop :=
  (∀ q, (look grid q).status = .Prey →
      ¬ (preyOf R C grid q ≠ [] ∧ (look grid q).reproductionCooldown = 0 ∧
        emptyOf R C grid q ≠ [])) ∧
  (∀ q, (look grid q).status = .Predator → preyOf R C grid q = []) ∧
  (∀ q, (look grid q).status = .Predator →
      1 ≤ (look grid q).energy ∧ (look grid q).energy ≤ 4)

/-- Invariant of phase 1 on a no-event step without contested cells, after the
cells `done`: both counts are those of `grid`, the prey not yet processed and the
predators are still in the buffer, and a Dead cell of `grid` next to no processed
prey is still Dead in the buffer. -/
def PreyCons (R C : Nat) (grid : Grid) (done : List Pos) (s : Sim) : Prop :=
  WF R C s ∧ s.grid = grid ∧
    countStatus .Prey s.nextGrid = countStatus .Prey grid ∧
    countStatus .Predator s.nextGrid = countStatus .Predator grid ∧
    (∀ y, y ∉ done → (look grid y).status = .Prey → (look s.nextGrid y).status = .Prey) ∧
    (∀ y, (look grid y).status = .Predator → (look s.nextGrid y).status = .Predator) ∧
    (∀ d, (look grid d).status = .Dead →
      (∀ y ∈ done, (look grid y).status = .Prey → d ∉ nbrs R C y) →
      (look s.nextGrid d).status = .Dead)

/-- Invariant of phase 2 on a no-event step without contested cells, after the
cells `done`. -/
def PredatorCons (R C : Nat) (grid : Grid) (done : List Pos) (s : Sim) : Prop :=
  WF R C s ∧ s.grid = grid ∧
    countStatus .Prey s.nextGrid = countStatus .Prey grid ∧
    countStatus .Predator s.nextGrid = countStatus .Predator grid ∧
    (∀ y, y ∉ done → (look grid y).status = .Predator →
      (look s.nextGrid y).status = .Predator) ∧
    (∀ d, (look grid d).status = .Dead →
      (∀ y, (look grid y).status = .Prey → d ∉ nbrs R C y) →
      (∀ y ∈ done, (look grid y).status = .Predator → d ∉ nbrs R C y) →
      (look s.nextGrid d).status = .Dead)

/-- The prey at `p` reproduces in this call: cooldown 0, a Prey neighbour and a
Dead neighbour (test of source lines 88-89). -/
def PreyReproduces (R C : Nat) (g : Grid) (p : Pos) : Prop :=
  preyOf R C g p ≠ [] ∧ (look g p).reproductionCooldown = 0 ∧ emptyOf R C g p ≠ []

/-- Invariant of a step on a cell `x` that is Dead in the grid being read: the
buffer still holds the value of `grid` there, or a cell that is not Dead. -/
def DeadInv (R C : Nat) (grid : Grid) (x : Pos) (s : Sim) : Prop :=
  WF R C s ∧ (look s.grid x).status = .Dead ∧
    (look s.nextGrid x = look grid x ∨ (look s.nextGrid x).status ≠ .Dead)

/-- Every Predator of the buffer at a cell satisfying `Q` has energy at least 0. -/
def NonNegOn (Q : Pos → Prop) (g : Grid) : Prop :=
  ∀ x, Q x → (look g x).status = .Predator → 0 ≤ (look g x).energy

/-- The cell did not hold a Predator with energy at least 5 in `grid`. -/
def NotPartner (grid : Grid) (x : Pos) : Prop :=
  ¬ ((look grid x).status = .Predator ∧ (look grid x).energy ≥ 5)

/-! ## Sample inputs -/

/-- Sample state: a lone predator with energy 3 next to an empty cell. -/
def lonePredator : Sim :=
  { grid := [[⟨.Predator, 3, 0⟩, ⟨.Dead, 0, 0⟩]],
    nextGrid := [[⟨.Predator, 3, 0⟩, ⟨.Dead, 0, 0⟩]],
    rng := fun _ => 0 }

/-- Sample state: a prey with cooldown 0 at (0,1), a prey neighbour on its left
and an empty cell on its right. -/
def preyPair : Sim :=
  { grid := [[⟨.Prey, 0, 0⟩, ⟨.Prey, 0, 0⟩, ⟨.Dead, 0, 0⟩]],
    nextGrid := [[⟨.Prey, 0, 0⟩, ⟨.Prey, 0, 0⟩, ⟨.Dead, 0, 0⟩]],
    rng := fun _ => 0 }

/-- Sample grid: two prey (cooldown 1) whose only empty neighbour is the same
cell (0,1). -/
def collidingPrey : Grid := [[⟨.Prey, 0, 1⟩, ⟨.Dead, 0, 0⟩, ⟨.Prey, 0, 1⟩]]

/-- Sample grid: a prey and a predator with energy 3, far apart. -/
def quietGrid : Grid :=
  [[⟨.Prey, 0, 1⟩, ⟨.Dead, 0, 0⟩, ⟨.Dead, 0, 0⟩, ⟨.Dead, 0, 0⟩, ⟨.Predator, 3, 0⟩]]

/-- Sample grid: two prey and a predator on a 2 x 6 grid, each with Dead
neighbours to move to and no Dead cell next to two of them. -/
def scatteredGrid : Grid :=
  [[⟨.Prey, 0, 1⟩, ⟨.Dead, 0, 0⟩, ⟨.Dead, 0, 0⟩, ⟨.Dead, 0, 0⟩, ⟨.Dead, 0, 0⟩, ⟨.Prey, 0, 0⟩],
   [⟨.Dead, 0, 0⟩, ⟨.Dead, 0, 0⟩, ⟨.Predator, 3, 0⟩, ⟨.Dead, 0, 0⟩, ⟨.Dead, 0, 0⟩,
    ⟨.Dead, 0, 0⟩]]

/-- Sample grid: a prey at (0,0) and a predator at (0,1) in a 3 x 4 grid whose
other cells are Dead. -/
def cornerGrid : Grid :=
  [[⟨.Prey, 0, 0⟩, ⟨.Predator, 2, 0⟩, ⟨.Dead, 0, 0⟩, ⟨.Dead, 0, 0⟩],
   [⟨.Dead, 0, 0⟩, ⟨.Dead, 0, 0⟩, ⟨.Dead, 0, 0⟩, ⟨.Dead, 0, 0⟩],
   [⟨.Dead, 0, 0⟩, ⟨.Dead, 0, 0⟩, ⟨.Dead, 3, 1⟩, ⟨.Dead, 0, 0⟩]]

/-- Sample grid, 7 x 7: a prey with cooldown 0 at (5,5), a prey at (5,4), every
other cell Dead. -/
def nestGrid : Grid :=
  (List.replicate 7 (List.replicate 7 (⟨.Dead, 0, 0⟩ : Cell))).set 5
    [⟨.Dead, 0, 0⟩, ⟨.Dead, 0, 0⟩, ⟨.Dead, 0, 0⟩, ⟨.Dead, 0, 0⟩, ⟨.Prey, 0, 0⟩, ⟨.Prey, 0, 0⟩,
      ⟨.Dead, 0, 0⟩]

/-- Sample grid: two adjacent predators with energy 5 and an empty cell, no prey. -/
def pairNoPrey : Grid := [[⟨.Predator, 5, 0⟩, ⟨.Predator, 5, 0⟩, ⟨.Dead, 0, 0⟩]]

/-- Sample grid: the predator at (0,1) (energy 5) has the prey (0,0), the
predator (1,1) (energy 5) and the empty cells (0,2), (1,0) as neighbours. -/
def spawnRace : Grid :=
  [[⟨.Prey, 0, 1⟩, ⟨.Predator, 5, 0⟩, ⟨.Dead, 0, 0⟩],
   [⟨.Dead, 0, 0⟩, ⟨.Predator, 5, 0⟩, ⟨.Dead, 0, 0⟩]]

/-- Sample grid: the predator at (0,0) (energy 5) is scanned first and moves to
its only empty neighbour (1,0); the predator at (0,1) (energy 6) then reproduces
with it as partner. -/
def movedPartner : Grid :=
  [[⟨.Predator, 5, 0⟩, ⟨.Predator, 6, 0⟩, ⟨.Dead, 0, 0⟩],
   [⟨.Dead, 0, 0⟩, ⟨.Dead, 0, 0⟩, ⟨.Dead, 0, 0⟩]]

/-- Sample state: the predator at (0,1) (energy 6) has the predator (0,0)
(energy 5) and a single empty cell (0,2) as neighbours. -/
def crowdedPredator : Sim :=
  { grid := [[⟨.Predator, 5, 0⟩, ⟨.Predator, 6, 0⟩, ⟨.Dead, 0, 0⟩]],
    nextGrid := [[⟨.Predator, 5, 0⟩, ⟨.Predator, 6, 0⟩, ⟨.Dead, 0, 0⟩]],
    rng := fun _ => 0 }

/-- Sample grid: the predator at (0,0) (energy 5) has only predators as
neighbours; the predators at (0,1) and (1,0) (energy 6) are scanned after it and
each reproduces with it as partner. -/
def sharedPartner : Grid :=
  [[⟨.Predator, 5, 0⟩, ⟨.Predator, 6, 0⟩, ⟨.Dead, 0, 0⟩],
   [⟨.Predator, 6, 0⟩, ⟨.Dead, 0, 0⟩, ⟨.Dead, 0, 0⟩]]

/-- Sample grid, 10 x 10: a predator with energy 1 at (0,0), every other cell
Dead. -/
def starvingGrid : Grid :=
  (List.replicate 10 (List.replicate 10 (⟨.Dead, 0, 0⟩ : Cell))).set 0
    ((List.replicate 10 (⟨.Dead, 0, 0⟩ : Cell)).set 0 ⟨.Predator, 1, 0⟩)

/-! ## Lemmas -/

/-! ### Grid access on rectangular grids -/

theorem cellAt_eq_cell? (g : Grid) (r c : Int) :
    cellAt g r c = match cell? g (r, c) with
      | some x => .ok x
      | none => .error .gridIndex := by
  unfold cellAt rowAt cell?
  by_cases hr : r < 0
  · have : ¬ (0 ≤ r ∧ 0 ≤ c) := by omega
    simp [hr, this]
  · rcases hrow : g[r.toNat]? with _ | cells
    · by_cases hc : c < 0
      · have : ¬ (0 ≤ r ∧ 0 ≤ c) := by omega
        simp [hr, this]
      · have : 0 ≤ r ∧ 0 ≤ c := by omega
        simp [hr, this, hrow]
    · by_cases hc : c < 0
      · have : ¬ (0 ≤ r ∧ 0 ≤ c) := by omega
        simp [hr, hc, this]
      · have : 0 ≤ r ∧ 0 ≤ c := by omega
        rcases hcell : cells[c.toNat]? with _ | x <;> simp [hr, hc, this, hrow, hcell]

theorem look_eq_cell? (g : Grid) (p : Pos) : look g p = (cell? g p).getD ⟨.Dead, 0, 0⟩ := by
  unfold look
  rw [cellAt_eq_cell?]
  cases cell? g (p.1, p.2) <;> rfl

theorem cell?_of_inB {g : Grid} {R C : Nat} (hg : Rect g R C) {p : Pos} (hp : InB R C p) :
    ∃ x, cell? g p = some x := by
  obtain ⟨h1, h2, h3, h4⟩ := hp
  have hlt : p.1.toNat < g.length := by rw [hg.1]; omega
  have hlen : (g[p.1.toNat]).length = C := hg.2 _ (List.getElem_mem _)
  have hlt2 : p.2.toNat < (g[p.1.toNat]).length := by rw [hlen]; omega
  refine ⟨(g[p.1.toNat])[p.2.toNat], ?_⟩
  simp [cell?, h1, h3, List.getElem?_eq_getElem hlt, List.getElem?_eq_getElem hlt2]

theorem cellAt_eq_look {g : Grid} {R C : Nat} (hg : Rect g R C) {p : Pos} (hp : InB R C p) :
    cellAt g p.1 p.2 = .ok (look g p) := by
  obtain ⟨x, hx⟩ := cell?_of_inB hg hp
  rw [cellAt_eq_cell?, look_eq_cell?, hx]
  rfl

theorem modifyCell_eq_put {g : Grid} {R C : Nat} (hg : Rect g R C) {p : Pos} (hp : InB R C p)
    (f : Cell → Cell) : modifyCell g p.1 p.2 f = .ok (put g p (f (look g p))) := by
  have hc := cellAt_eq_look hg hp
  obtain ⟨h1, h2, h3, h4⟩ := hp
  have hlt : p.1.toNat < g.length := by rw [hg.1]; omega
  have hr : ¬ p.1 < 0 := by omega
  simp [modifyCell, hc, rowAt, hr, put, List.getD, List.getElem?_eq_getElem hlt]

theorem rect_put {g : Grid} {R C : Nat} (hg : Rect g R C) (p : Pos) (x : Cell) :
    Rect (put g p x) R C := by
  refine ⟨by simp [put, hg.1], ?_⟩
  intro cells hmem
  by_cases hlt : p.1.toNat < g.length
  · rcases List.mem_or_eq_of_mem_set hmem with h | h
    · exact hg.2 _ h
    · subst h
      rw [List.length_set]
      simp only [List.getD, List.get?_eq_getElem?, List.getElem?_eq_getElem hlt, Option.getD_some]
      exact hg.2 _ (List.getElem_mem _)
  · unfold put at hmem
    rw [List.set_eq_of_length_le (by omega)] at hmem
    exact hg.2 _ hmem

theorem cell?_put {g : Grid} {p : Pos} (hp : 0 ≤ p.1 ∧ 0 ≤ p.2) (x : Cell) (q : Pos) :
    cell? (put g p x) q = if q = p then (cell? g p).map (fun _ => x) else cell? g q := by
  obtain ⟨h1, h2⟩ := hp
  by_cases hq : 0 ≤ q.1 ∧ 0 ≤ q.2
  · by_cases hqp : q = p
    · subst hqp
      simp only [cell?, hq, and_self, if_true, put, List.getElem?_set]
      by_cases hlt : q.1.toNat < g.length
      · simp [hlt, List.getD, List.getElem?_eq_getElem hlt, List.getElem?_set]
        by_cases hlt2 : q.2.toNat < (g[q.1.toNat]).length
        · simp [hlt2, List.getElem?_eq_getElem hlt2]
        · simp [hlt2, List.getElem?_eq_none (Nat.le_of_not_lt hlt2)]
      · simp [hlt, List.getElem?_eq_none (Nat.le_of_not_lt hlt)]
    · simp only [cell?, hq, and_self, if_true, put, hqp, if_false]
      by_cases hrow : p.1.toNat = q.1.toNat
      · have hcol : p.2.toNat ≠ q.2.toNat := by
          intro h
          apply hqp
          have : q.1 = p.1 := by omega
          have : q.2 = p.2 := by omega
          exact Prod.ext ‹_› ‹_›
        rw [List.getElem?_set, if_pos hrow]
        by_cases hlt : p.1.toNat < g.length
        · have hlt' : q.1.toNat < g.length := hrow ▸ hlt
          simp [hlt', List.getD, List.getElem?_eq_getElem hlt, List.getElem?_eq_getElem hlt',
            List.getElem?_set_ne hcol, hrow]
        · have hlt' : ¬ q.1.toNat < g.length := hrow ▸ hlt
          simp [hlt, List.getElem?_eq_none (Nat.le_of_not_lt hlt')]
      · rw [List.getElem?_set_ne hrow]
  · have hqp : q ≠ p := by
      rintro rfl
      exact hq ⟨h1, h2⟩
    simp [cell?, hq, hqp]

theorem look_put_self {g : Grid} {R C : Nat} (hg : Rect g R C) {p : Pos} (hp : InB R C p)
    (x : Cell) : look (put g p x) p = x := by
  obtain ⟨y, hy⟩ := cell?_of_inB hg hp
  rw [look_eq_cell?, cell?_put ⟨hp.1, hp.2.2.1⟩, if_pos rfl, hy]
  rfl

theorem look_put_ne {g : Grid} {p q : Pos} (hne : q ≠ p) (hp : 0 ≤ p.1 ∧ 0 ≤ p.2) (x : Cell) :
    look (put g p x) q = look g q := by
  rw [look_eq_cell?, look_eq_cell?, cell?_put hp, if_neg hne]

/-! ### Neighbours -/

theorem scanCols_eq {g : Grid} {R C : Nat} (hg : Rect g R C) (hR : 0 < R) : scanCols g = C := by
  cases g with
  | nil => simp [Rect] at hg; omega
  | cons row0 rest => exact hg.2 _ (List.mem_cons_self _ _)

theorem getNeighbors_eq {g : Grid} {R C : Nat} (hg : Rect g R C) (hR : 0 < R) (r c : Int) :
    getNeighbors r c g = .ok (nbrs R C (r, c)) := by
  cases g with
  | nil => simp [Rect] at hg; omega
  | cons row0 rest =>
    have h0 : row0.length = C := hg.2 _ (List.mem_cons_self _ _)
    have hl : (rest.length : Int) + 1 = R := by have := hg.1; simp at this; omega
    simp [getNeighbors, rowAt, nbrs, h0, hl]

theorem inRange_iff (R C : Nat) (p : Pos) : inRange R C p = true ↔ InB R C p := by
  simp [inRange, InB]

theorem mem_nbrs {R C : Nat} {p q : Pos} :
    q ∈ nbrs R C p ↔ InB R C q ∧ ∃ off ∈ offsetsOf p.1, q = (p.1 + off.1, p.2 + off.2) := by
  simp only [nbrs, List.mem_filter, List.mem_map, inRange_iff]
  constructor
  · rintro ⟨⟨off, ho, rfl⟩, hq⟩
    exact ⟨hq, off, ho, rfl⟩
  · rintro ⟨hq, off, ho, rfl⟩
    exact ⟨⟨off, ho, rfl⟩, hq⟩

theorem nbrs_inB {R C : Nat} {p q : Pos} (h : q ∈ nbrs R C p) : InB R C q := (mem_nbrs.1 h).1

theorem nbrs_ne_self {R C : Nat} {p q : Pos} (h : q ∈ nbrs R C p) : q ≠ p := by
  obtain ⟨-, off, ho, rfl⟩ := mem_nbrs.1 h
  intro heq
  have h1 : p.1 + off.1 = p.1 := congrArg Prod.fst heq
  have h2 : p.2 + off.2 = p.2 := congrArg Prod.snd heq
  have e1 : off.1 = 0 := by omega
  have e2 : off.2 = 0 := by omega
  unfold offsetsOf evenOffsets oddOffsets at ho
  split at ho <;> simp at ho <;> rcases ho with h | h | h | h | h | h <;> subst h <;> simp at e1 e2

theorem offsetsOf_neg {r : Int} {off : Int × Int} (ho : off ∈ offsetsOf r) :
    (-off.1, -off.2) ∈ offsetsOf (r + off.1) := by
  unfold offsetsOf evenOffsets oddOffsets at ho ⊢
  split at ho <;> simp only [List.mem_cons, List.mem_singleton, List.not_mem_nil, or_false] at ho <;>
    rcases ho with h | h | h | h | h | h <;> subst h <;> dsimp only <;>
    first
      | (rw [if_pos (by omega)]; simp)
      | (rw [if_neg (by omega)]; simp)

theorem nbrs_symm {R C : Nat} {p q : Pos} (h : q ∈ nbrs R C p) (hp : InB R C p) :
    p ∈ nbrs R C q := by
  obtain ⟨-, off, ho, rfl⟩ := mem_nbrs.1 h
  refine mem_nbrs.2 ⟨hp, (-off.1, -off.2), offsetsOf_neg ho, ?_⟩
  ext <;> simp

theorem nbrs_length_le (R C : Nat) (p : Pos) : (nbrs R C p).length ≤ 6 := by
  unfold nbrs
  refine le_trans (List.length_filter_le _ _) ?_
  rw [List.length_map]
  unfold offsetsOf evenOffsets oddOffsets
  split <;> simp

theorem nbrs_length_interior {R C : Nat} {p : Pos}
    (h : 1 ≤ p.1 ∧ p.1 ≤ (R : Int) - 2 ∧ 1 ≤ p.2 ∧ p.2 ≤ (C : Int) - 2) :
    (nbrs R C p).length = 6 := by
  obtain ⟨h1, h2, h3, h4⟩ := h
  have hall : ∀ off ∈ offsetsOf p.1, inRange R C (p.1 + off.1, p.2 + off.2) = true := by
    intro off ho
    rw [inRange_iff]
    unfold offsetsOf evenOffsets oddOffsets at ho
    split at ho <;> simp at ho <;> rcases ho with h | h | h | h | h | h <;> subst h <;>
      simp [InB] <;> omega
  unfold nbrs
  rw [List.filter_eq_self.2]
  · rw [List.length_map]
    unfold offsetsOf evenOffsets oddOffsets
    split <;> simp
  · intro q hq
    obtain ⟨off, ho, rfl⟩ := List.mem_map.1 hq
    exact hall off ho

/-! ### Classification and random choice -/

theorem mem_withStatus {g : Grid} {st : CellStatus} {ns : List Pos} {q : Pos} :
    q ∈ withStatus g st ns ↔ q ∈ ns ∧ (look g q).status = st := by
  simp [withStatus, List.mem_filter]

theorem classify_eq {g : Grid} {R C : Nat} (hg : Rect g R C) :
    ∀ ns : List Pos, (∀ q ∈ ns, InB R C q) →
      classify g ns = .ok ⟨withStatus g .Prey ns, withStatus g .Dead ns,
        withStatus g .Predator ns⟩
  | [], _ => rfl
  | (r, c) :: rest, h => by
    have hq : InB R C (r, c) := h _ (List.mem_cons_self _ _)
    have ih := classify_eq hg rest (fun q hq => h q (List.mem_cons_of_mem _ hq))
    have hc : cellAt g r c = .ok (look g (r, c)) := cellAt_eq_look hg hq
    simp only [classify, hc, ih, withStatus, List.filter_cons]
    cases hs : (look g (r, c)).status <;> simp

theorem randomChoice_eq {xs : List Pos} (h : xs ≠ []) (rng : Rand) :
    randomChoice xs rng = .ok (pick xs rng, advance rng) := by
  have hpos : 0 < xs.length := List.length_pos.2 h
  have hlt : rng 0 % xs.length < xs.length := Nat.mod_lt _ hpos
  have hne : xs.length ≠ 0 := by omega
  simp [randomChoice, rand, pick, hne, List.getD, List.getElem?_eq_getElem hlt]
  rfl

theorem pick_mem {xs : List Pos} (h : xs ≠ []) (rng : Rand) : pick xs rng ∈ xs := by
  have hpos : 0 < xs.length := List.length_pos.2 h
  have hlt : rng 0 % xs.length < xs.length := Nat.mod_lt _ hpos
  simp only [pick, List.getD, List.get?_eq_getElem?, List.getElem?_eq_getElem hlt, Option.getD_some]
  exact List.getElem_mem _

/-! ### The prey rule returns its total form -/

theorem emptyOf_inB {R C : Nat} {g : Grid} {p q : Pos} (h : q ∈ emptyOf R C g p) : InB R C q :=
  nbrs_inB (mem_withStatus.1 h).1

theorem preyOf_inB {R C : Nat} {g : Grid} {p q : Pos} (h : q ∈ preyOf R C g p) : InB R C q :=
  nbrs_inB (mem_withStatus.1 h).1

theorem predatorOf_inB {R C : Nat} {g : Grid} {p q : Pos} (h : q ∈ predatorOf R C g p) :
    InB R C q :=
  nbrs_inB (mem_withStatus.1 h).1

theorem preyDest_inB {R C : Nat} {g : Grid} {p : Pos} (hp : InB R C p) (rng : Rand) :
    InB R C (preyDest R C g p rng) := by
  unfold preyDest
  split
  · exact emptyOf_inB (pick_mem ‹_› rng)
  · exact hp

@[simp] theorem ok_bind {α β : Type} (a : α) (f : α → Except Fault β) :
    (Except.ok a >>= f) = f a := rfl

theorem wf_preyReproduceT {R C : Nat} {s : Sim} (hw : WF R C s) (p : Pos) :
    WF R C (preyReproduceT R C p s) := by
  unfold preyReproduceT
  split
  · exact ⟨rect_put hw.1 _ _, rect_put hw.2 _ _⟩
  · exact hw

theorem preyReproduce_eq {R C : Nat} {s : Sim} (hw : WF R C s) {p : Pos} (hp : InB R C p) :
    preyReproduce p.1 p.2 (look s.grid p)
      ⟨preyOf R C s.grid p, emptyOf R C s.grid p, predatorOf R C s.grid p⟩ s =
      .ok (preyReproduceT R C p s) := by
  unfold preyReproduce preyReproduceT
  by_cases h1 : preyOf R C s.grid p ≠ [] ∧ (look s.grid p).reproductionCooldown = 0
  · by_cases h2 : emptyOf R C s.grid p ≠ []
    · have hq : InB R C (pick (emptyOf R C s.grid p) s.rng) := emptyOf_inB (pick_mem h2 _)
      simp only [h1, h2, if_true, and_self, ne_eq, not_false_eq_true, randomChoice_eq h2, ok_bind,
        modifyCell_eq_put hw.2 hq, modifyCell_eq_put hw.1 hp]
    · simp only [h1, h2, if_true, if_false, and_self, and_false, ne_eq, not_false_eq_true]
  · have h3 : ¬ (preyOf R C s.grid p ≠ [] ∧ (look s.grid p).reproductionCooldown = 0 ∧
        emptyOf R C s.grid p ≠ []) := fun h => h1 ⟨h.1, h.2.1⟩
    rw [if_neg h1, if_neg h3]

theorem preyTarget_eq (R C : Nat) (g : Grid) (p : Pos) (ps xs : List Pos) (rng : Rand) :
    preyTarget p.1 p.2 ⟨ps, emptyOf R C g p, xs⟩ rng =
      .ok (preyDest R C g p rng, if emptyOf R C g p ≠ [] then advance rng else rng) := by
  unfold preyTarget preyDest
  by_cases h : emptyOf R C g p ≠ []
  · simp only [h, if_true, ne_eq, not_false_eq_true, randomChoice_eq h]
  · simp only [h, if_false]

theorem updatePrey_eq {R C : Nat} (hR : 0 < R) {s : Sim} (hw : WF R C s) {p : Pos}
    (hp : InB R C p) : updatePrey p.1 p.2 s = .ok (updatePreyT R C p s) := by
  unfold updatePrey updatePreyT
  simp only [cellAt_eq_look hw.1 hp, ok_bind]
  by_cases hs : (look s.grid p).status ≠ .Prey
  · simp only [hs, if_true, ne_eq, not_false_eq_true]
  · have hw1 := wf_preyReproduceT hw p
    have hd := preyDest_inB (g := s.grid) hp (preyReproduceT R C p s).rng
    have hrep := preyReproduce_eq hw hp
    have htgt := preyTarget_eq R C s.grid p (preyOf R C s.grid p) (predatorOf R C s.grid p)
      (preyReproduceT R C p s).rng
    simp only [preyOf, emptyOf, predatorOf] at hrep htgt
    simp only [hs, if_false, getNeighbors_eq hw.1 hR, ok_bind,
      classify_eq hw.1 _ (fun q hq => nbrs_inB hq), hrep, htgt, cellAt_eq_look hw1.1 hp,
      modifyCell_eq_put hw1.2 hd, emptyOf]
    by_cases hb : preyDest R C s.grid p (preyReproduceT R C p s).rng ≠ p
    · have hb2 : preyDest R C s.grid p (preyReproduceT R C p s).rng ≠ (p.1, p.2) := hb
      simp only [hb, hb2, if_true, ne_eq, not_false_eq_true,
        modifyCell_eq_put (rect_put hw1.2 _ _) hp, ok_bind, kill]
    · have hb2 : ¬ preyDest R C s.grid p (preyReproduceT R C p s).rng ≠ (p.1, p.2) := hb
      simp only [hb, hb2, if_false]

theorem wf_updatePreyT {R C : Nat} {s : Sim} (hw : WF R C s) (p : Pos) :
    WF R C (updatePreyT R C p s) := by
  have hw1 := wf_preyReproduceT hw p
  unfold updatePreyT
  split
  · exact hw
  · refine ⟨hw1.1, ?_⟩
    dsimp only
    split
    · exact rect_put (rect_put hw1.2 _ _) _ _
    · exact rect_put hw1.2 _ _

/-! ### The predator rule returns its total form -/

theorem predatorDest_inB {R C : Nat} {g : Grid} {p : Pos} (hp : InB R C p) (rng : Rand) :
    InB R C (predatorDest R C g p rng) := by
  unfold predatorDest
  split
  · exact preyOf_inB (pick_mem ‹_› rng)
  · split
    · exact emptyOf_inB (pick_mem ‹_› rng)
    · exact hp

theorem predatorTarget_eq (R C : Nat) (g : Grid) (p : Pos) (xs : List Pos) (rng : Rand) :
    predatorTarget p.1 p.2 ⟨preyOf R C g p, emptyOf R C g p, xs⟩ rng =
      .ok (predatorDest R C g p rng, decide (preyOf R C g p ≠ []),
        if preyOf R C g p ≠ [] ∨ emptyOf R C g p ≠ [] then advance rng else rng) := by
  unfold predatorTarget predatorDest
  by_cases h : preyOf R C g p ≠ []
  · simp only [h, if_true, ne_eq, not_false_eq_true, randomChoice_eq h, ok_bind, true_or,
      decide_True]
  · by_cases h2 : emptyOf R C g p ≠ []
    · simp only [h, h2, if_true, if_false, ne_eq, not_false_eq_true, randomChoice_eq h2, ok_bind,
        or_true, decide_False]
    · simp only [h, h2, if_false, or_self, decide_False]

theorem rect_kill {g : Grid} {R C : Nat} (hg : Rect g R C) (p : Pos) : Rect (kill g p) R C :=
  rect_put hg _ _

theorem rect_charge {g : Grid} {R C : Nat} (hg : Rect g R C) (p : Pos) : Rect (charge g p) R C :=
  rect_put hg _ _

theorem rect_spawnT {g : Grid} {R C : Nat} (hg : Rect g R C) (d : Pos) (es : List Pos)
    (q : Option Pos) : Rect (spawnT d es q g) R C := by
  unfold spawnT
  split
  · exact rect_charge (rect_charge (rect_put hg _ _) _) _
  · exact hg

theorem predatorReproduce_eq {R C : Nat} {g next : Grid} (hg : Rect g R C)
    (hn : Rect next R C) {d : Pos} (hd : InB R C d) {es : List Pos}
    (hes : ∀ q ∈ es, InB R C q) :
    ∀ xs : List Pos, (∀ q ∈ xs, InB R C q) →
      predatorReproduce g d es xs next =
        .ok (spawnT d es (xs.find? (fun q => decide ((look g q).energy ≥ 5))) next)
  | [], _ => rfl
  | (r, c) :: rest, h => by
    have hq : InB R C (r, c) := h _ (List.mem_cons_self _ _)
    have ih := predatorReproduce_eq hg hn hd hes rest (fun q hq => h q (List.mem_cons_of_mem _ hq))
    have hc : cellAt g r c = .ok (look g (r, c)) := cellAt_eq_look hg hq
    simp only [predatorReproduce, hc, List.find?_cons]
    by_cases he : (look g (r, c)).energy ≥ 5
    · simp only [he, if_true, decide_True]
      cases es with
      | nil => rfl
      | cons e es' =>
        have hein : InB R C e := hes _ (List.mem_cons_self _ _)
        obtain ⟨e1, e2⟩ := e
        simp only [spawnT, charge, modifyCell_eq_put hn hein, ok_bind,
          modifyCell_eq_put (rect_put hn _ _) hd,
          modifyCell_eq_put (rect_put (rect_put hn _ _) _ _) hq]
    · simp only [he, if_false, decide_False, ih]

theorem updatePredator_eq {R C : Nat} (hR : 0 < R) {s : Sim} (hw : WF R C s) {p : Pos}
    (hp : InB R C p) : updatePredator p.1 p.2 s = .ok (updatePredatorT R C p s) := by
  unfold updatePredator updatePredatorT
  simp only [cellAt_eq_look hw.1 hp, ok_bind]
  by_cases hs : (look s.grid p).status ≠ .Predator
  · simp only [hs, if_true, ne_eq, not_false_eq_true]
  by_cases he : (look s.grid p).energy ≤ 0
  · simp only [hs, he, if_true, if_false, modifyCell_eq_put hw.2 hp, ok_bind, kill]
  have hd := predatorDest_inB (g := s.grid) hp s.rng
  have htgt := predatorTarget_eq R C s.grid p (predatorOf R C s.grid p) s.rng
  simp only [preyOf, emptyOf, predatorOf] at htgt
  simp only [hs, he, if_false, getNeighbors_eq hw.1 hR, ok_bind,
    classify_eq hw.1 _ (fun q hq => nbrs_inB hq), htgt, modifyCell_eq_put hw.2 hd,
    decide_eq_true_eq, Prod.mk.eta]
  have hn1 : Rect (put s.nextGrid (predatorDest R C s.grid p s.rng)
      ⟨.Predator, newEnergyOf R C s.grid p, 0⟩) R C := rect_put hw.2 _ _
  have hrep := fun (next : Grid) (hn : Rect next R C) =>
    @predatorReproduce_eq R C s.grid next hw.1 hn _ hd (emptyOf R C s.grid p)
      (fun q hq => emptyOf_inB hq)
      (predatorOf R C s.grid p) (fun q hq => predatorOf_inB hq)
  simp only [preyOf, emptyOf, predatorOf, newEnergyOf] at hn1 hrep
  by_cases hE : newEnergyOf R C s.grid p ≥ 5
  · have hE2 := hE
    simp only [newEnergyOf, preyOf] at hE2
    by_cases hb : predatorDest R C s.grid p s.rng ≠ p
    · simp only [hb, hE2, if_true, ne_eq, not_false_eq_true, modifyCell_eq_put hn1 hp, ok_bind,
        hrep _ (rect_put hn1 _ _), kill, newEnergyOf, preyOf, emptyOf, partnerOf, predatorOf]
    · simp only [hb, hE2, if_true, if_false, hrep _ hn1, ok_bind, newEnergyOf, preyOf, emptyOf,
        partnerOf, predatorOf]
  · have hE2 := hE
    simp only [newEnergyOf, preyOf] at hE2
    by_cases hb : predatorDest R C s.grid p s.rng ≠ p
    · simp only [hb, hE2, if_true, if_false, ne_eq, not_false_eq_true,
        modifyCell_eq_put hn1 hp, ok_bind, kill, newEnergyOf, preyOf, emptyOf]
    · simp only [hb, hE2, if_false, newEnergyOf, preyOf, emptyOf]

theorem wf_updatePredatorT {R C : Nat} {s : Sim} (hw : WF R C s) (p : Pos) :
    WF R C (updatePredatorT R C p s) := by
  unfold updatePredatorT
  split
  · exact hw
  split
  · exact ⟨hw.1, rect_kill hw.2 _⟩
  refine ⟨hw.1, ?_⟩
  dsimp only
  have h2 : Rect (if predatorDest R C s.grid p s.rng ≠ p then
      kill (put s.nextGrid (predatorDest R C s.grid p s.rng)
        ⟨.Predator, newEnergyOf R C s.grid p, 0⟩) p
      else put s.nextGrid (predatorDest R C s.grid p s.rng)
        ⟨.Predator, newEnergyOf R C s.grid p, 0⟩) R C := by
    split
    · exact rect_kill (rect_put hw.2 _ _) _
    · exact rect_put hw.2 _ _
  split
  · exact rect_spawnT h2 _ _ _
  · exact h2

/-! ### The step returns its total form -/

theorem mem_cellList {R C : Nat} {p : Pos} : p ∈ cellList R C ↔ InB R C p := by
  simp only [cellList, List.mem_flatMap, List.mem_range, List.mem_map, InB]
  constructor
  · rintro ⟨r, hr, c, hc, rfl⟩
    refine ⟨?_, ?_, ?_, ?_⟩ <;> simp only <;> omega
  · rintro ⟨h1, h2, h3, h4⟩
    refine ⟨p.1.toNat, by omega, p.2.toNat, by omega, ?_⟩
    ext
    · exact Int.toNat_of_nonneg h1
    · exact Int.toNat_of_nonneg h3

theorem foldlM_eq_foldl (body : Int → Int → Sim → Except Fault Sim) (T : Pos → Sim → Sim)
    (I : Sim → Prop) :
    ∀ (l : List Pos) (s : Sim), I s →
      (∀ p ∈ l, ∀ s, I s → body p.1 p.2 s = .ok (T p s) ∧ I (T p s)) →
      l.foldlM (fun acc p => body p.1 p.2 acc) s = .ok (l.foldl (fun acc p => T p acc) s) ∧
        I (l.foldl (fun acc p => T p acc) s)
  | [], s, hs, _ => ⟨rfl, hs⟩
  | p :: l, s, hs, h => by
    obtain ⟨h1, h2⟩ := h p (List.mem_cons_self _ _) s hs
    have ih := foldlM_eq_foldl body T I l (T p s) h2 (fun q hq => h q (List.mem_cons_of_mem _ hq))
    simp only [List.foldlM_cons, h1, ok_bind, List.foldl_cons]
    exact ih

theorem forEachCell_eq_foldlM (R C : Nat) (body : Int → Int → Sim → Except Fault Sim) (s : Sim) :
    forEachCell R C body s = (cellList R C).foldlM (fun acc p => body p.1 p.2 acc) s := by
  unfold forEachCell cellList
  generalize List.range R = rs
  induction rs generalizing s with
  | nil => rfl
  | cons r rs ih =>
    simp only [List.foldlM_cons, List.flatMap_cons, List.foldlM_append, List.foldlM_map]
    congr 1
    funext s1
    exact ih s1

theorem forEachCell_eq (R C : Nat) (body : Int → Int → Sim → Except Fault Sim)
    (T : Pos → Sim → Sim) (I : Sim → Prop) (s : Sim) (hs : I s)
    (h : ∀ p, InB R C p → ∀ s, I s → body p.1 p.2 s = .ok (T p s) ∧ I (T p s)) :
    forEachCell R C body s = .ok ((cellList R C).foldl (fun acc p => T p acc) s) ∧
      I ((cellList R C).foldl (fun acc p => T p acc) s) := by
  rw [forEachCell_eq_foldlM]
  exact foldlM_eq_foldl body T I _ s hs (fun p hp => h p (mem_cellList.1 hp))

theorem preyBody_eq {R C : Nat} (hR : 0 < R) {s : Sim} (hw : WF R C s) {p : Pos}
    (hp : InB R C p) : preyBody p.1 p.2 s = .ok (updatePreyT R C p s) := by
  unfold preyBody
  simp only [cellAt_eq_look hw.1 hp, ok_bind]
  split
  · exact updatePrey_eq hR hw hp
  · rename_i h
    simp only [updatePreyT, h, ne_eq, not_false_eq_true, if_true]

theorem predatorBody_eq {R C : Nat} (hR : 0 < R) {s : Sim} (hw : WF R C s) {p : Pos}
    (hp : InB R C p) : predatorBody p.1 p.2 s = .ok (updatePredatorT R C p s) := by
  unfold predatorBody
  simp only [cellAt_eq_look hw.1 hp, ok_bind]
  split
  · exact updatePredator_eq hR hw hp
  · rename_i h
    simp only [updatePredatorT, h, ne_eq, not_false_eq_true, if_true]

theorem inB_pos {R C : Nat} {p : Pos} (hp : InB R C p) : 0 < R := by
  have := hp.1
  have := hp.2.1
  omega

theorem updateGrid_eq {g : Grid} {R C : Nat} (hg : Rect g R C) (rng : Rand) :
    updateGrid g rng = .ok ((stepT R C g rng).nextGrid, (stepT R C g rng).rng) ∧
      WF R C (stepT R C g rng) := by
  have hcell : cellList g.length (scanCols g) = cellList R C := by
    rcases Nat.eq_zero_or_pos R with h0 | hpos
    · subst h0
      have : g = [] := List.length_eq_zero.1 hg.1
      subst this
      simp [cellList]
    · rw [hg.1, scanCols_eq hg hpos]
  have h1 := forEachCell_eq R C preyBody (updatePreyT R C) (WF R C) ⟨g, g, rng⟩ ⟨hg, hg⟩
    (fun p hp s hs => ⟨preyBody_eq (inB_pos hp) hs hp, wf_updatePreyT hs p⟩)
  have h2 := forEachCell_eq R C predatorBody (updatePredatorT R C) (WF R C) _ h1.2
    (fun p hp s hs => ⟨predatorBody_eq (inB_pos hp) hs hp, wf_updatePredatorT hs p⟩)
  refine ⟨?_, h2.2⟩
  have e1 := h1.1
  have e2 := h2.1
  rw [forEachCell_eq_foldlM] at e1 e2
  unfold updateGrid
  simp only [forEachCell_eq_foldlM, hcell, e1, ok_bind, e2]
  rfl

/-! ### Reading a written grid -/

theorem look_put {g : Grid} {R C : Nat} (hg : Rect g R C) {p : Pos} (hp : InB R C p)
    (x : Cell) (q : Pos) : look (put g p x) q = if q = p then x else look g q := by
  by_cases h : q = p
  · subst h
    rw [if_pos rfl, look_put_self hg hp]
  · rw [if_neg h, look_put_ne h ⟨hp.1, hp.2.2.1⟩]

theorem look_kill {g : Grid} {R C : Nat} (hg : Rect g R C) {p : Pos} (hp : InB R C p)
    (q : Pos) : look (kill g p) q = if q = p then { look g p with status := .Dead } else look g q :=
  look_put hg hp _ q

theorem look_charge {g : Grid} {R C : Nat} (hg : Rect g R C) {p : Pos} (hp : InB R C p)
    (q : Pos) :
    look (charge g p) q =
      if q = p then { look g p with energy := (look g p).energy - 3 } else look g q :=
  look_put hg hp _ q

theorem inB_of_status {g : Grid} {R C : Nat} (hg : Rect g R C) {p : Pos}
    (h : (look g p).status ≠ .Dead) : InB R C p := by
  rw [look_eq_cell?] at h
  unfold cell? at h
  by_cases h0 : 0 ≤ p.1 ∧ 0 ≤ p.2
  · rw [if_pos h0] at h
    by_cases hlt : p.1.toNat < g.length
    · rw [List.getElem?_eq_getElem hlt] at h
      simp only [Option.bind] at h
      have hlen : (g[p.1.toNat]).length = C := hg.2 _ (List.getElem_mem _)
      by_cases hlt2 : p.2.toNat < (g[p.1.toNat]).length
      · have := hg.1
        refine ⟨h0.1, by omega, h0.2, by omega⟩
      · rw [List.getElem?_eq_none (Nat.le_of_not_lt hlt2)] at h
        exact absurd rfl h
    · rw [List.getElem?_eq_none (Nat.le_of_not_lt hlt)] at h
      exact absurd rfl h
  · rw [if_neg h0] at h
    exact absurd rfl h

theorem withStatus_ne_nil {g : Grid} {ns : List Pos} {st : CellStatus} :
    withStatus g st ns ≠ [] ↔ hasNeighbor g ns st := by
  unfold hasNeighbor
  constructor
  · intro h
    obtain ⟨q, hq⟩ := List.exists_mem_of_ne_nil _ h
    exact ⟨q, mem_withStatus.1 hq⟩
  · rintro ⟨q, hq, hs⟩ h
    have : q ∈ withStatus g st ns := mem_withStatus.2 ⟨hq, hs⟩
    rw [h] at this
    exact absurd this (List.not_mem_nil _)

/-! ### Effect of the spawn on statuses -/

theorem status_charge {g : Grid} {R C : Nat} (hg : Rect g R C) {p : Pos} (hp : InB R C p)
    (q : Pos) : (look (charge g p) q).status = (look g q).status := by
  rw [look_charge hg hp]
  split
  · rename_i h; rw [h]
  · rfl

theorem cooldown_charge {g : Grid} {R C : Nat} (hg : Rect g R C) {p : Pos} (hp : InB R C p)
    (q : Pos) : (look (charge g p) q).reproductionCooldown = (look g q).reproductionCooldown := by
  rw [look_charge hg hp]
  split
  · rename_i h; rw [h]
  · rfl

/-- Facts about the spawn: the partner (if any) and the empty neighbours are in
the grid. -/
theorem partnerOf_inB {R C : Nat} {g : Grid} {p q : Pos} (h : partnerOf R C g p = some q) :
    InB R C q :=
  predatorOf_inB (List.mem_of_find?_eq_some h)

theorem status_spawnT_of_not_mem {g : Grid} {R C : Nat} (hg : Rect g R C) {d : Pos}
    (hd : InB R C d) {es : List Pos} (hes : ∀ q ∈ es, InB R C q) {partner : Option Pos}
    (hpar : ∀ q, partner = some q → InB R C q) {y : Pos} (hy : y ∉ es) :
    (look (spawnT d es partner g) y).status = (look g y).status := by
  unfold spawnT
  split
  · rename_i q e es'
    have he : InB R C e := hes _ (List.mem_cons_self _ _)
    have hq : InB R C q := hpar q rfl
    have hne : y ≠ e := fun h => hy (h ▸ List.mem_cons_self _ _)
    rw [status_charge (rect_charge (rect_put hg _ _) _) hq,
      status_charge (rect_put hg _ _) hd, look_put hg he, if_neg hne]
  · rfl

theorem status_spawnT_of_predator {g : Grid} {R C : Nat} (hg : Rect g R C) {d : Pos}
    (hd : InB R C d) {es : List Pos} (hes : ∀ q ∈ es, InB R C q) {partner : Option Pos}
    (hpar : ∀ q, partner = some q → InB R C q) {y : Pos}
    (hy : (look g y).status = .Predator) :
    (look (spawnT d es partner g) y).status = .Predator := by
  unfold spawnT
  split
  · rename_i q e es'
    have he : InB R C e := hes _ (List.mem_cons_self _ _)
    have hq : InB R C q := hpar q rfl
    rw [status_charge (rect_charge (rect_put hg _ _) _) hq,
      status_charge (rect_put hg _ _) hd, look_put hg he]
    split
    · rfl
    · exact hy
  · exact hy

/-! ### The grid read by the prey rule -/

theorem grid_updatePreyT (R C : Nat) (p : Pos) (s : Sim) :
    (updatePreyT R C p s).grid =
      if (look s.grid p).status = .Prey ∧ preyOf R C s.grid p ≠ [] ∧
          (look s.grid p).reproductionCooldown = 0 ∧ emptyOf R C s.grid p ≠ [] then
        put s.grid p { look s.grid p with reproductionCooldown := 2 }
      else s.grid := by
  unfold updatePreyT preyReproduceT
  by_cases hs : (look s.grid p).status = .Prey
  · by_cases h : preyOf R C s.grid p ≠ [] ∧ (look s.grid p).reproductionCooldown = 0 ∧
        emptyOf R C s.grid p ≠ []
    · simp only [hs, h, ne_eq, not_true_eq_false, if_false, if_true, and_self, not_false_eq_true]
    · have h' : ¬ ((look s.grid p).status = .Prey ∧ preyOf R C s.grid p ≠ [] ∧
        (look s.grid p).reproductionCooldown = 0 ∧ emptyOf R C s.grid p ≠ []) := fun hh => h hh.2
      rw [if_neg (by simpa using hs), if_neg h, if_neg h']
  · have h' : ¬ ((look s.grid p).status = .Prey ∧ preyOf R C s.grid p ≠ [] ∧
        (look s.grid p).reproductionCooldown = 0 ∧ emptyOf R C s.grid p ≠ []) := fun hh => hs hh.1
    rw [if_pos hs, if_neg h']

/-! ### Invariants along the scan and frames of the rules -/

theorem foldl_inv (T : Pos → Sim → Sim) (I : List Pos → Sim → Prop) :
    ∀ (l done : List Pos) (s : Sim), I done s →
      (∀ (pre : List Pos) (q : Pos) (rest : List Pos) (s' : Sim),
        done ++ l = pre ++ q :: rest → I pre s' → I (pre ++ [q]) (T q s')) →
      I (done ++ l) (l.foldl (fun acc p => T p acc) s)
  | [], done, s, hs, _ => by simpa using hs
  | q :: l, done, s, hs, h => by
    have h1 : I (done ++ [q]) (T q s) := h done q l s rfl hs
    have ih := foldl_inv T I l (done ++ [q]) (T q s) h1 (fun pre q' rest s' he hI =>
      h pre q' rest s' (by rw [← he]; simp) hI)
    simpa using ih

theorem foldl_inv_simple (T : Pos → Sim → Sim) (I : Sim → Prop) (l : List Pos) (s : Sim)
    (hs : I s) (h : ∀ q ∈ l, ∀ s', I s' → I (T q s')) :
    I (l.foldl (fun acc p => T p acc) s) := by
  have := foldl_inv T (fun _ => I) l [] s hs (fun pre q rest s' he hI =>
    h q (by simp only [List.nil_append] at he; rw [he]; simp) s' hI)
  simpa using this

theorem grid_updatePredatorT (R C : Nat) (p : Pos) (s : Sim) :
    (updatePredatorT R C p s).grid = s.grid := by
  unfold updatePredatorT
  split
  · rfl
  · split <;> rfl

theorem look_grid_updatePreyT {R C : Nat} {s : Sim} (hw : WF R C s) {q : Pos}
    (hq : InB R C q) (x : Pos) :
    (look (updatePreyT R C q s).grid x).status = (look s.grid x).status ∧
      (look (updatePreyT R C q s).grid x).energy = (look s.grid x).energy ∧
      ((look (updatePreyT R C q s).grid x).reproductionCooldown =
          (look s.grid x).reproductionCooldown ∨
        (look (updatePreyT R C q s).grid x).reproductionCooldown = 2) := by
  rw [grid_updatePreyT]
  split
  · rw [look_put hw.1 hq]
    split
    · rename_i h
      subst h
      exact ⟨rfl, rfl, Or.inr rfl⟩
    · exact ⟨rfl, rfl, Or.inl rfl⟩
  · exact ⟨rfl, rfl, Or.inl rfl⟩

theorem predatorDest_cases (R C : Nat) (g : Grid) (q : Pos) (rng : Rand) :
    predatorDest R C g q rng ∈ preyOf R C g q ∨ predatorDest R C g q rng ∈ emptyOf R C g q ∨
      predatorDest R C g q rng = q := by
  unfold predatorDest
  split
  · exact Or.inl (pick_mem ‹_› rng)
  · split
    · exact Or.inr (Or.inl (pick_mem ‹_› rng))
    · exact Or.inr (Or.inr rfl)

theorem preyDest_cases (R C : Nat) (g : Grid) (q : Pos) (rng : Rand) :
    preyDest R C g q rng ∈ emptyOf R C g q ∨ preyDest R C g q rng = q := by
  unfold preyDest
  split
  · exact Or.inl (pick_mem ‹_› rng)
  · exact Or.inr rfl

/-- Frame of `updatePrey` on the buffer: only the acting cell and its empty
neighbours are written. -/
theorem look_next_updatePreyT {R C : Nat} {s : Sim} (hw : WF R C s) {q : Pos}
    (hq : InB R C q) {x : Pos} (hx : x ≠ q) (hxe : x ∉ emptyOf R C s.grid q) :
    look (updatePreyT R C q s).nextGrid x = look s.nextGrid x := by
  have hw1 := wf_preyReproduceT hw q
  have hd := preyDest_inB (g := s.grid) hq (preyReproduceT R C q s).rng
  have hxd : x ≠ preyDest R C s.grid q (preyReproduceT R C q s).rng := by
    rcases preyDest_cases R C s.grid q (preyReproduceT R C q s).rng with h | h
    · exact fun e => hxe (e ▸ h)
    · rw [h]; exact hx
  have h1 : look (preyReproduceT R C q s).nextGrid x = look s.nextGrid x := by
    unfold preyReproduceT
    split
    · rename_i h
      have hp := pick_mem h.2.2 s.rng
      have hne : x ≠ pick (emptyOf R C s.grid q) s.rng := fun e => hxe (e ▸ hp)
      rw [look_put hw.2 (emptyOf_inB hp), if_neg hne]
    · rfl
  unfold updatePreyT
  split
  · rfl
  · dsimp only
    split
    · rw [look_kill (rect_put hw1.2 _ _) hq, if_neg hx, look_put hw1.2 hd, if_neg hxd, h1]
    · rw [look_put hw1.2 hd, if_neg hxd, h1]

/-- Frame of `updatePredator` on statuses in the buffer: the status of a cell
other than the acting cell, its prey neighbours and its empty neighbours is
not changed. -/
theorem status_next_updatePredatorT {R C : Nat} {s : Sim} (hw : WF R C s) {q : Pos}
    (hq : InB R C q) {x : Pos} (hx : x ≠ q) (hxp : x ∉ preyOf R C s.grid q)
    (hxe : x ∉ emptyOf R C s.grid q) :
    (look (updatePredatorT R C q s).nextGrid x).status = (look s.nextGrid x).status := by
  have hd := predatorDest_inB (g := s.grid) hq s.rng
  have hxd : x ≠ predatorDest R C s.grid q s.rng := by
    rcases predatorDest_cases R C s.grid q s.rng with h | h | h
    · exact fun e => hxp (e ▸ h)
    · exact fun e => hxe (e ▸ h)
    · rw [h]; exact hx
  unfold updatePredatorT
  split
  · rfl
  split
  · dsimp only
    rw [look_kill hw.2 hq, if_neg hx]
  dsimp only
  have h2 : Rect (if predatorDest R C s.grid q s.rng ≠ q then
      kill (put s.nextGrid (predatorDest R C s.grid q s.rng)
        ⟨.Predator, newEnergyOf R C s.grid q, 0⟩) q
      else put s.nextGrid (predatorDest R C s.grid q s.rng)
        ⟨.Predator, newEnergyOf R C s.grid q, 0⟩) R C := by
    split
    · exact rect_kill (rect_put hw.2 _ _) _
    · exact rect_put hw.2 _ _
  have h3 : look (if predatorDest R C s.grid q s.rng ≠ q then
      kill (put s.nextGrid (predatorDest R C s.grid q s.rng)
        ⟨.Predator, newEnergyOf R C s.grid q, 0⟩) q
      else put s.nextGrid (predatorDest R C s.grid q s.rng)
        ⟨.Predator, newEnergyOf R C s.grid q, 0⟩) x = look s.nextGrid x := by
    split
    · rw [look_kill (rect_put hw.2 _ _) hq, if_neg hx, look_put hw.2 hd, if_neg hxd]
    · rw [look_put hw.2 hd, if_neg hxd]
  split
  · rw [status_spawnT_of_not_mem h2 hd (fun e he => emptyOf_inB he)
      (fun e he => partnerOf_inB he) hxe, h3]
  · rw [h3]

/-! ### Phase 1 keeps statuses and energies of the grid being read -/

theorem wf_preyPhaseT {R C : Nat} {s : Sim} (hw : WF R C s) : WF R C (preyPhaseT R C s) :=
  foldl_inv_simple _ (WF R C) _ s hw (fun q _ _ h => wf_updatePreyT h q)

theorem look_grid_preyPhaseT {R C : Nat} {s : Sim} (hw : WF R C s) (x : Pos) :
    (look (preyPhaseT R C s).grid x).status = (look s.grid x).status ∧
      (look (preyPhaseT R C s).grid x).energy = (look s.grid x).energy := by
  have := foldl_inv_simple (updatePreyT R C)
    (fun s' => WF R C s' ∧ (look s'.grid x).status = (look s.grid x).status ∧
      (look s'.grid x).energy = (look s.grid x).energy) (cellList R C) s ⟨hw, rfl, rfl⟩
    (fun q hq s' h => by
      have hl := look_grid_updatePreyT h.1 (mem_cellList.1 hq) x
      exact ⟨wf_updatePreyT h.1 q, hl.1.trans h.2.1, hl.2.1.trans h.2.2⟩)
  exact this.2

/-! ### Cells as list members and as coordinates -/

theorem cell?_mem {g : Grid} {p : Pos} {x : Cell} (h : cell? g p = some x) :
    ∃ cells ∈ g, x ∈ cells := by
  unfold cell? at h
  split at h
  · rcases hrow : g[p.1.toNat]? with _ | cells
    · rw [hrow] at h; simp at h
    · rw [hrow, Option.some_bind] at h
      exact ⟨cells, List.getElem?_mem hrow, List.getElem?_mem h⟩
  · simp at h

theorem exists_cell?_of_mem {g : Grid} {cells : List Cell} {x : Cell} (hc : cells ∈ g)
    (hx : x ∈ cells) : ∃ p : Pos, cell? g p = some x := by
  obtain ⟨i, hi, rfl⟩ := List.getElem_of_mem hc
  obtain ⟨j, hj, rfl⟩ := List.getElem_of_mem hx
  refine ⟨((i : Int), (j : Int)), ?_⟩
  simp [cell?, List.getElem?_eq_getElem hi, List.getElem?_eq_getElem hj]

theorem allCells_iff_look {P : Cell → Prop} {g : Grid} {R C : Nat} (hg : Rect g R C) :
    AllCells P g ↔ ∀ p, InB R C p → P (look g p) := by
  constructor
  · intro h p hp
    obtain ⟨x, hx⟩ := cell?_of_inB hg hp
    obtain ⟨cells, hc, hm⟩ := cell?_mem hx
    rw [look_eq_cell?, hx]
    exact h cells hc x hm
  · intro h cells hc x hx
    obtain ⟨p, hp⟩ := exists_cell?_of_mem hc hx
    have hl : look g p = x := by rw [look_eq_cell?, hp]; rfl
    by_cases hin : InB R C p
    · exact hl ▸ h p hin
    · exfalso
      apply hin
      unfold cell? at hp
      split at hp
      · rename_i h0
        rcases hrow : g[p.1.toNat]? with _ | row
        · rw [hrow] at hp; simp at hp
        · rw [hrow, Option.some_bind] at hp
          obtain ⟨h1, -⟩ := List.getElem?_eq_some.1 hrow
          obtain ⟨h2, -⟩ := List.getElem?_eq_some.1 hp
          have h3 : row.length = C := hg.2 _ (List.getElem?_mem hrow)
          have h4 := hg.1
          exact ⟨h0.1, by omega, h0.2, by omega⟩
      · simp at hp

/-! ### Cooldown bound -/

theorem look_of_cellAt {g : Grid} {r c : Int} {x : Cell} (h : cellAt g r c = .ok x) :
    look g (r, c) = x := by
  simp only [look, h]

theorem coolOK_put {g : Grid} {R C : Nat} (hg : Rect g R C) {p : Pos} (hp : InB R C p)
    (h : CoolOK g) {c : Cell}
    (hc : c.status = .Prey →
      c.reproductionCooldown = 0 ∨ c.reproductionCooldown = 1 ∨ c.reproductionCooldown = 2) :
    CoolOK (put g p c) := by
  intro x
  rw [look_put hg hp]
  split
  · exact hc
  · exact h x

theorem coolOK_kill {g : Grid} {R C : Nat} (hg : Rect g R C) {p : Pos} (hp : InB R C p)
    (h : CoolOK g) : CoolOK (kill g p) :=
  coolOK_put hg hp h (fun hs => by simp at hs)

theorem coolOK_charge {g : Grid} {R C : Nat} (hg : Rect g R C) {p : Pos} (hp : InB R C p)
    (h : CoolOK g) : CoolOK (charge g p) :=
  coolOK_put hg hp h (h p)

theorem coolOK_spawnT {g : Grid} {R C : Nat} (hg : Rect g R C) {d : Pos}
    (hd : InB R C d) {es : List Pos} (hes : ∀ q ∈ es, InB R C q) {partner : Option Pos}
    (hpar : ∀ q, partner = some q → InB R C q) (h : CoolOK g) :
    CoolOK (spawnT d es partner g) := by
  unfold spawnT
  split
  · rename_i q e es'
    have he : InB R C e := hes _ (List.mem_cons_self _ _)
    have hq : InB R C q := hpar q rfl
    have h1 : CoolOK (put g e ⟨.Predator, 5, 0⟩) :=
      coolOK_put hg he h (fun hs => absurd hs (by decide))
    exact coolOK_charge (rect_charge (rect_put hg _ _) _) hq
      (coolOK_charge (rect_put hg _ _) hd h1)
  · exact h

theorem coolOK_updatePreyT {R C : Nat} {s : Sim} (hw : WF R C s) {q : Pos} (hq : InB R C q)
    (hg : CoolOK s.grid) (hn : CoolOK s.nextGrid) :
    CoolOK (updatePreyT R C q s).grid ∧ CoolOK (updatePreyT R C q s).nextGrid := by
  have hw1 := wf_preyReproduceT hw q
  have hd := preyDest_inB (g := s.grid) hq (preyReproduceT R C q s).rng
  have hg1 : CoolOK (preyReproduceT R C q s).grid := by
    unfold preyReproduceT
    split
    · exact coolOK_put hw.1 hq hg (fun _ => Or.inr (Or.inr rfl))
    · exact hg
  have hn1 : CoolOK (preyReproduceT R C q s).nextGrid := by
    unfold preyReproduceT
    split
    · rename_i h
      exact coolOK_put hw.2 (emptyOf_inB (pick_mem h.2.2 s.rng)) hn (fun _ => Or.inl rfl)
    · exact hn
  have hs1 : (look (preyReproduceT R C q s).grid q).status = (look s.grid q).status := by
    unfold preyReproduceT
    split
    · rw [look_put_self hw.1 hq]
    · rfl
  unfold updatePreyT
  split
  · exact ⟨hg, hn⟩
  · rename_i hs
    have hprey : (look s.grid q).status = .Prey := by
      by_contra h
      exact hs h
    have hcd := hg1 q (hs1.trans hprey)
    have hn2 : CoolOK (put (preyReproduceT R C q s).nextGrid
        (preyDest R C s.grid q (preyReproduceT R C q s).rng)
        ⟨.Prey, 0, max 0 ((look (preyReproduceT R C q s).grid q).reproductionCooldown - 1)⟩) := by
      refine coolOK_put hw1.2 hd hn1 (fun _ => ?_)
      dsimp only
      rcases hcd with h | h | h <;> rw [h] <;> decide
    refine ⟨hg1, ?_⟩
    dsimp only
    split
    · exact coolOK_kill (rect_put hw1.2 _ _) hq hn2
    · exact hn2

theorem coolOK_updatePredatorT {R C : Nat} {s : Sim} (hw : WF R C s) {q : Pos}
    (hq : InB R C q) (hn : CoolOK s.nextGrid) : CoolOK (updatePredatorT R C q s).nextGrid := by
  have hd := predatorDest_inB (g := s.grid) hq s.rng
  unfold updatePredatorT
  split
  · exact hn
  split
  · exact coolOK_kill hw.2 hq hn
  dsimp only
  have h1 : CoolOK (put s.nextGrid (predatorDest R C s.grid q s.rng)
      ⟨.Predator, newEnergyOf R C s.grid q, 0⟩) :=
    coolOK_put hw.2 hd hn (fun hs => by simp at hs)
  have h2 : Rect (if predatorDest R C s.grid q s.rng ≠ q then
      kill (put s.nextGrid (predatorDest R C s.grid q s.rng)
        ⟨.Predator, newEnergyOf R C s.grid q, 0⟩) q
      else put s.nextGrid (predatorDest R C s.grid q s.rng)
        ⟨.Predator, newEnergyOf R C s.grid q, 0⟩) R C := by
    split
    · exact rect_kill (rect_put hw.2 _ _) _
    · exact rect_put hw.2 _ _
  have h3 : CoolOK (if predatorDest R C s.grid q s.rng ≠ q then
      kill (put s.nextGrid (predatorDest R C s.grid q s.rng)
        ⟨.Predator, newEnergyOf R C s.grid q, 0⟩) q
      else put s.nextGrid (predatorDest R C s.grid q s.rng)
        ⟨.Predator, newEnergyOf R C s.grid q, 0⟩) := by
    split
    · exact coolOK_kill (rect_put hw.2 _ _) hq h1
    · exact h1
  split
  · exact coolOK_spawnT h2 hd (fun e he => emptyOf_inB he) (fun e he => partnerOf_inB he) h3
  · exact h3

theorem coolOK_iff {g : Grid} {R C : Nat} (hg : Rect g R C) :
    CoolOK g ↔ AllCells CooldownInRange g := by
  rw [allCells_iff_look hg]
  constructor
  · intro h p _
    exact h p
  · intro h x hs
    exact h x (inB_of_status hg (by rw [hs]; decide)) hs

/-! ### Cells out of reach of every organism -/

theorem look_spawnT_of_not_mem {g : Grid} {R C : Nat} (hg : Rect g R C) {d : Pos}
    (hd : InB R C d) {es : List Pos} (hes : ∀ q ∈ es, InB R C q) {partner : Option Pos}
    (hpar : ∀ q, partner = some q → InB R C q) {y : Pos} (hy : y ∉ es) (hyd : y ≠ d)
    (hyp : ∀ q, partner = some q → y ≠ q) :
    look (spawnT d es partner g) y = look g y := by
  unfold spawnT
  split
  · rename_i q e es'
    have he : InB R C e := hes _ (List.mem_cons_self _ _)
    have hq : InB R C q := hpar q rfl
    have hne : y ≠ e := fun h => hy (h ▸ List.mem_cons_self _ _)
    rw [look_charge (rect_charge (rect_put hg _ _) _) hq, if_neg (hyp q rfl),
      look_charge (rect_put hg _ _) hd, if_neg hyd, look_put hg he, if_neg hne]
  · rfl

/-- Frame of `updatePredator` on the buffer: only the acting cell and its
neighbours are written. -/
theorem look_next_updatePredatorT {R C : Nat} {s : Sim} (hw : WF R C s) {q : Pos}
    (hq : InB R C q) {x : Pos} (hx : x ≠ q) (hxn : x ∉ nbrs R C q) :
    look (updatePredatorT R C q s).nextGrid x = look s.nextGrid x := by
  have hd := predatorDest_inB (g := s.grid) hq s.rng
  have hxp : x ∉ preyOf R C s.grid q := fun h => hxn (mem_withStatus.1 h).1
  have hxe : x ∉ emptyOf R C s.grid q := fun h => hxn (mem_withStatus.1 h).1
  have hxd : x ≠ predatorDest R C s.grid q s.rng := by
    rcases predatorDest_cases R C s.grid q s.rng with h | h | h
    · exact fun e => hxp (e ▸ h)
    · exact fun e => hxe (e ▸ h)
    · rw [h]; exact hx
  unfold updatePredatorT
  split
  · rfl
  split
  · dsimp only
    rw [look_kill hw.2 hq, if_neg hx]
  dsimp only
  have h2 : Rect (if predatorDest R C s.grid q s.rng ≠ q then
      kill (put s.nextGrid (predatorDest R C s.grid q s.rng)
        ⟨.Predator, newEnergyOf R C s.grid q, 0⟩) q
      else put s.nextGrid (predatorDest R C s.grid q s.rng)
        ⟨.Predator, newEnergyOf R C s.grid q, 0⟩) R C := by
    split
    · exact rect_kill (rect_put hw.2 _ _) _
    · exact rect_put hw.2 _ _
  have h3 : look (if predatorDest R C s.grid q s.rng ≠ q then
      kill (put s.nextGrid (predatorDest R C s.grid q s.rng)
        ⟨.Predator, newEnergyOf R C s.grid q, 0⟩) q
      else put s.nextGrid (predatorDest R C s.grid q s.rng)
        ⟨.Predator, newEnergyOf R C s.grid q, 0⟩) x = look s.nextGrid x := by
    split
    · rw [look_kill (rect_put hw.2 _ _) hq, if_neg hx, look_put hw.2 hd, if_neg hxd]
    · rw [look_put hw.2 hd, if_neg hxd]
  split
  · rw [look_spawnT_of_not_mem h2 hd (fun e he => emptyOf_inB he)
      (fun e he => partnerOf_inB he) hxe hxd ?_, h3]
    intro p hp e
    have := List.mem_of_find?_eq_some hp
    exact hxn (e ▸ (mem_withStatus.1 this).1)
  · rw [h3]

theorem updatePreyT_of_not_prey {R C : Nat} {q : Pos} {s : Sim}
    (h : (look s.grid q).status ≠ .Prey) : updatePreyT R C q s = s := by
  unfold updatePreyT
  rw [if_pos h]

theorem updatePredatorT_of_not_predator {R C : Nat} {q : Pos} {s : Sim}
    (h : (look s.grid q).status ≠ .Predator) : updatePredatorT R C q s = s := by
  unfold updatePredatorT
  rw [if_pos h]

/-! ### Counting cells -/

theorem countP_set_add {α : Type} (p : α → Bool) :
    ∀ (l : List α) (i : Nat) (a : α) (h : i < l.length),
      (l.set i a).countP p + (if p l[i] then 1 else 0) = l.countP p + (if p a then 1 else 0)
  | [], _, _, h => absurd h (Nat.not_lt_zero _)
  | b :: l, 0, a, _ => by
    simp only [List.set_cons_zero, List.countP_cons, List.getElem_cons_zero]
    omega
  | b :: l, i + 1, a, h => by
    have ih := countP_set_add p l i a (Nat.lt_of_succ_lt_succ h)
    simp only [List.set_cons_succ, List.countP_cons, List.getElem_cons_succ]
    omega

theorem sum_map_set_add {α : Type} (f : α → Nat) :
    ∀ (l : List α) (i : Nat) (a : α) (h : i < l.length),
      ((l.set i a).map f).sum + f l[i] = (l.map f).sum + f a
  | [], _, _, h => absurd h (Nat.not_lt_zero _)
  | b :: l, 0, a, _ => by
    simp only [List.set_cons_zero, List.map_cons, List.sum_cons, List.getElem_cons_zero]
    omega
  | b :: l, i + 1, a, h => by
    have ih := sum_map_set_add f l i a (Nat.lt_of_succ_lt_succ h)
    simp only [List.set_cons_succ, List.map_cons, List.sum_cons, List.getElem_cons_succ]
    omega

theorem count_put {g : Grid} {R C : Nat} (hg : Rect g R C) {p : Pos} (hp : InB R C p)
    (st : CellStatus) (c : Cell) :
    countStatus st (put g p c) + ind st (look g p) = countStatus st g + ind st c := by
  obtain ⟨h1, h2, h3, h4⟩ := hp
  have hlt : p.1.toNat < g.length := by rw [hg.1]; omega
  have hlen : (g[p.1.toNat]).length = C := hg.2 _ (List.getElem_mem _)
  have hlt2 : p.2.toNat < (g[p.1.toNat]).length := by rw [hlen]; omega
  have hlook : look g p = (g[p.1.toNat])[p.2.toNat] := by
    rw [look_eq_cell?]
    simp [cell?, h1, h3, List.getElem?_eq_getElem hlt, List.getElem?_eq_getElem hlt2]
  have e1 := sum_map_set_add (fun cells : List Cell => cells.countP (fun x => decide (x.status = st)))
    g p.1.toNat ((g[p.1.toNat]).set p.2.toNat c) hlt
  have e2 := countP_set_add (fun x : Cell => decide (x.status = st)) (g[p.1.toNat]) p.2.toNat c hlt2
  simp only [decide_eq_true_eq] at e2
  unfold countStatus ind put
  rw [hlook]
  simp only [List.getD, List.get?_eq_getElem?, List.getElem?_eq_getElem hlt, Option.getD_some]
  simp only at e1
  omega

/-! ### The scan visits every cell once -/

theorem nodup_cellList (R C : Nat) : (cellList R C).Nodup := by
  unfold cellList
  rw [List.nodup_flatMap]
  constructor
  · intro r _
    refine List.Nodup.map ?_ (List.nodup_range C)
    intro a b h
    simpa using congrArg Prod.snd h
  · refine List.Pairwise.imp ?_ (List.nodup_range R)
    intro a b hab
    simp only [Function.onFun]
    intro x hx hy
    obtain ⟨c1, -, rfl⟩ := List.mem_map.1 hx
    obtain ⟨c2, -, h2⟩ := List.mem_map.1 hy
    apply hab
    have := congrArg Prod.fst h2
    simp only [Nat.cast_inj] at this
    exact this.symm

theorem not_mem_pre {l pre rest : List Pos} {q : Pos} (hn : l.Nodup) (h : l = pre ++ q :: rest) :
    q ∉ pre := by
  subst h
  intro hq
  have := List.nodup_append.1 hn
  exact this.2.2 hq (List.mem_cons_self _ _)

theorem mem_of_split {l pre rest : List Pos} {q : Pos} (h : l = pre ++ q :: rest) : q ∈ l := by
  subst h
  simp

/-! ### No-event steps -/

theorem noEvent_of_check {g : Grid} {R C : Nat} (hg : Rect g R C) (h : NoEventCheck R C g) :
    NoEvent g := by
  have key : ∀ (r c : Int) (ns : List Pos), (look g (r, c)).status ≠ .Dead →
      getNeighbors r c g = .ok ns → (r, c) ∈ cellList R C ∧ ns = nbrs R C (r, c) := by
    intro r c ns hs hns
    have hin := inB_of_status hg hs
    have := getNeighbors_eq hg (inB_pos hin) r c
    rw [hns] at this
    exact ⟨mem_cellList.2 hin, Except.ok.inj this⟩
  refine ⟨?_, ?_, ?_⟩
  · intro r c ns hs hcd hns
    obtain ⟨hm, rfl⟩ := key r c ns (by rw [hs]; decide) hns
    exact (h _ hm).1 hs hcd
  · intro r c ns hs hns
    obtain ⟨hm, rfl⟩ := key r c ns (by rw [hs]; decide) hns
    exact ((h _ hm).2 hs).1
  · intro r c hs
    have hin := inB_of_status hg (p := (r, c)) (by rw [hs]; decide)
    exact ((h _ (mem_cellList.2 hin)).2 hs).2

theorem updatePreyT_noRepro {R C : Nat} {q : Pos} {s : Sim}
    (hs : (look s.grid q).status = .Prey)
    (hno : ¬ (preyOf R C s.grid q ≠ [] ∧ (look s.grid q).reproductionCooldown = 0 ∧
      emptyOf R C s.grid q ≠ [])) :
    (updatePreyT R C q s).grid = s.grid ∧
      (updatePreyT R C q s).nextGrid =
        if preyDest R C s.grid q s.rng ≠ q then
          kill (put s.nextGrid (preyDest R C s.grid q s.rng) (movedPrey s.grid q)) q
        else put s.nextGrid (preyDest R C s.grid q s.rng) (movedPrey s.grid q) := by
  have h1 : preyReproduceT R C q s = s := by
    unfold preyReproduceT
    rw [if_neg hno]
  have hs' : ¬ (look s.grid q).status ≠ .Prey := fun h => h hs
  unfold updatePreyT
  rw [if_neg hs']
  simp only [h1, movedPrey, and_self]

theorem updatePredatorT_noEvent {R C : Nat} {q : Pos} {s : Sim}
    (hs : (look s.grid q).status = .Predator)
    (he : 1 ≤ (look s.grid q).energy ∧ (look s.grid q).energy ≤ 4)
    (hp : preyOf R C s.grid q = []) :
    (updatePredatorT R C q s).nextGrid =
      if predatorDest R C s.grid q s.rng ≠ q then
        kill (put s.nextGrid (predatorDest R C s.grid q s.rng)
          ⟨.Predator, (look s.grid q).energy - 1, 0⟩) q
      else put s.nextGrid (predatorDest R C s.grid q s.rng)
        ⟨.Predator, (look s.grid q).energy - 1, 0⟩ := by
  have hs' : ¬ (look s.grid q).status ≠ .Predator := fun h => h hs
  have he' : ¬ (look s.grid q).energy ≤ 0 := by omega
  have hE : newEnergyOf R C s.grid q = (look s.grid q).energy - 1 := by
    simp [newEnergyOf, hp]
  have hE5 : ¬ (look s.grid q).energy - 1 ≥ 5 := by omega
  unfold updatePredatorT
  rw [if_neg hs', if_neg he']
  simp only [hE, hE5, if_false]

theorem count_kill {g : Grid} {R C : Nat} (hg : Rect g R C) {p : Pos} (hp : InB R C p)
    (st : CellStatus) :
    countStatus st (kill g p) + ind st (look g p) =
      countStatus st g + ind st { look g p with status := .Dead } :=
  count_put hg hp st _

theorem not_mem_of_status {R C : Nat} {g : Grid} {st st' : CellStatus} {q y : Pos}
    (hy : (look g y).status = st') (hne : st' ≠ st) : y ∉ withStatus g st (nbrs R C q) := by
  intro h
  have := (mem_withStatus.1 h).2
  rw [hy] at this
  exact hne this

theorem noEventT_of_noEvent {grid : Grid} {R C : Nat} (hg : Rect grid R C)
    (hno : NoEvent grid) : NoEventT R C grid := by
  obtain ⟨hn1, hn2, hn3⟩ := hno
  refine ⟨?_, ?_, fun q hs => hn3 q.1 q.2 hs⟩
  · intro q hs h
    have hin : InB R C q := inB_of_status hg (by rw [hs]; decide)
    exact hn1 q.1 q.2 _ hs h.2.1 (getNeighbors_eq hg (inB_pos hin) q.1 q.2)
      ⟨withStatus_ne_nil.1 h.1, withStatus_ne_nil.1 h.2.2⟩
  · intro q hs
    have hin : InB R C q := inB_of_status hg (by rw [hs]; decide)
    by_contra h
    exact hn2 q.1 q.2 _ hs (getNeighbors_eq hg (inB_pos hin) q.1 q.2) (withStatus_ne_nil.1 h)

/-! ### Writes of the prey rule -/

theorem preyReproduceT_of_reproduces {R C : Nat} {p : Pos} {s : Sim}
    (h : PreyReproduces R C s.grid p) :
    preyReproduceT R C p s =
      { grid := put s.grid p { look s.grid p with reproductionCooldown := 2 },
        nextGrid := put s.nextGrid (pick (emptyOf R C s.grid p) s.rng) ⟨.Prey, 0, 0⟩,
        rng := advance s.rng } := by
  unfold PreyReproduces at h
  unfold preyReproduceT
  rw [if_pos h]

theorem preyReproduceT_of_not {R C : Nat} {p : Pos} {s : Sim}
    (h : ¬ PreyReproduces R C s.grid p) : preyReproduceT R C p s = s := by
  unfold PreyReproduces at h
  unfold preyReproduceT
  rw [if_neg h]

theorem look_dest_updatePreyT {R C : Nat} {s : Sim} (hw : WF R C s) {p : Pos}
    (hp : InB R C p) (hs : (look s.grid p).status = .Prey) :
    look (updatePreyT R C p s).nextGrid
        (preyDest R C s.grid p (preyReproduceT R C p s).rng) =
      ⟨.Prey, 0, max 0 ((look (preyReproduceT R C p s).grid p).reproductionCooldown - 1)⟩ := by
  have hw1 := wf_preyReproduceT hw p
  have hd := preyDest_inB (g := s.grid) hp (preyReproduceT R C p s).rng
  have hs' : ¬ (look s.grid p).status ≠ .Prey := fun h => h hs
  unfold updatePreyT
  rw [if_neg hs']
  dsimp only
  split
  · rename_i hne
    rw [look_kill (rect_put hw1.2 _ _) hp, if_neg hne, look_put_self hw1.2 hd]
  · rw [look_put_self hw1.2 hd]

theorem status_origin_updatePreyT {R C : Nat} {s : Sim} (hw : WF R C s) {p : Pos}
    (hp : InB R C p) (hs : (look s.grid p).status = .Prey)
    (hne : preyDest R C s.grid p (preyReproduceT R C p s).rng ≠ p) :
    (look (updatePreyT R C p s).nextGrid p).status = .Dead := by
  have hw1 := wf_preyReproduceT hw p
  have hs' : ¬ (look s.grid p).status ≠ .Prey := fun h => h hs
  unfold updatePreyT
  rw [if_neg hs']
  dsimp only
  rw [if_pos hne, look_kill (rect_put hw1.2 _ _) hp, if_pos rfl]

theorem look_slot_updatePreyT {R C : Nat} {s : Sim} (hw : WF R C s) {p : Pos}
    (hp : InB R C p) (hs : (look s.grid p).status = .Prey)
    (hrep : PreyReproduces R C s.grid p)
    (hne : pick (emptyOf R C s.grid p) s.rng ≠
      preyDest R C s.grid p (preyReproduceT R C p s).rng) :
    look (updatePreyT R C p s).nextGrid (pick (emptyOf R C s.grid p) s.rng) = ⟨.Prey, 0, 0⟩ := by
  have hw1 := wf_preyReproduceT hw p
  have hd := preyDest_inB (g := s.grid) hp (preyReproduceT R C p s).rng
  have hmem := pick_mem hrep.2.2 s.rng
  have hslot : InB R C (pick (emptyOf R C s.grid p) s.rng) := emptyOf_inB hmem
  have hsp : pick (emptyOf R C s.grid p) s.rng ≠ p := nbrs_ne_self (mem_withStatus.1 hmem).1
  have hs' : ¬ (look s.grid p).status ≠ .Prey := fun h => h hs
  have h1 : look (preyReproduceT R C p s).nextGrid (pick (emptyOf R C s.grid p) s.rng) =
      ⟨.Prey, 0, 0⟩ := by
    rw [preyReproduceT_of_reproduces hrep]
    exact look_put_self hw.2 hslot _
  unfold updatePreyT
  rw [if_neg hs']
  dsimp only
  split
  · rw [look_kill (rect_put hw1.2 _ _) hp, if_neg hsp, look_put hw1.2 hd, if_neg hne, h1]
  · rw [look_put hw1.2 hd, if_neg hne, h1]

theorem cooldown_after_reproduce {R C : Nat} {s : Sim} (hw : WF R C s) {p : Pos}
    (hp : InB R C p) [Decidable (PreyReproduces R C s.grid p)] :
    (look (preyReproduceT R C p s).grid p).reproductionCooldown =
      if PreyReproduces R C s.grid p then 2 else (look s.grid p).reproductionCooldown := by
  split
  · rename_i h
    rw [preyReproduceT_of_reproduces h, look_put_self hw.1 hp]
  · rename_i h
    rw [preyReproduceT_of_not h]

theorem preyReproduces_iff {R C : Nat} {g : Grid} {p : Pos} :
    PreyReproduces R C g p ↔
      (look g p).reproductionCooldown = 0 ∧ hasNeighbor g (nbrs R C p) .Prey ∧
        hasNeighbor g (nbrs R C p) .Dead := by
  unfold PreyReproduces preyOf emptyOf
  rw [withStatus_ne_nil, withStatus_ne_nil]
  constructor
  · rintro ⟨a, b, c⟩; exact ⟨b, a, c⟩
  · rintro ⟨a, b, c⟩; exact ⟨b, a, c⟩

theorem preyDest_of_empty {R C : Nat} {g : Grid} {p : Pos} (rng : Rand)
    (h : hasNeighbor g (nbrs R C p) .Dead) :
    preyDest R C g p rng ∈ nbrs R C p ∧ (look g (preyDest R C g p rng)).status = .Dead := by
  have h' : emptyOf R C g p ≠ [] := withStatus_ne_nil.2 h
  have := pick_mem h' rng
  simp only [preyDest, h', if_true, ne_eq, not_false_eq_true]
  exact mem_withStatus.1 this

theorem preyDest_of_no_empty {R C : Nat} {g : Grid} {p : Pos} (rng : Rand)
    (h : ¬ hasNeighbor g (nbrs R C p) .Dead) : preyDest R C g p rng = p := by
  have h' : ¬ emptyOf R C g p ≠ [] := fun hh => h (withStatus_ne_nil.1 hh)
  simp only [preyDest, h', if_false]

/-! ### Decisions of the predator rule -/

theorem updatePredatorT_eq_applyDecision (R C : Nat) (grid N : Grid) (rng : Rand) (p : Pos)
    (hst : (look grid p).status = .Predator) (he : 0 < (look grid p).energy) :
    updatePredatorT R C p ⟨grid, N, rng⟩ =
      ⟨grid,
        applyDecision p
          ⟨predatorDest R C grid p rng, decide (preyOf R C grid p ≠ []),
            newEnergyOf R C grid p,
            reproductionChoice grid (newEnergyOf R C grid p)
              ⟨preyOf R C grid p, emptyOf R C grid p, predatorOf R C grid p⟩⟩ N,
        if preyOf R C grid p ≠ [] ∨ emptyOf R C grid p ≠ [] then advance rng else rng⟩ := by
  have hs : ¬ (look grid p).status ≠ .Predator := fun h => h hst
  have he' : ¬ (look grid p).energy ≤ 0 := by omega
  unfold updatePredatorT
  simp only [hs, he', if_false]
  congr 1
  unfold applyDecision reproductionChoice spawnT partnerOf
  dsimp only
  by_cases hE : newEnergyOf R C grid p ≥ 5
  · simp only [hE, if_true]
    rcases hfind : List.find? (fun q => decide ((look grid q).energy ≥ 5))
      (predatorOf R C grid p) with _ | q
    · rfl
    · rcases hes : emptyOf R C grid p with _ | ⟨e, es⟩
      · rfl
      · rfl
  · simp only [hE, if_false]

/-! ### Reproduction partner -/

theorem partnerOf_isSome {R C : Nat} {g : Grid} {p : Pos}
    (h : hasPartner g (nbrs R C p)) : ∃ q, partnerOf R C g p = some q := by
  obtain ⟨q, hq, hs, he⟩ := h
  unfold partnerOf
  rcases hfind : List.find? (fun q => decide ((look g q).energy ≥ 5)) (predatorOf R C g p)
    with _ | q'
  · rw [List.find?_eq_none] at hfind
    have := hfind q (mem_withStatus.2 ⟨hq, hs⟩)
    simp only [decide_eq_true_eq] at this
    exact absurd he this
  · exact ⟨q', rfl⟩

/-! ### Cells that are Dead in the grid being read -/

/-- On a cell that is Dead in the grid being read, `updatePrey` leaves the buffer
as it is or writes a Prey. -/
theorem look_next_updatePreyT_of_dead {R C : Nat} {s : Sim} (hw : WF R C s) {q : Pos}
    (hq : InB R C q) {x : Pos} (hx : (look s.grid x).status = .Dead) :
    look (updatePreyT R C q s).nextGrid x = look s.nextGrid x ∨
      (look (updatePreyT R C q s).nextGrid x).status = .Prey := by
  by_cases hs : (look s.grid q).status = .Prey
  · have hxq : x ≠ q := by
      rintro rfl
      rw [hx] at hs
      exact absurd hs (by decide)
    have hw1 := wf_preyReproduceT hw q
    have hd := preyDest_inB (g := s.grid) hq (preyReproduceT R C q s).rng
    have h1 : look (preyReproduceT R C q s).nextGrid x = look s.nextGrid x ∨
        (look (preyReproduceT R C q s).nextGrid x).status = .Prey := by
      unfold preyReproduceT
      split
      · rename_i h
        rw [look_put hw.2 (emptyOf_inB (pick_mem h.2.2 s.rng))]
        split
        · exact Or.inr rfl
        · exact Or.inl rfl
      · exact Or.inl rfl
    have hs' : ¬ (look s.grid q).status ≠ .Prey := fun h => h hs
    have h2 : look (updatePreyT R C q s).nextGrid x =
        look (put (preyReproduceT R C q s).nextGrid
          (preyDest R C s.grid q (preyReproduceT R C q s).rng)
          ⟨.Prey, 0, max 0 ((look (preyReproduceT R C q s).grid q).reproductionCooldown - 1)⟩)
          x := by
      unfold updatePreyT
      rw [if_neg hs']
      dsimp only
      split
      · rw [look_kill (rect_put hw1.2 _ _) hq, if_neg hxq]
      · rfl
    rw [h2, look_put hw1.2 hd]
    split
    · exact Or.inr rfl
    · exact h1
  · rw [updatePreyT_of_not_prey hs]
    exact Or.inl rfl

theorem look_spawnT_cases {g : Grid} {R C : Nat} (hg : Rect g R C) {d : Pos}
    (hd : InB R C d) {es : List Pos} (hes : ∀ q ∈ es, InB R C q) {partner : Option Pos}
    (hpar : ∀ q, partner = some q → InB R C q) {x : Pos}
    (hxq : ∀ q, partner = some q → x ≠ q) (hxd : x = d → (look g x).status = .Predator) :
    look (spawnT d es partner g) x = look g x ∨
      (look (spawnT d es partner g) x).status = .Predator := by
  unfold spawnT
  split
  · rename_i q e es'
    have he : InB R C e := hes _ (List.mem_cons_self _ _)
    have hq : InB R C q := hpar q rfl
    by_cases hxe : x = e
    · right
      rw [status_charge (rect_charge (rect_put hg _ _) _) hq,
        status_charge (rect_put hg _ _) hd, look_put hg he, if_pos hxe]
    · by_cases hxd' : x = d
      · right
        rw [status_charge (rect_charge (rect_put hg _ _) _) hq,
          status_charge (rect_put hg _ _) hd, look_put hg he, if_neg hxe]
        exact hxd hxd'
      · left
        rw [look_charge (rect_charge (rect_put hg _ _) _) hq, if_neg (hxq q rfl),
          look_charge (rect_put hg _ _) hd, if_neg hxd', look_put hg he, if_neg hxe]
  · exact Or.inl rfl

/-- On a cell that is Dead in the grid being read, `updatePredator` leaves the
buffer as it is or leaves a Predator there. -/
theorem look_next_updatePredatorT_of_dead {R C : Nat} {s : Sim} (hw : WF R C s) {q : Pos}
    (hq : InB R C q) {x : Pos} (hx : (look s.grid x).status = .Dead) :
    look (updatePredatorT R C q s).nextGrid x = look s.nextGrid x ∨
      (look (updatePredatorT R C q s).nextGrid x).status = .Predator := by
  by_cases hs : (look s.grid q).status = .Predator
  · have hxq : x ≠ q := by
      rintro rfl
      rw [hx] at hs
      exact absurd hs (by decide)
    have hd := predatorDest_inB (g := s.grid) hq s.rng
    have hs' : ¬ (look s.grid q).status ≠ .Predator := fun h => h hs
    unfold updatePredatorT
    rw [if_neg hs']
    split
    · left
      dsimp only
      rw [look_kill hw.2 hq, if_neg hxq]
    dsimp only
    have h2r : Rect (if predatorDest R C s.grid q s.rng ≠ q then
        kill (put s.nextGrid (predatorDest R C s.grid q s.rng)
          ⟨.Predator, newEnergyOf R C s.grid q, 0⟩) q
        else put s.nextGrid (predatorDest R C s.grid q s.rng)
          ⟨.Predator, newEnergyOf R C s.grid q, 0⟩) R C := by
      split
      · exact rect_kill (rect_put hw.2 _ _) _
      · exact rect_put hw.2 _ _
    have h2 : look (if predatorDest R C s.grid q s.rng ≠ q then
        kill (put s.nextGrid (predatorDest R C s.grid q s.rng)
          ⟨.Predator, newEnergyOf R C s.grid q, 0⟩) q
        else put s.nextGrid (predatorDest R C s.grid q s.rng)
          ⟨.Predator, newEnergyOf R C s.grid q, 0⟩) x =
        if x = predatorDest R C s.grid q s.rng then
          ⟨.Predator, newEnergyOf R C s.grid q, 0⟩ else look s.nextGrid x := by
      split
      · rw [look_kill (rect_put hw.2 _ _) hq, if_neg hxq, look_put hw.2 hd]
      · rw [look_put hw.2 hd]
    have h2' : look (if predatorDest R C s.grid q s.rng ≠ q then
        kill (put s.nextGrid (predatorDest R C s.grid q s.rng)
          ⟨.Predator, newEnergyOf R C s.grid q, 0⟩) q
        else put s.nextGrid (predatorDest R C s.grid q s.rng)
          ⟨.Predator, newEnergyOf R C s.grid q, 0⟩) x = look s.nextGrid x ∨
        (look (if predatorDest R C s.grid q s.rng ≠ q then
        kill (put s.nextGrid (predatorDest R C s.grid q s.rng)
          ⟨.Predator, newEnergyOf R C s.grid q, 0⟩) q
        else put s.nextGrid (predatorDest R C s.grid q s.rng)
          ⟨.Predator, newEnergyOf R C s.grid q, 0⟩) x).status = .Predator := by
      rw [h2]
      split
      · exact Or.inr rfl
      · exact Or.inl rfl
    split
    · have hsp := @look_spawnT_cases _ R C h2r _ hd (emptyOf R C s.grid q)
        (fun e he => emptyOf_inB he) (partnerOf R C s.grid q)
        (fun e he => partnerOf_inB he) x
        (fun p hp e => by
          have hm := List.mem_of_find?_eq_some hp
          have := (mem_withStatus.1 hm).2
          rw [← e, hx] at this
          exact absurd this (by decide))
        (fun e => by rw [h2, if_pos e])
      rcases hsp with h | h
      · rw [h]; exact h2'
      · exact Or.inr h
    · exact h2'
  · rw [updatePredatorT_of_not_predator hs]
    exact Or.inl rfl

theorem inB_of_cell? {g : Grid} {R C : Nat} (hg : Rect g R C) {p : Pos} {x : Cell}
    (hp : cell? g p = some x) : InB R C p := by
  unfold cell? at hp
  split at hp
  · rename_i h0
    rcases hrow : g[p.1.toNat]? with _ | cells
    · rw [hrow] at hp; simp at hp
    · rw [hrow, Option.some_bind] at hp
      obtain ⟨h1, -⟩ := List.getElem?_eq_some.1 hrow
      obtain ⟨h2, -⟩ := List.getElem?_eq_some.1 hp
      have h3 : cells.length = C := hg.2 _ (List.getElem?_mem hrow)
      have h4 := hg.1
      exact ⟨h0.1, by omega, h0.2, by omega⟩
  · simp at hp

theorem inB_of_cellAt {g : Grid} {R C : Nat} (hg : Rect g R C) {r c : Int} {x : Cell}
    (h : cellAt g r c = .ok x) : InB R C (r, c) := by
  rw [cellAt_eq_cell?] at h
  rcases hc : cell? g (r, c) with _ | y
  · rw [hc] at h; cases h
  · exact inB_of_cell? hg hc

theorem deadInv_updatePreyT {R C : Nat} {grid : Grid} {x q : Pos} {s : Sim}
    (hq : InB R C q) (h : DeadInv R C grid x s) : DeadInv R C grid x (updatePreyT R C q s) := by
  obtain ⟨hw, hs, hn⟩ := h
  refine ⟨wf_updatePreyT hw q, ?_, ?_⟩
  · rw [(look_grid_updatePreyT hw hq x).1]; exact hs
  · rcases look_next_updatePreyT_of_dead hw hq hs with h | h
    · rw [h]; exact hn
    · right; rw [h]; decide

theorem deadInv_updatePredatorT {R C : Nat} {grid : Grid} {x q : Pos} {s : Sim}
    (hq : InB R C q) (h : DeadInv R C grid x s) :
    DeadInv R C grid x (updatePredatorT R C q s) := by
  obtain ⟨hw, hs, hn⟩ := h
  refine ⟨wf_updatePredatorT hw q, ?_, ?_⟩
  · rw [grid_updatePredatorT]; exact hs
  · rcases look_next_updatePredatorT_of_dead hw hq hs with h | h
    · rw [h]; exact hn
    · right; rw [h]; decide

theorem deadInv_stepT {R C : Nat} {grid : Grid} (hg : Rect grid R C) (rng : Rand) {x : Pos}
    (hx : (look grid x).status = .Dead) : DeadInv R C grid x (stepT R C grid rng) := by
  have h1 := foldl_inv_simple (updatePreyT R C) (DeadInv R C grid x) (cellList R C)
    ⟨grid, grid, rng⟩ ⟨⟨hg, hg⟩, hx, Or.inl rfl⟩
    (fun q hq s' h => deadInv_updatePreyT (mem_cellList.1 hq) h)
  exact foldl_inv_simple (updatePredatorT R C) (DeadInv R C grid x) (cellList R C)
    (preyPhaseT R C ⟨grid, grid, rng⟩) h1
    (fun q hq s' h => deadInv_updatePredatorT (mem_cellList.1 hq) h)

/-! ### Predator energy -/

theorem nonNegOn_put {Q : Pos → Prop} {g : Grid} {R C : Nat} (hg : Rect g R C) {p : Pos}
    (hp : InB R C p) (h : NonNegOn Q g) {c : Cell}
    (hc : Q p → c.status = .Predator → 0 ≤ c.energy) : NonNegOn Q (put g p c) := by
  intro x hx
  rw [look_put hg hp]
  split
  · rename_i e
    subst e
    exact hc hx
  · exact h x hx

theorem nonNegOn_kill {Q : Pos → Prop} {g : Grid} {R C : Nat} (hg : Rect g R C) {p : Pos}
    (hp : InB R C p) (h : NonNegOn Q g) : NonNegOn Q (kill g p) :=
  nonNegOn_put hg hp h (fun _ hs => by simp at hs)

theorem nonNegOn_updatePreyT {Q : Pos → Prop} {R C : Nat} {s : Sim} (hw : WF R C s) {q : Pos}
    (hq : InB R C q) (hn : NonNegOn Q s.nextGrid) :
    NonNegOn Q (updatePreyT R C q s).nextGrid := by
  have hw1 := wf_preyReproduceT hw q
  have hd := preyDest_inB (g := s.grid) hq (preyReproduceT R C q s).rng
  have hn1 : NonNegOn Q (preyReproduceT R C q s).nextGrid := by
    unfold preyReproduceT
    split
    · rename_i h
      exact nonNegOn_put hw.2 (emptyOf_inB (pick_mem h.2.2 s.rng)) hn (fun _ hs => by simp at hs)
    · exact hn
  unfold updatePreyT
  split
  · exact hn
  · dsimp only
    have hn2 : NonNegOn Q (put (preyReproduceT R C q s).nextGrid
        (preyDest R C s.grid q (preyReproduceT R C q s).rng)
        ⟨.Prey, 0, max 0 ((look (preyReproduceT R C q s).grid q).reproductionCooldown - 1)⟩) :=
      nonNegOn_put hw1.2 hd hn1 (fun _ hs => by simp at hs)
    split
    · exact nonNegOn_kill (rect_put hw1.2 _ _) hq hn2
    · exact hn2

theorem partnerOf_spec {R C : Nat} {g : Grid} {p q : Pos} (h : partnerOf R C g p = some q) :
    (look g q).status = .Predator ∧ (look g q).energy ≥ 5 := by
  have hm := List.mem_of_find?_eq_some h
  have hp := List.find?_some h
  simp only [decide_eq_true_eq] at hp
  exact ⟨(mem_withStatus.1 hm).2, hp⟩

theorem nonNegOn_updatePredatorT {R C : Nat} {s : Sim} (hw : WF R C s) {q : Pos}
    (hq : InB R C q) (hn : NonNegOn (NotPartner s.grid) s.nextGrid) :
    NonNegOn (NotPartner s.grid) (updatePredatorT R C q s).nextGrid := by
  have hd := predatorDest_inB (g := s.grid) hq s.rng
  unfold updatePredatorT
  split
  · exact hn
  rename_i hs
  split
  · exact nonNegOn_kill hw.2 hq hn
  rename_i he
  dsimp only
  have hE : 0 ≤ newEnergyOf R C s.grid q := by
    unfold newEnergyOf
    split <;> omega
  have hr1 : Rect (put s.nextGrid (predatorDest R C s.grid q s.rng)
      ⟨.Predator, newEnergyOf R C s.grid q, 0⟩) R C := rect_put hw.2 _ _
  have h1 : NonNegOn (NotPartner s.grid) (put s.nextGrid (predatorDest R C s.grid q s.rng)
      ⟨.Predator, newEnergyOf R C s.grid q, 0⟩) :=
    nonNegOn_put hw.2 hd hn (fun _ _ => hE)
  have h2r : Rect (if predatorDest R C s.grid q s.rng ≠ q then
      kill (put s.nextGrid (predatorDest R C s.grid q s.rng)
        ⟨.Predator, newEnergyOf R C s.grid q, 0⟩) q
      else put s.nextGrid (predatorDest R C s.grid q s.rng)
        ⟨.Predator, newEnergyOf R C s.grid q, 0⟩) R C := by
    split
    · exact rect_kill hr1 _
    · exact hr1
  have h2 : NonNegOn (NotPartner s.grid) (if predatorDest R C s.grid q s.rng ≠ q then
      kill (put s.nextGrid (predatorDest R C s.grid q s.rng)
        ⟨.Predator, newEnergyOf R C s.grid q, 0⟩) q
      else put s.nextGrid (predatorDest R C s.grid q s.rng)
        ⟨.Predator, newEnergyOf R C s.grid q, 0⟩) := by
    split
    · exact nonNegOn_kill hr1 hq h1
    · exact h1
  have h2d : look (if predatorDest R C s.grid q s.rng ≠ q then
      kill (put s.nextGrid (predatorDest R C s.grid q s.rng)
        ⟨.Predator, newEnergyOf R C s.grid q, 0⟩) q
      else put s.nextGrid (predatorDest R C s.grid q s.rng)
        ⟨.Predator, newEnergyOf R C s.grid q, 0⟩) (predatorDest R C s.grid q s.rng) =
      ⟨.Predator, newEnergyOf R C s.grid q, 0⟩ := by
    split
    · rename_i hne
      rw [look_kill hr1 hq, if_neg hne, look_put_self hw.2 hd]
    · rw [look_put_self hw.2 hd]
  generalize (if predatorDest R C s.grid q s.rng ≠ q then
      kill (put s.nextGrid (predatorDest R C s.grid q s.rng)
        ⟨.Predator, newEnergyOf R C s.grid q, 0⟩) q
      else put s.nextGrid (predatorDest R C s.grid q s.rng)
        ⟨.Predator, newEnergyOf R C s.grid q, 0⟩) = g2 at h2r h2 h2d ⊢
  split
  · rename_i hE5
    rcases hpar : partnerOf R C s.grid q with _ | p'
    · exact h2
    rcases hes : emptyOf R C s.grid q with _ | ⟨e, es'⟩
    · exact h2
    have hein : InB R C e := emptyOf_inB (by rw [hes]; exact List.mem_cons_self _ _)
    have hpin : InB R C p' := partnerOf_inB hpar
    have hr3 := rect_put h2r e ⟨.Predator, 5, 0⟩
    have h3 : NonNegOn (NotPartner s.grid) (put g2 e ⟨.Predator, 5, 0⟩) :=
      nonNegOn_put h2r hein h2 (fun _ _ => by decide)
    have h4 : NonNegOn (NotPartner s.grid) (charge (put g2 e ⟨.Predator, 5, 0⟩)
        (predatorDest R C s.grid q s.rng)) := by
      refine nonNegOn_put hr3 hd h3 (fun _ _ => ?_)
      dsimp only
      rw [look_put h2r hein]
      split
      · decide
      · rw [h2d]
        show 0 ≤ newEnergyOf R C s.grid q - 3
        omega
    exact nonNegOn_put (rect_charge hr3 _) hpin h4
      (fun hQ _ => absurd (partnerOf_spec hpar) hQ)
  · exact h2

theorem notPartner_congr {g g' : Grid} {x : Pos}
    (h : (look g' x).status = (look g x).status ∧ (look g' x).energy = (look g x).energy) :
    NotPartner g' x ↔ NotPartner g x := by
  unfold NotPartner
  rw [h.1, h.2]

/-! ### A grid with a single predator -/

theorem stepT_of_lonePredator {R C : Nat} {g : Grid} {p : Pos} (hp : InB R C p)
    (h : LonePredatorAt R C g p) (rng : Rand) :
    stepT R C g rng = updatePredatorT R C p ⟨g, g, rng⟩ := by
  obtain ⟨hsp, hothers⟩ := h
  have hnoprey : ∀ q ∈ cellList R C, (look g q).status ≠ .Prey := by
    intro q hq
    by_cases hqp : q = p
    · rw [hqp, hsp]; decide
    · rw [hothers q hq hqp]; decide
  have h1 : preyPhaseT R C ⟨g, g, rng⟩ = ⟨g, g, rng⟩ :=
    foldl_inv_simple (updatePreyT R C) (fun s => s = ⟨g, g, rng⟩) (cellList R C) ⟨g, g, rng⟩ rfl
      (fun q hq s' hs' => by
        subst hs'
        exact updatePreyT_of_not_prey (hnoprey q hq))
  have h2 := foldl_inv (updatePredatorT R C)
    (fun done s => (p ∉ done → s = ⟨g, g, rng⟩) ∧
      (p ∈ done → s = updatePredatorT R C p ⟨g, g, rng⟩))
    (cellList R C) [] ⟨g, g, rng⟩
    ⟨fun _ => rfl, fun hm => absurd hm (List.not_mem_nil _)⟩
    (fun pre q rest s' hsplit hI => by
      simp only [List.nil_append] at hsplit
      have hq : q ∈ cellList R C := mem_of_split hsplit
      have hqpre : q ∉ pre := not_mem_pre (nodup_cellList R C) hsplit
      by_cases hqp : q = p
      · subst hqp
        have hs' := hI.1 hqpre
        subst hs'
        exact ⟨fun hn => absurd (List.mem_append_right _ (List.mem_singleton.2 rfl)) hn,
          fun _ => rfl⟩
      · have hgrid : s'.grid = g := by
          by_cases hpp : p ∈ pre
          · rw [hI.2 hpp, grid_updatePredatorT]
          · rw [hI.1 hpp]
        have hid : updatePredatorT R C q s' = s' :=
          updatePredatorT_of_not_predator (by
            rw [hgrid, hothers q hq hqp]; decide)
        rw [hid]
        constructor
        · intro hn
          exact hI.1 (fun hm => hn (List.mem_append_left _ hm))
        · intro hm
          rcases List.mem_append.1 hm with hm' | hm'
          · exact hI.2 hm'
          · exact absurd (List.mem_singleton.1 hm').symm hqp)
  have h3 := h2.2 (by simpa using mem_cellList.2 hp)
  unfold stepT predatorPhaseT
  rw [h1]
  simpa using h3

theorem lists_of_lonePredator {R C : Nat} {g : Grid} {p : Pos} (h : LonePredatorAt R C g p) :
    preyOf R C g p = [] ∧ emptyOf R C g p = nbrs R C p := by
  have hdead : ∀ q ∈ nbrs R C p, (look g q).status = .Dead := fun q hq =>
    h.2 q (mem_cellList.2 (nbrs_inB hq)) (nbrs_ne_self hq)
  constructor
  · unfold preyOf withStatus
    rw [List.filter_eq_nil_iff]
    intro q hq
    rw [hdead q hq]
    decide
  · unfold emptyOf withStatus
    rw [List.filter_eq_self]
    intro q hq
    rw [hdead q hq]
    decide

/-- First step of a grid whose only organism is a predator with energy between
1 and 4 and at least one neighbour: it moves to a random neighbour. -/
theorem next_of_lonePredator {R C : Nat} {g : Grid} {p : Pos} (hp : InB R C p)
    (h : LonePredatorAt R C g p) (he : 1 ≤ (look g p).energy ∧ (look g p).energy ≤ 4)
    (hn : nbrs R C p ≠ []) (rng : Rand) :
    (stepT R C g rng).nextGrid =
      kill (put g (pick (nbrs R C p) rng) ⟨.Predator, (look g p).energy - 1, 0⟩) p := by
  obtain ⟨hpr, hem⟩ := lists_of_lonePredator h
  have hdest : predatorDest R C g p rng = pick (nbrs R C p) rng := by
    simp only [predatorDest, hpr, hem, hn, ne_eq, not_true_eq_false, not_false_eq_true,
      if_true, if_false]
  have hne : pick (nbrs R C p) rng ≠ p := nbrs_ne_self (pick_mem hn rng)
  rw [stepT_of_lonePredator hp h rng,
    updatePredatorT_noEvent (s := ⟨g, g, rng⟩) h.1 he hpr]
  show (if predatorDest R C g p rng ≠ p then _ else _) = _
  rw [hdest, if_pos hne]

theorem lonePredatorAt_moved {R C : Nat} {g : Grid} (hg : Rect g R C) {p d : Pos}
    (hp : InB R C p) (hd : InB R C d) (hdp : d ≠ p) (h : LonePredatorAt R C g p) (e : Int) :
    LonePredatorAt R C (kill (put g d ⟨.Predator, e, 0⟩) p) d := by
  constructor
  · rw [look_kill (rect_put hg _ _) hp, if_neg hdp, look_put_self hg hd]
  · intro q hq hqd
    rw [look_kill (rect_put hg _ _) hp]
    split
    · rfl
    · rename_i hqp
      rw [look_put hg hd, if_neg hqd]
      exact h.2 q hq hqp

/-- Step of a grid whose only organism is a predator with energy at most 0: its
cell is marked Dead and nothing else is written. -/
theorem next_of_starvedPredator {R C : Nat} {g : Grid} {p : Pos} (hp : InB R C p)
    (h : LonePredatorAt R C g p) (he : (look g p).energy ≤ 0) (rng : Rand) :
    (stepT R C g rng).nextGrid = kill g p := by
  have hs : ¬ (look g p).status ≠ .Predator := fun hh => hh h.1
  rw [stepT_of_lonePredator hp h rng]
  simp only [updatePredatorT, hs, he, if_true, if_false]

/-! ### Conservation on no-event steps without contested cells -/

theorem noContest_of_check {g : Grid} {R C : Nat} (hg : Rect g R C)
    (h : NoContestCheck R C g) : NoContest g := by
  intro r c x ns hx hxs hns a ha b hb has hbs
  have hin : InB R C (r, c) := inB_of_cellAt hg hx
  have hn := getNeighbors_eq hg (inB_pos hin) r c
  rw [hns] at hn
  have hns' : ns = nbrs R C (r, c) := Except.ok.inj hn
  subst hns'
  have hl : (look g (r, c)).status = .Dead := by rw [look_of_cellAt hx]; exact hxs
  exact h (r, c) (mem_cellList.2 hin) hl a ha b hb has hbs

/-- Two organisms next to the same Dead cell of a grid without contested cells
are the same organism. -/
theorem noContest_nbrs {grid : Grid} {R C : Nat} (hg : Rect grid R C) (hnc : NoContest grid)
    {d a b : Pos} (hd : (look grid d).status = .Dead) (ha : d ∈ nbrs R C a)
    (hb : d ∈ nbrs R C b) (has : (look grid a).status ≠ .Dead)
    (hbs : (look grid b).status ≠ .Dead) : a = b := by
  have hdin : InB R C d := nbrs_inB ha
  have hain : InB R C a := inB_of_status hg has
  have hbin : InB R C b := inB_of_status hg hbs
  exact hnc d.1 d.2 (look grid d) (nbrs R C d) (cellAt_eq_look hg hdin) hd
    (getNeighbors_eq hg (inB_pos hdin) d.1 d.2) a (nbrs_symm ha hain) b (nbrs_symm hb hbin)
    has hbs

/-- Counting step shared by the two rules on a no-event step without contested
cells: an organism of status `st` at `q`, still present in the buffer, is
written at `d`, a cell that is Dead in the buffer when it differs from `q`, and
`q` is vacated when it moved.  No count of a species changes. -/
theorem count_move_eq {g : Grid} {R C : Nat} (hg : Rect g R C) {q d : Pos} (hq : InB R C q)
    (hd : InB R C d) (st : CellStatus) (c : Cell) (hc : c.status = st)
    (hqs : (look g q).status = st) (hds : d ≠ q → (look g d).status = .Dead)
    (st' : CellStatus) (hst' : st' ≠ .Dead) :
    countStatus st' (if d ≠ q then kill (put g d c) q else put g d c) = countStatus st' g := by
  have h1 := count_put hg hd st' c
  have icq : ind st' c = ind st' (look g q) := by simp [ind, hc, hqs]
  by_cases hdq : d ≠ q
  · have hlq : look (put g d c) q = look g q := by
      rw [look_put hg hd, if_neg (Ne.symm hdq)]
    have h2 := count_kill (rect_put hg d c) hq st'
    rw [hlq] at h2
    have id0 : ind st' (look g d) = 0 := by simp [ind, hds hdq, Ne.symm hst']
    have ik : ind st' { look g q with status := .Dead } = 0 := by simp [ind, Ne.symm hst']
    rw [if_pos hdq]
    omega
  · have hdq' : d = q := by
      by_contra h
      exact hdq h
    subst hdq'
    rw [if_neg hdq]
    omega

theorem preyCons_step {R C : Nat} {grid : Grid} (hg : Rect grid R C)
    (hT : NoEventT R C grid) (hnc : NoContest grid) {pre : List Pos}
    {q : Pos} {s : Sim} (hq : InB R C q) (hqpre : q ∉ pre) (hI : PreyCons R C grid pre s) :
    PreyCons R C grid (pre ++ [q]) (updatePreyT R C q s) := by
  obtain ⟨hw, hgrid, hcP, hcX, hprey, hpred, hdead⟩ := hI
  by_cases hs : (look grid q).status = .Prey
  · have hs' : (look s.grid q).status = .Prey := by rw [hgrid]; exact hs
    have hno' := hT.1 q hs
    rw [← hgrid] at hno'
    obtain ⟨e1, e2⟩ := updatePreyT_noRepro hs' hno'
    have hd := preyDest_inB (g := s.grid) hq s.rng
    have hqn : (look grid q).status ≠ .Dead := by rw [hs]; decide
    have hds : preyDest R C s.grid q s.rng ≠ q →
        (look s.nextGrid (preyDest R C s.grid q s.rng)).status = .Dead := by
      intro hne
      rcases preyDest_cases R C s.grid q s.rng with h | h
      · rw [hgrid] at h ⊢
        obtain ⟨hm, hst⟩ := mem_withStatus.1 h
        refine hdead _ hst ?_
        intro y hy hys hmy
        have hyn : (look grid y).status ≠ .Dead := by rw [hys]; decide
        have := noContest_nbrs hg hnc hst hmy hm hyn hqn
        exact hqpre (this ▸ hy)
      · exact absurd h hne
    refine ⟨wf_updatePreyT hw q, e1.trans hgrid, ?_, ?_, ?_, ?_, ?_⟩
    · rw [e2, count_move_eq hw.2 hq hd .Prey (movedPrey s.grid q) rfl
        (hprey q hqpre hs) hds .Prey (by decide)]
      exact hcP
    · rw [e2, count_move_eq hw.2 hq hd .Prey (movedPrey s.grid q) rfl
        (hprey q hqpre hs) hds .Predator (by decide)]
      exact hcX
    · intro y hy hys
      have hyq : y ≠ q := fun e => hy (e ▸ List.mem_append_right _ (List.mem_singleton.2 rfl))
      have hyp : y ∉ pre := fun h => hy (List.mem_append_left _ h)
      have hye : y ∉ emptyOf R C s.grid q := by
        rw [hgrid]; exact not_mem_of_status hys (by decide)
      rw [look_next_updatePreyT hw hq hyq hye]
      exact hprey y hyp hys
    · intro y hys
      have hyq : y ≠ q := by
        rintro rfl
        rw [hs] at hys
        exact absurd hys (by decide)
      have hye : y ∉ emptyOf R C s.grid q := by
        rw [hgrid]; exact not_mem_of_status hys (by decide)
      rw [look_next_updatePreyT hw hq hyq hye]
      exact hpred y hys
    · intro d hdd hfree
      have hdq : d ≠ q := by
        rintro rfl
        exact hqn hdd
      have hdn : d ∉ nbrs R C q :=
        hfree q (List.mem_append_right _ (List.mem_singleton.2 rfl)) hs
      have hde : d ∉ emptyOf R C s.grid q := fun h => hdn (mem_withStatus.1 h).1
      rw [look_next_updatePreyT hw hq hdq hde]
      exact hdead d hdd (fun y hy => hfree y (List.mem_append_left _ hy))
  · have hs' : (look s.grid q).status ≠ .Prey := by rw [hgrid]; exact hs
    rw [updatePreyT_of_not_prey hs']
    exact ⟨hw, hgrid, hcP, hcX,
      fun y hy hys => hprey y (fun h => hy (List.mem_append_left _ h)) hys, hpred,
      fun d hdd hfree => hdead d hdd (fun y hy => hfree y (List.mem_append_left _ hy))⟩

theorem predatorCons_step {R C : Nat} {grid : Grid} (hg : Rect grid R C)
    (hT : NoEventT R C grid) (hnc : NoContest grid) {pre : List Pos}
    {q : Pos} {s : Sim} (hq : InB R C q) (hqpre : q ∉ pre)
    (hI : PredatorCons R C grid pre s) :
    PredatorCons R C grid (pre ++ [q]) (updatePredatorT R C q s) := by
  obtain ⟨hw, hgrid, hcP, hcX, hpred, hdead⟩ := hI
  by_cases hs : (look grid q).status = .Predator
  · have hs' : (look s.grid q).status = .Predator := by rw [hgrid]; exact hs
    have hen := hT.2.2 q hs
    have hpr := hT.2.1 q hs
    rw [← hgrid] at hen hpr
    have e2 := updatePredatorT_noEvent hs' hen hpr
    have hd := predatorDest_inB (g := s.grid) hq s.rng
    have hqn : (look grid q).status ≠ .Dead := by rw [hs]; decide
    have hds : predatorDest R C s.grid q s.rng ≠ q →
        (look s.nextGrid (predatorDest R C s.grid q s.rng)).status = .Dead := by
      intro hne
      rcases predatorDest_cases R C s.grid q s.rng with h | h | h
      · rw [hpr] at h
        exact absurd h (List.not_mem_nil _)
      · rw [hgrid] at h ⊢
        obtain ⟨hm, hst⟩ := mem_withStatus.1 h
        refine hdead _ hst ?_ ?_
        · intro y hys hmy
          have hyn : (look grid y).status ≠ .Dead := by rw [hys]; decide
          have := noContest_nbrs hg hnc hst hmy hm hyn hqn
          rw [this, hs] at hys
          exact absurd hys (by decide)
        · intro y hy hys hmy
          have hyn : (look grid y).status ≠ .Dead := by rw [hys]; decide
          have := noContest_nbrs hg hnc hst hmy hm hyn hqn
          exact hqpre (this ▸ hy)
      · exact absurd h hne
    refine ⟨wf_updatePredatorT hw q, (grid_updatePredatorT R C q s).trans hgrid, ?_, ?_, ?_, ?_⟩
    · rw [e2, count_move_eq hw.2 hq hd .Predator
        ⟨.Predator, (look s.grid q).energy - 1, 0⟩ rfl (hpred q hqpre hs) hds .Prey (by decide)]
      exact hcP
    · rw [e2, count_move_eq hw.2 hq hd .Predator
        ⟨.Predator, (look s.grid q).energy - 1, 0⟩ rfl (hpred q hqpre hs) hds .Predator
        (by decide)]
      exact hcX
    · intro y hy hys
      have hyq : y ≠ q := fun e => hy (e ▸ List.mem_append_right _ (List.mem_singleton.2 rfl))
      have hyp : y ∉ pre := fun h => hy (List.mem_append_left _ h)
      have hy1 : y ∉ preyOf R C s.grid q := by
        rw [hgrid]; exact not_mem_of_status hys (by decide)
      have hy2 : y ∉ emptyOf R C s.grid q := by
        rw [hgrid]; exact not_mem_of_status hys (by decide)
      rw [status_next_updatePredatorT hw hq hyq hy1 hy2]
      exact hpred y hyp hys
    · intro d hdd hfreeP hfree
      have hdq : d ≠ q := by
        rintro rfl
        exact hqn hdd
      have hdn : d ∉ nbrs R C q :=
        hfree q (List.mem_append_right _ (List.mem_singleton.2 rfl)) hs
      have hd1 : d ∉ preyOf R C s.grid q := fun h => hdn (mem_withStatus.1 h).1
      have hd2 : d ∉ emptyOf R C s.grid q := fun h => hdn (mem_withStatus.1 h).1
      rw [status_next_updatePredatorT hw hq hdq hd1 hd2]
      exact hdead d hdd hfreeP (fun y hy => hfree y (List.mem_append_left _ hy))
  · have hs' : (look s.grid q).status ≠ .Predator := by rw [hgrid]; exact hs
    rw [updatePredatorT_of_not_predator hs']
    exact ⟨hw, hgrid, hcP, hcX,
      fun y hy hys => hpred y (fun h => hy (List.mem_append_left _ h)) hys,
      fun d hdd hfreeP hfree =>
        hdead d hdd hfreeP (fun y hy => hfree y (List.mem_append_left _ hy))⟩

/-! ## Claims -/

/-! ### C1 -/

/-- C1: starvation closure at step level.  On a rectangular grid, a cell that is
a Predator with energy at most 0 before `updateGrid` has status Dead after it,
for every random stream: `updateGrid` returns, and no write of another prey or
predator processed in the same step leaves the cell non-Dead. -/
theorem starvation_closure (grid : Grid) (R C : Nat) (hg : Rect grid R C) (rng : Rand)
    (r c : Int) (hin : InB R C (r, c)) (hst : (look grid (r, c)).status = .Predator)
    (he : (look grid (r, c)).energy ≤ 0) :
    ∃ g' rng' x, updateGrid grid rng = .ok (g', rng') ∧ cellAt g' r c = .ok x ∧
      x.status = .Dead := by
  obtain ⟨hstep, hwf⟩ := updateGrid_eq hg rng
  refine ⟨_, _, _, hstep, cellAt_eq_look hwf.2 hin, ?_⟩
  have hw0 : WF R C ⟨grid, grid, rng⟩ := ⟨hg, hg⟩
  have hw1 := wf_preyPhaseT hw0
  have hl1 := look_grid_preyPhaseT hw0 (r, c)
  have key := foldl_inv (updatePredatorT R C)
    (fun done s => WF R C s ∧ (look s.grid (r, c)).status = .Predator ∧
      (look s.grid (r, c)).energy ≤ 0 ∧
      ((r, c) ∈ done → (look s.nextGrid (r, c)).status = .Dead))
    (cellList R C) [] (preyPhaseT R C ⟨grid, grid, rng⟩)
    ⟨hw1, hl1.1.trans hst, by rw [hl1.2]; exact he, fun h => absurd h (List.not_mem_nil _)⟩
    (fun pre q rest s' hsplit hI => by
      obtain ⟨hw, hs, hen, hdone⟩ := hI
      have hq : InB R C q := by
        apply mem_cellList.1
        simp only [List.nil_append] at hsplit
        rw [hsplit]
        simp
      refine ⟨wf_updatePredatorT hw q, ?_, ?_, ?_⟩
      · rw [grid_updatePredatorT]; exact hs
      · rw [grid_updatePredatorT]; exact hen
      · intro hmem
        by_cases hqp : q = (r, c)
        · subst hqp
          have hs' : ¬ (look s'.grid (r, c)).status ≠ .Predator := fun h => h hs
          simp only [updatePredatorT, hs', hen, if_true, if_false]
          rw [look_kill hw.2 hin, if_pos rfl]
        · have hpre : (r, c) ∈ pre := by
            rcases List.mem_append.1 hmem with h | h
            · exact h
            · exact absurd (List.mem_singleton.1 h).symm hqp
          rw [status_next_updatePredatorT hw hq (fun h => hqp h.symm)]
          · exact hdone hpre
          · intro h
            have := (mem_withStatus.1 h).2
            rw [hs] at this
            exact absurd this (by decide)
          · intro h
            have := (mem_withStatus.1 h).2
            rw [hs] at this
            exact absurd this (by decide))
  exact key.2.2.2 (by simpa using mem_cellList.2 hin)

theorem starvation_closure_witness :
    ∃ g' rng' x,
      updateGrid [[⟨.Predator, 0, 0⟩, ⟨.Dead, 0, 0⟩, ⟨.Predator, 1, 0⟩]] (fun _ => 0) =
        .ok (g', rng') ∧
      cellAt g' 0 0 = .ok x ∧ x.status = .Dead :=
  starvation_closure _ 1 3 (by decide) (fun _ => 0) 0 0 (by decide) (by decide) (by decide)

/-! ### C2 -/

/-- C2: energy accounting of `updatePredator`.  For a Predator with energy
`e > 0` on a well-formed state, when no reproduction is triggered (the new
energy is below 5, or no Predator neighbour has energy at least 5 in the grid
being read, or there is no Dead neighbour), the destination cell of `nextGrid`
after the call is a Predator with energy `e - 1` when there is no Prey
neighbour and `e - 1 + 5` when there is one. -/
theorem predator_energy_accounting (R C : Nat) (s : Sim) (r c : Int) (hw : WF R C s)
    (hin : InB R C (r, c)) (hst : (look s.grid (r, c)).status = .Predator)
    (he : 0 < (look s.grid (r, c)).energy)
    (ns : List Pos) (hns : getNeighbors r c s.grid = .ok ns)
    (hno : (look s.grid (r, c)).energy - 1 +
          (if hasNeighbor s.grid ns .Prey then 5 else 0) < 5 ∨
        (∀ q ∈ ns, (look s.grid q).status = .Predator → (look s.grid q).energy < 5) ∨
        ¬ hasNeighbor s.grid ns .Dead) :
    ∃ s' nb dest consumed rng' x,
      updatePredator r c s = .ok s' ∧
      classify s.grid ns = .ok nb ∧ predatorTarget r c nb s.rng = .ok (dest, consumed, rng') ∧
      cellAt s'.nextGrid dest.1 dest.2 = .ok x ∧ x.status = .Predator ∧
      (¬ hasNeighbor s.grid ns .Prey → x.energy = (look s.grid (r, c)).energy - 1) ∧
      (hasNeighbor s.grid ns .Prey → x.energy = (look s.grid (r, c)).energy - 1 + 5) := by
  have hR := inB_pos hin
  obtain rfl : nbrs R C (r, c) = ns := by
    have := getNeighbors_eq hw.1 hR r c
    rw [hns] at this
    exact (Except.ok.inj this).symm
  have hd := predatorDest_inB (g := s.grid) hin s.rng
  have hw' := wf_updatePredatorT hw (r, c)
  have hs : ¬ (look s.grid (r, c)).status ≠ .Predator := fun h => h hst
  have he' : ¬ (look s.grid (r, c)).energy ≤ 0 := by omega
  have hcell : look (updatePredatorT R C (r, c) s).nextGrid (predatorDest R C s.grid (r, c) s.rng) =
      ⟨.Predator, newEnergyOf R C s.grid (r, c), 0⟩ := by
    have h2 : look (if predatorDest R C s.grid (r, c) s.rng ≠ (r, c) then
        kill (put s.nextGrid (predatorDest R C s.grid (r, c) s.rng)
          ⟨.Predator, newEnergyOf R C s.grid (r, c), 0⟩) (r, c)
        else put s.nextGrid (predatorDest R C s.grid (r, c) s.rng)
          ⟨.Predator, newEnergyOf R C s.grid (r, c), 0⟩)
        (predatorDest R C s.grid (r, c) s.rng) = ⟨.Predator, newEnergyOf R C s.grid (r, c), 0⟩ := by
      split
      · rename_i hne
        rw [look_kill (rect_put hw.2 _ _) hin, if_neg hne, look_put_self hw.2 hd]
      · rw [look_put_self hw.2 hd]
    simp only [updatePredatorT, hs, he', if_false]
    split
    · rename_i hE
      have hspawn : spawnT (predatorDest R C s.grid (r, c) s.rng) (emptyOf R C s.grid (r, c))
          (partnerOf R C s.grid (r, c)) = fun g => g := by
        rcases hno with h | h | h
        · exfalso
          simp only [newEnergyOf, preyOf, withStatus_ne_nil] at hE
          omega
        · have : partnerOf R C s.grid (r, c) = none := by
            unfold partnerOf
            rw [List.find?_eq_none]
            intro q hq
            have := mem_withStatus.1 hq
            have := h q this.1 this.2
            simp only [decide_eq_true_eq]
            omega
          funext g
          simp only [spawnT, this]
        · have : emptyOf R C s.grid (r, c) = [] := by
            by_contra hne
            exact h (withStatus_ne_nil.1 hne)
          funext g
          simp only [spawnT, this]
          split <;> simp_all
      rw [hspawn]
      exact h2
    · exact h2
  refine ⟨_, _, _, _, _, _, updatePredator_eq hR hw hin,
    classify_eq hw.1 _ (fun q hq => nbrs_inB hq),
    predatorTarget_eq R C s.grid (r, c) _ s.rng, cellAt_eq_look hw'.2 hd, ?_, ?_, ?_⟩
  · rw [hcell]
  · intro h
    have h' : ¬ preyOf R C s.grid (r, c) ≠ [] := fun hh => h (withStatus_ne_nil.1 hh)
    rw [hcell]
    simp only [newEnergyOf, h', if_false, add_zero]
  · intro h
    have h' : preyOf R C s.grid (r, c) ≠ [] := withStatus_ne_nil.2 h
    rw [hcell]
    simp only [newEnergyOf, h', if_true, ne_eq, not_false_eq_true]

theorem predator_energy_accounting_witness :
    ∃ s' nb dest consumed rng' x,
      updatePredator 0 0 lonePredator = .ok s' ∧
      classify lonePredator.grid [(0, 1)] = .ok nb ∧
      predatorTarget 0 0 nb lonePredator.rng = .ok (dest, consumed, rng') ∧
      cellAt s'.nextGrid dest.1 dest.2 = .ok x ∧ x.status = .Predator ∧
      (¬ hasNeighbor lonePredator.grid [(0, 1)] .Prey →
        x.energy = (look lonePredator.grid (0, 0)).energy - 1) ∧
      (hasNeighbor lonePredator.grid [(0, 1)] .Prey →
        x.energy = (look lonePredator.grid (0, 0)).energy - 1 + 5) :=
  predator_energy_accounting 1 2 lonePredator 0 0 (by decide) (by decide) (by decide)
    (by decide) [(0, 1)] rfl (by decide)

/-! ### C3 -/

/-- C3: target priority of `updatePredator`.  For a Predator with energy above 0
on a well-formed state, the destination the code computes (`predatorTarget` on
the classified neighbours) is a Prey neighbour whenever there is one, otherwise
a Dead neighbour whenever there is one, otherwise the origin; after the call
`nextGrid` holds a Predator at the destination, and when the destination differs
from the origin, `nextGrid` at the origin has status Dead. -/
theorem predator_target_priority (R C : Nat) (s : Sim) (r c : Int) (hw : WF R C s)
    (hin : InB R C (r, c)) (hst : (look s.grid (r, c)).status = .Predator)
    (he : 0 < (look s.grid (r, c)).energy) :
    ∃ s' ns nb dest consumed rng',
      updatePredator r c s = .ok s' ∧ getNeighbors r c s.grid = .ok ns ∧
      classify s.grid ns = .ok nb ∧ predatorTarget r c nb s.rng = .ok (dest, consumed, rng') ∧
      (hasNeighbor s.grid ns .Prey → dest ∈ ns ∧ (look s.grid dest).status = .Prey) ∧
      (¬ hasNeighbor s.grid ns .Prey → hasNeighbor s.grid ns .Dead →
        dest ∈ ns ∧ (look s.grid dest).status = .Dead) ∧
      (¬ hasNeighbor s.grid ns .Prey → ¬ hasNeighbor s.grid ns .Dead → dest = (r, c)) ∧
      (∃ x, cellAt s'.nextGrid dest.1 dest.2 = .ok x ∧ x.status = .Predator) ∧
      (dest ≠ (r, c) → ∃ x, cellAt s'.nextGrid r c = .ok x ∧ x.status = .Dead) := by
  have hR := inB_pos hin
  have hd := predatorDest_inB (g := s.grid) hin s.rng
  have hw' := wf_updatePredatorT hw (r, c)
  refine ⟨_, _, _, _, _, _, updatePredator_eq hR hw hin, getNeighbors_eq hw.1 hR r c,
    classify_eq hw.1 _ (fun q hq => nbrs_inB hq),
    predatorTarget_eq R C s.grid (r, c) _ s.rng, ?_, ?_, ?_, ?_, ?_⟩
  · intro h
    have h' : preyOf R C s.grid (r, c) ≠ [] := withStatus_ne_nil.2 h
    have := pick_mem h' s.rng
    simp only [predatorDest, h', if_true, ne_eq, not_false_eq_true]
    exact mem_withStatus.1 this
  · intro h1 h2
    have h1' : ¬ preyOf R C s.grid (r, c) ≠ [] := fun h => h1 (withStatus_ne_nil.1 h)
    have h2' : emptyOf R C s.grid (r, c) ≠ [] := withStatus_ne_nil.2 h2
    have := pick_mem h2' s.rng
    simp only [predatorDest, h1', h2', if_true, if_false, ne_eq, not_false_eq_true]
    exact mem_withStatus.1 this
  · intro h1 h2
    have h1' : ¬ preyOf R C s.grid (r, c) ≠ [] := fun h => h1 (withStatus_ne_nil.1 h)
    have h2' : ¬ emptyOf R C s.grid (r, c) ≠ [] := fun h => h2 (withStatus_ne_nil.1 h)
    simp only [predatorDest, h1', h2', if_false]
  · refine ⟨_, cellAt_eq_look hw'.2 hd, ?_⟩
    have hs : ¬ (look s.grid (r, c)).status ≠ .Predator := fun h => h hst
    have he' : ¬ (look s.grid (r, c)).energy ≤ 0 := by omega
    have h2 : (look (if predatorDest R C s.grid (r, c) s.rng ≠ (r, c) then
        kill (put s.nextGrid (predatorDest R C s.grid (r, c) s.rng)
          ⟨.Predator, newEnergyOf R C s.grid (r, c), 0⟩) (r, c)
        else put s.nextGrid (predatorDest R C s.grid (r, c) s.rng)
          ⟨.Predator, newEnergyOf R C s.grid (r, c), 0⟩)
        (predatorDest R C s.grid (r, c) s.rng)).status = .Predator := by
      split
      · rename_i hne
        rw [look_kill (rect_put hw.2 _ _) hin, if_neg hne, look_put_self hw.2 hd]
      · rw [look_put_self hw.2 hd]
    simp only [updatePredatorT, hs, he', if_false]
    split
    · refine status_spawnT_of_predator ?_ hd (fun q hq => emptyOf_inB hq)
        (fun q hq => partnerOf_inB hq) h2
      split
      · exact rect_kill (rect_put hw.2 _ _) _
      · exact rect_put hw.2 _ _
    · exact h2
  · intro hne
    refine ⟨_, cellAt_eq_look hw'.2 hin, ?_⟩
    have hs : ¬ (look s.grid (r, c)).status ≠ .Predator := fun h => h hst
    have he' : ¬ (look s.grid (r, c)).energy ≤ 0 := by omega
    simp only [updatePredatorT, hs, he', if_false, hne, if_true, ne_eq, not_false_eq_true]
    have h2 : (look (kill (put s.nextGrid (predatorDest R C s.grid (r, c) s.rng)
        ⟨.Predator, newEnergyOf R C s.grid (r, c), 0⟩) (r, c)) (r, c)).status = .Dead := by
      rw [look_kill (rect_put hw.2 _ _) hin, if_pos rfl]
    split
    · rw [status_spawnT_of_not_mem (rect_kill (rect_put hw.2 _ _) _) hd
        (fun q hq => emptyOf_inB hq) (fun q hq => partnerOf_inB hq) ?_]
      · exact h2
      · intro hmem
        have := (mem_withStatus.1 hmem).2
        rw [hst] at this
        exact absurd this (by decide)
    · exact h2

theorem predator_target_priority_witness :
    ∃ s' ns nb dest consumed rng',
      updatePredator 0 0 lonePredator = .ok s' ∧
      getNeighbors 0 0 lonePredator.grid = .ok ns ∧
      classify lonePredator.grid ns = .ok nb ∧
      predatorTarget 0 0 nb lonePredator.rng = .ok (dest, consumed, rng') ∧
      (hasNeighbor lonePredator.grid ns .Prey →
        dest ∈ ns ∧ (look lonePredator.grid dest).status = .Prey) ∧
      (¬ hasNeighbor lonePredator.grid ns .Prey → hasNeighbor lonePredator.grid ns .Dead →
        dest ∈ ns ∧ (look lonePredator.grid dest).status = .Dead) ∧
      (¬ hasNeighbor lonePredator.grid ns .Prey → ¬ hasNeighbor lonePredator.grid ns .Dead →
        dest = (0, 0)) ∧
      (∃ x, cellAt s'.nextGrid dest.1 dest.2 = .ok x ∧ x.status = .Predator) ∧
      (dest ≠ (0, 0) → ∃ x, cellAt s'.nextGrid 0 0 = .ok x ∧ x.status = .Dead) :=
  predator_target_priority 1 2 lonePredator 0 0 (by decide) (by decide) (by decide) (by decide)

/-! ### C4 -/

/-- C4 fails as stated: `collidingPrey` satisfies the no-event hypotheses, and
one `updateGrid` step takes its 2 Prey cells to 1 (both prey move into the cell
(0,1), the second write replacing the first). -/
theorem population_not_conserved :
    NoEvent collidingPrey ∧
      ∃ g' rng', updateGrid collidingPrey (fun _ => 0) = .ok (g', rng') ∧
        countStatus .Prey collidingPrey = 2 ∧ countStatus .Prey g' = 1 := by
  refine ⟨noEvent_of_check (R := 1) (C := 3) (by decide) (by decide), _, _, rfl, ?_, ?_⟩ <;>
    decide

/-- C4, amended: population conservation on no-event steps without contested
cells.  On a rectangular grid, if no prey reproduces, no predator eats, every
Predator energy is between 1 and 4 (`NoEvent`), and no Dead cell has two
neighbours holding an organism, so that no two organisms can move into the same
cell (`NoContest`), then for every random stream `updateGrid` returns and the
number of Prey cells and the number of Predator cells after the step equal the
numbers before it. -/
theorem population_conserved_no_contest (grid : Grid) (R C : Nat) (hg : Rect grid R C)
    (rng : Rand) (hno : NoEvent grid) (hnc : NoContest grid) :
    ∃ g' rng', updateGrid grid rng = .ok (g', rng') ∧
      countStatus .Prey g' = countStatus .Prey grid ∧
      countStatus .Predator g' = countStatus .Predator grid := by
  obtain ⟨hstep, -⟩ := updateGrid_eq hg rng
  refine ⟨_, _, hstep, ?_⟩
  have hT := noEventT_of_noEvent hg hno
  have h1 : PreyCons R C grid (cellList R C) (preyPhaseT R C ⟨grid, grid, rng⟩) := by
    have := foldl_inv (updatePreyT R C) (PreyCons R C grid) (cellList R C) [] ⟨grid, grid, rng⟩
      ⟨⟨hg, hg⟩, rfl, rfl, rfl, fun _ _ h => h, fun _ h => h, fun _ h _ => h⟩
      (fun pre q rest s hsplit hI =>
        preyCons_step hg hT hnc (mem_cellList.1 (mem_of_split hsplit))
          (not_mem_pre (nodup_cellList R C) hsplit) hI)
    simpa [preyPhaseT] using this
  obtain ⟨hw1, hg1, hP1, hX1, -, hpred1, hdead1⟩ := h1
  have h2 : PredatorCons R C grid (cellList R C) (stepT R C grid rng) := by
    have := foldl_inv (updatePredatorT R C) (PredatorCons R C grid) (cellList R C) []
      (preyPhaseT R C ⟨grid, grid, rng⟩)
      ⟨hw1, hg1, hP1, hX1, fun y _ h => hpred1 y h,
        fun d hdd hfreeP _ => hdead1 d hdd (fun y _ hys => hfreeP y hys)⟩
      (fun pre q rest s hsplit hI =>
        predatorCons_step hg hT hnc (mem_cellList.1 (mem_of_split hsplit))
          (not_mem_pre (nodup_cellList R C) hsplit) hI)
    simpa [stepT, predatorPhaseT] using this
  exact ⟨h2.2.2.1, h2.2.2.2.1⟩

theorem population_conserved_no_contest_witness :
    ∃ g' rng', updateGrid scatteredGrid (fun n => n) = .ok (g', rng') ∧
      countStatus .Prey g' = countStatus .Prey scatteredGrid ∧
      countStatus .Predator g' = countStatus .Predator scatteredGrid :=
  population_conserved_no_contest scatteredGrid 2 6 (by decide) (fun n => n)
    (noEvent_of_check (R := 2) (C := 6) (by decide) (by decide))
    (noContest_of_check (R := 2) (C := 6) (by decide) (by decide))

/-! ### C5 -/

/-- C5: the cooldown bound is a step invariant.  On a rectangular grid in which
every Prey cell has reproductionCooldown in {0, 1, 2}, `updateGrid` returns for
every random stream and every Prey cell of the resulting grid has
reproductionCooldown in {0, 1, 2}. -/
theorem cooldown_bound_invariant (grid : Grid) (R C : Nat) (hg : Rect grid R C) (rng : Rand)
    (hcd : AllCells CooldownInRange grid) :
    ∃ g' rng', updateGrid grid rng = .ok (g', rng') ∧ AllCells CooldownInRange g' := by
  obtain ⟨hstep, hwf⟩ := updateGrid_eq hg rng
  refine ⟨_, _, hstep, ?_⟩
  have h0 : CoolOK grid := (coolOK_iff hg).2 hcd
  have h1 := foldl_inv_simple (updatePreyT R C)
    (fun s => WF R C s ∧ CoolOK s.grid ∧ CoolOK s.nextGrid) (cellList R C) ⟨grid, grid, rng⟩
    ⟨⟨hg, hg⟩, h0, h0⟩
    (fun q hq s' h =>
      ⟨wf_updatePreyT h.1 q, coolOK_updatePreyT h.1 (mem_cellList.1 hq) h.2.1 h.2.2⟩)
  have h2 := foldl_inv_simple (updatePredatorT R C)
    (fun s => WF R C s ∧ CoolOK s.nextGrid) (cellList R C) (preyPhaseT R C ⟨grid, grid, rng⟩)
    ⟨h1.1, h1.2.2⟩
    (fun q hq s' h =>
      ⟨wf_updatePredatorT h.1 q, coolOK_updatePredatorT h.1 (mem_cellList.1 hq) h.2⟩)
  exact (coolOK_iff hwf.2).1 h2.2

theorem cooldown_bound_invariant_witness :
    ∃ g' rng',
      updateGrid [[⟨.Prey, 0, 0⟩, ⟨.Prey, 0, 2⟩, ⟨.Dead, 0, 7⟩], [⟨.Predator, 5, 0⟩,
        ⟨.Dead, 0, 0⟩, ⟨.Prey, 0, 1⟩]] (fun _ => 1) = .ok (g', rng') ∧
      AllCells CooldownInRange g' :=
  cooldown_bound_invariant _ 2 3 (by decide) (fun _ => 1) (by decide)

/-! ### C6 -/

/-- C6: on a rectangular grid with at least one row and one column, `getNeighbors`
returns (does not fault) at every in-bounds cell, corner and edge cells included,
and every coordinate pair it returns lies inside the grid. -/
theorem getNeighbors_in_bounds (grid : Grid) (R C : Nat) (hg : Rect grid R C)
    (r c : Int) (hin : InB R C (r, c)) :
    ∃ ns, getNeighbors r c grid = .ok ns ∧
      ∀ q ∈ ns, 0 ≤ q.1 ∧ q.1 < R ∧ 0 ≤ q.2 ∧ q.2 < C :=
  ⟨nbrs R C (r, c), getNeighbors_eq hg (inB_pos hin) r c, fun _ hq => nbrs_inB hq⟩

theorem getNeighbors_in_bounds_witness :
    ∃ ns, getNeighbors 0 0 [[⟨.Dead, 0, 0⟩, ⟨.Prey, 0, 0⟩], [⟨.Predator, 5, 0⟩, ⟨.Dead, 0, 0⟩]] =
        .ok ns ∧
      ∀ q ∈ ns, 0 ≤ q.1 ∧ q.1 < (2 : Nat) ∧ 0 ≤ q.2 ∧ q.2 < (2 : Nat) :=
  getNeighbors_in_bounds _ 2 2 (by decide) 0 0 (by decide)

/-! ### C7 -/

/-- C7: on a rectangular grid `getNeighbors` returns exactly 6 cells at every
interior cell (`1 <= r <= rows-2`, `1 <= c <= cols-2`) and at most 6 cells at
every in-bounds cell. -/
theorem getNeighbors_count (grid : Grid) (R C : Nat) (hg : Rect grid R C) (r c : Int) :
    (1 ≤ r ∧ r ≤ (R : Int) - 2 ∧ 1 ≤ c ∧ c ≤ (C : Int) - 2 →
        ∃ ns, getNeighbors r c grid = .ok ns ∧ ns.length = 6) ∧
      (InB R C (r, c) → ∃ ns, getNeighbors r c grid = .ok ns ∧ ns.length ≤ 6) := by
  constructor
  · intro h
    have hR : 0 < R := by omega
    exact ⟨_, getNeighbors_eq hg hR r c, nbrs_length_interior (p := (r, c)) h⟩
  · intro h
    exact ⟨_, getNeighbors_eq hg (inB_pos h) r c, nbrs_length_le R C (r, c)⟩

theorem getNeighbors_count_witness :
    (∃ ns, getNeighbors 1 1 (List.replicate 3 (List.replicate 3 ⟨.Dead, 0, 0⟩)) = .ok ns ∧
        ns.length = 6) ∧
      (∃ ns, getNeighbors 0 0 (List.replicate 3 (List.replicate 3 ⟨.Dead, 0, 0⟩)) = .ok ns ∧
        ns.length ≤ 6) :=
  ⟨(getNeighbors_count (List.replicate 3 (List.replicate 3 ⟨.Dead, 0, 0⟩)) 3 3 (by decide)
      1 1).1 (by decide),
    (getNeighbors_count (List.replicate 3 (List.replicate 3 ⟨.Dead, 0, 0⟩)) 3 3 (by decide)
      0 0).2 (by decide)⟩

/-! ### C8 -/

/-- C8 fails as stated: `updatePrey` at (0,1) of `preyPair` reproduces and
returns a current grid that differs from the one it was given (the acting
cell's cooldown is now 2). -/
theorem updatePrey_mutates_grid :
    ∃ s', updatePrey 0 1 preyPair = .ok s' ∧ s'.grid ≠ preyPair.grid ∧
      s'.grid = [[⟨.Prey, 0, 0⟩, ⟨.Prey, 0, 2⟩, ⟨.Dead, 0, 0⟩]] := by
  refine ⟨_, rfl, ?_, ?_⟩ <;> decide

/-- C8, amended: `updatePrey` on a well-formed state leaves every cell of the
current grid other than the acting cell (r,c) unchanged, and leaves the status
and energy of (r,c) unchanged; the reproductionCooldown of (r,c) is set to 2
when the prey reproduces (it is a Prey with cooldown 0, a Prey neighbour and a
Dead neighbour) and is unchanged otherwise. -/
theorem updatePrey_grid_frame (R C : Nat) (s : Sim) (r c : Int) (hw : WF R C s)
    (hin : InB R C (r, c)) (ns : List Pos) (hns : getNeighbors r c s.grid = .ok ns) :
    ∃ s' x x', updatePrey r c s = .ok s' ∧
      (∀ q : Pos, q ≠ (r, c) → cellAt s'.grid q.1 q.2 = cellAt s.grid q.1 q.2) ∧
      cellAt s.grid r c = .ok x ∧ cellAt s'.grid r c = .ok x' ∧
      x'.status = x.status ∧ x'.energy = x.energy ∧
      x'.reproductionCooldown =
        if x.status = .Prey ∧ hasNeighbor s.grid ns .Prey ∧ x.reproductionCooldown = 0 ∧
            hasNeighbor s.grid ns .Dead then 2
        else x.reproductionCooldown := by
  have hR := inB_pos hin
  obtain rfl : nbrs R C (r, c) = ns := by
    have := getNeighbors_eq hw.1 hR r c
    rw [hns] at this
    exact (Except.ok.inj this).symm
  have hw' := wf_updatePreyT hw (r, c)
  have hg := grid_updatePreyT R C (r, c) s
  simp only [preyOf, emptyOf, withStatus_ne_nil] at hg
  refine ⟨_, _, _, updatePrey_eq hR hw hin, ?_, cellAt_eq_look hw.1 hin,
    cellAt_eq_look hw'.1 hin, ?_, ?_, ?_⟩
  · intro q hq
    rw [hg]
    split
    · rw [cellAt_eq_cell?, cellAt_eq_cell?, Prod.mk.eta, cell?_put ⟨hin.1, hin.2.2.1⟩, if_neg hq]
    · rfl
  · rw [hg]
    split
    · rw [look_put_self hw.1 hin]
    · rfl
  · rw [hg]
    split
    · rw [look_put_self hw.1 hin]
    · rfl
  · rw [hg]
    split
    · rw [look_put_self hw.1 hin]
    · rfl

theorem updatePrey_grid_frame_witness :
    ∃ s' x x', updatePrey 0 1 preyPair = .ok s' ∧
      (∀ q : Pos, q ≠ (0, 1) → cellAt s'.grid q.1 q.2 = cellAt preyPair.grid q.1 q.2) ∧
      cellAt preyPair.grid 0 1 = .ok x ∧ cellAt s'.grid 0 1 = .ok x' ∧
      x'.status = x.status ∧ x'.energy = x.energy ∧
      x'.reproductionCooldown =
        if x.status = .Prey ∧ hasNeighbor preyPair.grid [(0, 0), (0, 2)] .Prey ∧
            x.reproductionCooldown = 0 ∧ hasNeighbor preyPair.grid [(0, 0), (0, 2)] .Dead then 2
        else x.reproductionCooldown :=
  updatePrey_grid_frame 1 3 preyPair 0 1 (by decide) (by decide) [(0, 0), (0, 2)] rfl

/-! ### C9 -/

/-- C9: untouched cells retain their state.  On a rectangular grid, an in-bounds
cell that is Dead before the step and all of whose `getNeighbors` cells are Dead
before the step holds the same cell value after `updateGrid`, for every random
stream; and `updateGrid` maps a grid whose cells are all Dead to itself. -/
theorem untouched_cells_retained (grid : Grid) (R C : Nat) (hg : Rect grid R C) (rng : Rand) :
    (∀ (r c : Int) (ns : List Pos), InB R C (r, c) → (look grid (r, c)).status = .Dead →
        getNeighbors r c grid = .ok ns → (∀ q ∈ ns, (look grid q).status = .Dead) →
        ∃ g' rng', updateGrid grid rng = .ok (g', rng') ∧
          cellAt g' r c = cellAt grid r c) ∧
      (AllCells IsDead grid → updateGrid grid rng = .ok (grid, rng)) := by
  obtain ⟨hstep, hwf⟩ := updateGrid_eq hg rng
  constructor
  · intro r c ns hin hdead hns hall
    have hR := inB_pos hin
    obtain rfl : nbrs R C (r, c) = ns := by
      have := getNeighbors_eq hg hR r c
      rw [hns] at this
      exact (Except.ok.inj this).symm
    refine ⟨_, _, hstep, ?_⟩
    rw [cellAt_eq_look hwf.2 hin, cellAt_eq_look hg hin]
    congr 1
    -- an organism is neither the cell itself nor has it as a neighbour
    have hfar : ∀ q, InB R C q → (look grid q).status ≠ .Dead →
        (r, c) ≠ q ∧ (r, c) ∉ nbrs R C q := by
      intro q hq hs
      refine ⟨fun e => hs (e ▸ hdead), fun hmem => hs ?_⟩
      exact hall q (nbrs_symm hmem hq)
    have h1 := foldl_inv_simple (updatePreyT R C)
      (fun s => WF R C s ∧ (∀ y, (look s.grid y).status = (look grid y).status) ∧
        look s.nextGrid (r, c) = look grid (r, c)) (cellList R C) ⟨grid, grid, rng⟩
      ⟨⟨hg, hg⟩, fun _ => rfl, rfl⟩
      (fun q hq s' h => by
        obtain ⟨hw, hsame, hx⟩ := h
        have hqin := mem_cellList.1 hq
        refine ⟨wf_updatePreyT hw q, fun y => ?_, ?_⟩
        · rw [(look_grid_updatePreyT hw hqin y).1, hsame]
        · by_cases hs : (look s'.grid q).status = .Prey
          · have hf := hfar q hqin (by rw [← hsame, hs]; decide)
            rw [look_next_updatePreyT hw hqin hf.1
              (fun hm => hf.2 (mem_withStatus.1 hm).1), hx]
          · rw [updatePreyT_of_not_prey hs, hx])
    have h2 := foldl_inv_simple (updatePredatorT R C)
      (fun s => WF R C s ∧ (∀ y, (look s.grid y).status = (look grid y).status) ∧
        look s.nextGrid (r, c) = look grid (r, c)) (cellList R C)
      (preyPhaseT R C ⟨grid, grid, rng⟩) h1
      (fun q hq s' h => by
        obtain ⟨hw, hsame, hx⟩ := h
        have hqin := mem_cellList.1 hq
        refine ⟨wf_updatePredatorT hw q, fun y => ?_, ?_⟩
        · rw [grid_updatePredatorT, hsame]
        · by_cases hs : (look s'.grid q).status = .Predator
          · have hf := hfar q hqin (by rw [← hsame, hs]; decide)
            rw [look_next_updatePredatorT hw hqin hf.1 hf.2, hx]
          · rw [updatePredatorT_of_not_predator hs, hx])
    exact h2.2.2
  · intro hall
    have hlook : ∀ p, InB R C p → (look grid p).status = .Dead := (allCells_iff_look hg).1 hall
    have h1 := foldl_inv_simple (updatePreyT R C) (fun s => s = ⟨grid, grid, rng⟩)
      (cellList R C) ⟨grid, grid, rng⟩ rfl
      (fun q hq s' h => by
        subst h
        exact updatePreyT_of_not_prey (by
          show (look grid q).status ≠ .Prey
          rw [hlook q (mem_cellList.1 hq)]; decide))
    have h2 := foldl_inv_simple (updatePredatorT R C) (fun s => s = ⟨grid, grid, rng⟩)
      (cellList R C) (preyPhaseT R C ⟨grid, grid, rng⟩) h1
      (fun q hq s' h => by
        subst h
        exact updatePredatorT_of_not_predator (by
          show (look grid q).status ≠ .Predator
          rw [hlook q (mem_cellList.1 hq)]; decide))
    have h3 : stepT R C grid rng = ⟨grid, grid, rng⟩ := h2
    rw [hstep, h3]

theorem untouched_cells_retained_witness :
    (∃ g' rng', updateGrid cornerGrid (fun _ => 0) = .ok (g', rng') ∧
        cellAt g' 2 2 = cellAt cornerGrid 2 2) ∧
      updateGrid (List.replicate 2 (List.replicate 2 ⟨.Dead, 0, 0⟩)) (fun _ => 0) =
        .ok (List.replicate 2 (List.replicate 2 ⟨.Dead, 0, 0⟩), fun _ => 0) :=
  ⟨(untouched_cells_retained cornerGrid 3 4 (by decide) (fun _ => 0)).1 2 2
      [(1, 1), (1, 2), (2, 1), (2, 3)] (by decide) (by decide) rfl (by decide),
    (untouched_cells_retained _ 2 2 (by decide) (fun _ => 0)).2 (by decide)⟩

/-! ### C10 -/

/-- C10: on a well-formed state (rectangular non-empty grid, buffer of the same
size) and at an in-bounds cell, `updatePrey` and `updatePredator` return without
a fault: no `rand() % 0` (`Fault.modZero`) and no selection outside the sampled
list (`Fault.listIndex`) is ever executed. -/
theorem random_choice_guarded (R C : Nat) (s : Sim) (r c : Int) (hw : WF R C s)
    (hin : InB R C (r, c)) :
    (∃ s', updatePrey r c s = .ok s') ∧ (∃ s', updatePredator r c s = .ok s') :=
  ⟨⟨_, updatePrey_eq (inB_pos hin) hw hin⟩, ⟨_, updatePredator_eq (inB_pos hin) hw hin⟩⟩

theorem random_choice_guarded_witness :
    (∃ s', updatePrey 0 1 preyPair = .ok s') ∧ (∃ s', updatePredator 0 1 preyPair = .ok s') :=
  random_choice_guarded 1 3 preyPair 0 1 (by decide) (by decide)

/-! ### C11 -/

/-- C11: starving-predator scenario.  On a 10 x 10 grid whose only organism is a
Predator at (0,0) with energy 1 (every other cell Dead), for every random
stream: after one `updateGrid` the cell (0,0) is Dead and exactly one cell `d` is
a Predator, `d` is one of the neighbours of (0,0) and has energy 0; after a
second `updateGrid` the cell `d` is Dead and the grid contains no Predator. -/
theorem starving_predator_scenario (grid : Grid) (rng : Rand) (hg : Rect grid 10 10)
    (hlone : LonePredatorAt 10 10 grid (0, 0)) (he : (look grid (0, 0)).energy = 1) :
    ∃ g1 rng1 ns d g2 rng2,
      updateGrid grid rng = .ok (g1, rng1) ∧ getNeighbors 0 0 grid = .ok ns ∧ d ∈ ns ∧
      (∃ x, cellAt g1 0 0 = .ok x ∧ x.status = .Dead) ∧
      (∃ x, cellAt g1 d.1 d.2 = .ok x ∧ x.status = .Predator ∧ x.energy = 0) ∧
      (∀ (r c : Int) (x : Cell), cellAt g1 r c = .ok x → x.status = .Predator → (r, c) = d) ∧
      updateGrid g1 rng1 = .ok (g2, rng2) ∧
      (∃ x, cellAt g2 d.1 d.2 = .ok x ∧ x.status = .Dead) ∧ AllCells NotPredator g2 := by
  have hp : InB 10 10 (0, 0) := by decide
  have hn : nbrs 10 10 (0, 0) ≠ [] := by decide
  obtain ⟨hstep1, hwf1⟩ := updateGrid_eq hg rng
  have hg1 := next_of_lonePredator hp hlone (by rw [he]; decide) hn rng
  have hdm := pick_mem hn rng
  have hd : InB 10 10 (pick (nbrs 10 10 (0, 0)) rng) := nbrs_inB hdm
  have hdp : pick (nbrs 10 10 (0, 0)) rng ≠ (0, 0) := nbrs_ne_self hdm
  have hlone1 := lonePredatorAt_moved hg hp hd hdp hlone ((look grid (0, 0)).energy - 1)
  rw [← hg1] at hlone1
  have hr1 : Rect (put grid (pick (nbrs 10 10 (0, 0)) rng)
      ⟨.Predator, (look grid (0, 0)).energy - 1, 0⟩) 10 10 := rect_put hg _ _
  have hld : look (stepT 10 10 grid rng).nextGrid (pick (nbrs 10 10 (0, 0)) rng) =
      ⟨.Predator, 0, 0⟩ := by
    rw [hg1, look_kill hr1 hp, if_neg hdp, look_put_self hg hd, he]
    rfl
  obtain ⟨hstep2, hwf2⟩ := updateGrid_eq hwf1.2 (stepT 10 10 grid rng).rng
  have hg2 := next_of_starvedPredator hd hlone1 (by rw [hld])
    (stepT 10 10 grid rng).rng
  have hns : getNeighbors 0 0 grid = .ok (nbrs 10 10 (0, 0)) :=
    getNeighbors_eq hg (Nat.succ_pos 9) 0 0
  have hc0 : cellAt (stepT 10 10 grid rng).nextGrid 0 0 =
      .ok (look (stepT 10 10 grid rng).nextGrid (0, 0)) :=
    @cellAt_eq_look (stepT 10 10 grid rng).nextGrid 10 10 hwf1.2 (0, 0) hp
  refine ⟨(stepT 10 10 grid rng).nextGrid, (stepT 10 10 grid rng).rng, nbrs 10 10 (0, 0),
    pick (nbrs 10 10 (0, 0)) rng, _, _, hstep1, hns,
    hdm, ⟨_, hc0, ?_⟩, ⟨_, cellAt_eq_look hwf1.2 hd, ?_, ?_⟩, ?_, hstep2,
    ⟨_, cellAt_eq_look hwf2.2 hd, ?_⟩, ?_⟩
  · rw [hg1, look_kill hr1 hp, if_pos rfl]
  · rw [hld]
  · rw [hld]
  · intro r c x hx hxs
    have hin := inB_of_cellAt hwf1.2 hx
    have hlx := look_of_cellAt hx
    by_contra hne
    have := hlone1.2 (r, c) (mem_cellList.2 hin) hne
    rw [hlx, hxs] at this
    exact absurd this (by decide)
  · rw [hg2, look_kill hwf1.2 hd, if_pos rfl]
  · rw [allCells_iff_look hwf2.2]
    intro q hq
    unfold NotPredator
    rw [hg2, look_kill hwf1.2 hd]
    split
    · simp
    · rename_i hqd
      rw [hlone1.2 q (mem_cellList.2 hq) hqd]
      decide

theorem starving_predator_scenario_witness :
    ∃ g1 rng1 ns d g2 rng2,
      updateGrid starvingGrid (fun n => n + 1) = .ok (g1, rng1) ∧
      getNeighbors 0 0 starvingGrid = .ok ns ∧ d ∈ ns ∧
      (∃ x, cellAt g1 0 0 = .ok x ∧ x.status = .Dead) ∧
      (∃ x, cellAt g1 d.1 d.2 = .ok x ∧ x.status = .Predator ∧ x.energy = 0) ∧
      (∀ (r c : Int) (x : Cell), cellAt g1 r c = .ok x → x.status = .Predator → (r, c) = d) ∧
      updateGrid g1 rng1 = .ok (g2, rng2) ∧
      (∃ x, cellAt g2 d.1 d.2 = .ok x ∧ x.status = .Dead) ∧ AllCells NotPredator g2 :=
  starving_predator_scenario starvingGrid (fun n => n + 1) (by decide) (by decide) (by decide)

/-! ### C12 -/

/-- C12 fails as stated: in `nestGrid` the prey at (5,5) has cooldown 0, exactly
one Prey neighbour and five Dead neighbours.  With the draws 0, 1, ... the prey
rule puts the offspring (cooldown 0) at (4,5) and moves the prey to (4,6) with
reproductionCooldown 1; no cell of `nextGrid` has reproductionCooldown 2. -/
theorem prey_reproduction_cooldown_is_one :
    cellAt nestGrid 5 5 = .ok ⟨.Prey, 0, 0⟩ ∧
      getNeighbors 5 5 nestGrid = .ok [(4, 5), (4, 6), (5, 4), (5, 6), (6, 5), (6, 6)] ∧
      (withStatus nestGrid .Prey [(4, 5), (4, 6), (5, 4), (5, 6), (6, 5), (6, 6)]).length = 1 ∧
      hasNeighbor nestGrid [(4, 5), (4, 6), (5, 4), (5, 6), (6, 5), (6, 6)] .Dead ∧
      ∃ s', updatePrey 5 5 ⟨nestGrid, nestGrid, fun n => n⟩ = .ok s' ∧
        cellAt s'.nextGrid 4 5 = .ok ⟨.Prey, 0, 0⟩ ∧
        cellAt s'.nextGrid 4 6 = .ok ⟨.Prey, 0, 1⟩ ∧
        cellAt s'.nextGrid 5 5 = .ok ⟨.Dead, 0, 0⟩ ∧
        AllCells CooldownNotTwo s'.nextGrid := by
  refine ⟨rfl, rfl, by decide, by decide, _, rfl, rfl, rfl, rfl, by decide⟩

/-- C12, amended: prey reproduction scenario.  For a Prey with cooldown 0 that
has exactly one Prey neighbour and at least one Dead neighbour (the claim's cell
(5,5) included), after `updatePrey` the original prey, at the formerly Dead
neighbour it moved to, has reproductionCooldown 1 (set to 2, then decremented by
the move), and when the offspring slot is a different cell, a new Prey with
cooldown 0 is present at that formerly Dead neighbour. -/
theorem prey_reproduction_scenario (R C : Nat) (s : Sim) (r c : Int) (hw : WF R C s)
    (hin : InB R C (r, c)) (hst : (look s.grid (r, c)).status = .Prey)
    (hcd : (look s.grid (r, c)).reproductionCooldown = 0)
    (ns : List Pos) (hns : getNeighbors r c s.grid = .ok ns)
    (hone : (withStatus s.grid .Prey ns).length = 1) (hdead : hasNeighbor s.grid ns .Dead) :
    ∃ s' nb slot rng1 dest rng2,
      updatePrey r c s = .ok s' ∧ classify s.grid ns = .ok nb ∧
      randomChoice nb.emptyNeighbors s.rng = .ok (slot, rng1) ∧
      preyTarget r c nb rng1 = .ok (dest, rng2) ∧
      slot ∈ ns ∧ (look s.grid slot).status = .Dead ∧
      dest ∈ ns ∧ (look s.grid dest).status = .Dead ∧
      cellAt s'.nextGrid dest.1 dest.2 = .ok ⟨.Prey, 0, 1⟩ ∧
      (slot ≠ dest → cellAt s'.nextGrid slot.1 slot.2 = .ok ⟨.Prey, 0, 0⟩) := by
  have hR := inB_pos hin
  obtain rfl : nbrs R C (r, c) = ns := by
    have := getNeighbors_eq hw.1 hR r c
    rw [hns] at this
    exact (Except.ok.inj this).symm
  have hw' := wf_updatePreyT hw (r, c)
  have hprey : preyOf R C s.grid (r, c) ≠ [] := by
    intro h
    unfold preyOf at h
    rw [h] at hone
    exact absurd hone (by decide)
  have hempty : emptyOf R C s.grid (r, c) ≠ [] := withStatus_ne_nil.2 hdead
  have hrep : PreyReproduces R C s.grid (r, c) := ⟨hprey, hcd, hempty⟩
  have hrng : (preyReproduceT R C (r, c) s).rng = advance s.rng := by
    rw [preyReproduceT_of_reproduces hrep]
  have hslot := pick_mem hempty s.rng
  have hd := preyDest_inB (g := s.grid) hin (advance s.rng)
  have hdest := preyDest_of_empty (R := R) (C := C) (p := (r, c)) (advance s.rng) hdead
  have hlook := look_dest_updatePreyT hw hin hst
  rw [hrng] at hlook
  refine ⟨_, _, _, _, _, _, updatePrey_eq hR hw hin,
    classify_eq hw.1 _ (fun q hq => nbrs_inB hq), randomChoice_eq hempty s.rng,
    preyTarget_eq R C s.grid (r, c) _ _ _, (mem_withStatus.1 hslot).1,
    (mem_withStatus.1 hslot).2, hdest.1, hdest.2, ?_, ?_⟩
  · rw [cellAt_eq_look hw'.2 hd, hlook, preyReproduceT_of_reproduces hrep,
      look_put_self hw.1 hin]
    rfl
  · intro hne
    have := look_slot_updatePreyT hw hin hst hrep (by rw [hrng]; exact hne)
    rw [cellAt_eq_look hw'.2 (emptyOf_inB hslot), this]

theorem prey_reproduction_scenario_witness :
    ∃ s' nb slot rng1 dest rng2,
      updatePrey 5 5 ⟨nestGrid, nestGrid, fun n => n⟩ = .ok s' ∧
      classify nestGrid [(4, 5), (4, 6), (5, 4), (5, 6), (6, 5), (6, 6)] = .ok nb ∧
      randomChoice nb.emptyNeighbors (fun n => n) = .ok (slot, rng1) ∧
      preyTarget 5 5 nb rng1 = .ok (dest, rng2) ∧
      slot ∈ [((4 : Int), (5 : Int)), (4, 6), (5, 4), (5, 6), (6, 5), (6, 6)] ∧
      (look nestGrid slot).status = .Dead ∧
      dest ∈ [((4 : Int), (5 : Int)), (4, 6), (5, 4), (5, 6), (6, 5), (6, 6)] ∧
      (look nestGrid dest).status = .Dead ∧
      cellAt s'.nextGrid dest.1 dest.2 = .ok ⟨.Prey, 0, 1⟩ ∧
      (slot ≠ dest → cellAt s'.nextGrid slot.1 slot.2 = .ok ⟨.Prey, 0, 0⟩) :=
  prey_reproduction_scenario 7 7 ⟨nestGrid, nestGrid, fun n => n⟩ 5 5 (by decide) (by decide)
    (by decide) (by decide) [(4, 5), (4, 6), (5, 4), (5, 6), (6, 5), (6, 6)] rfl (by decide)
    (by decide)

/-! ### C13 -/

/-- C13 fails as stated.  In `pairNoPrey` the predator at (0,1) has energy 5, a
Predator neighbour with energy 5 and a Dead neighbour, but its new energy is 4
and nothing is spawned: after the step no cell is a Predator with energy 5 and
both predators hold energy 4.  In `spawnRace` the predator at (0,1) eats and
reproduces, and the partner, processed later, moves onto the spawn cell (0,2):
after the step no cell is a Predator with energy 5 either. -/
theorem predator_reproduction_not_after_step :
    (cellAt pairNoPrey 0 1 = .ok ⟨.Predator, 5, 0⟩ ∧
      getNeighbors 0 1 pairNoPrey = .ok [(0, 0), (0, 2)] ∧
      hasPartner pairNoPrey [(0, 0), (0, 2)] ∧ hasNeighbor pairNoPrey [(0, 0), (0, 2)] .Dead ∧
      ∃ g' rng', updateGrid pairNoPrey (fun _ => 0) = .ok (g', rng') ∧
        AllCells NotFreshPredator g' ∧
        g' = [[⟨.Predator, 4, 0⟩, ⟨.Dead, 5, 0⟩, ⟨.Predator, 4, 0⟩]]) ∧
    (cellAt spawnRace 0 1 = .ok ⟨.Predator, 5, 0⟩ ∧
      getNeighbors 0 1 spawnRace = .ok [(0, 0), (0, 2), (1, 0), (1, 1)] ∧
      hasPartner spawnRace [(0, 0), (0, 2), (1, 0), (1, 1)] ∧
      hasNeighbor spawnRace [(0, 0), (0, 2), (1, 0), (1, 1)] .Dead ∧
      ∃ g' rng', updateGrid spawnRace (fun _ => 0) = .ok (g', rng') ∧
        AllCells NotFreshPredator g' ∧
        g' = [[⟨.Predator, 6, 0⟩, ⟨.Dead, 5, 0⟩, ⟨.Predator, 4, 0⟩],
              [⟨.Prey, 0, 0⟩, ⟨.Dead, 2, 0⟩, ⟨.Dead, 0, 0⟩]]) := by
  refine ⟨⟨rfl, rfl, by decide, by decide, _, _, rfl, by decide, rfl⟩,
    ⟨rfl, rfl, by decide, by decide, _, _, rfl, by decide, rfl⟩⟩

/-- C13, amended: predator reproduction scenario.  A Predator with energy 5
reproduces only when it eats: its new energy `5 - 1 + 5 = 9` is then at least 5.
For a Predator with energy 5 that has a Prey neighbour, a Predator neighbour
with energy at least 5 and at least one Dead neighbour, after its
`updatePredator` call the first of its Dead neighbours, a cell that was Dead
before the step, holds a newly spawned Predator with energy 5, and the acting
predator, at the prey cell it moved to, holds energy 6: 3 less than its
post-move energy 9. -/
theorem predator_reproduction_scenario (R C : Nat) (s : Sim) (r c : Int) (hw : WF R C s)
    (hin : InB R C (r, c)) (hst : (look s.grid (r, c)).status = .Predator)
    (he : (look s.grid (r, c)).energy = 5)
    (ns : List Pos) (hns : getNeighbors r c s.grid = .ok ns)
    (hprey : hasNeighbor s.grid ns .Prey) (hpar : hasPartner s.grid ns)
    (hdead : hasNeighbor s.grid ns .Dead) :
    ∃ s' nb dest consumed rng' spawn,
      updatePredator r c s = .ok s' ∧ classify s.grid ns = .ok nb ∧
      predatorTarget r c nb s.rng = .ok (dest, consumed, rng') ∧
      nb.emptyNeighbors.head? = some spawn ∧
      spawn ∈ ns ∧ (look s.grid spawn).status = .Dead ∧
      cellAt s'.nextGrid spawn.1 spawn.2 = .ok ⟨.Predator, 5, 0⟩ ∧
      cellAt s'.nextGrid dest.1 dest.2 = .ok ⟨.Predator, 6, 0⟩ := by
  have hR := inB_pos hin
  obtain rfl : nbrs R C (r, c) = ns := by
    have := getNeighbors_eq hw.1 hR r c
    rw [hns] at this
    exact (Except.ok.inj this).symm
  have hw' := wf_updatePredatorT hw (r, c)
  have hd := predatorDest_inB (g := s.grid) hin s.rng
  have hpne : preyOf R C s.grid (r, c) ≠ [] := withStatus_ne_nil.2 hprey
  have hene : emptyOf R C s.grid (r, c) ≠ [] := withStatus_ne_nil.2 hdead
  obtain ⟨q, hq⟩ := partnerOf_isSome hpar
  obtain ⟨e, es, hes⟩ := List.exists_cons_of_ne_nil hene
  have hemem : e ∈ emptyOf R C s.grid (r, c) := by rw [hes]; exact List.mem_cons_self _ _
  have hqmem : q ∈ predatorOf R C s.grid (r, c) := List.mem_of_find?_eq_some hq
  have hdmem : predatorDest R C s.grid (r, c) s.rng ∈ preyOf R C s.grid (r, c) := by
    simp only [predatorDest, hpne, if_true, ne_eq, not_false_eq_true]
    exact pick_mem hpne s.rng
  have hE : newEnergyOf R C s.grid (r, c) = 9 := by
    simp only [newEnergyOf, hpne, if_true, ne_eq, not_false_eq_true, he]
    rfl
  have hein : InB R C e := emptyOf_inB hemem
  have hqin : InB R C q := predatorOf_inB hqmem
  -- the four cells involved are pairwise distinct: they differ in status
  have hsd := (mem_withStatus.1 hdmem).2
  have hse := (mem_withStatus.1 hemem).2
  have hsq := (mem_withStatus.1 hqmem).2
  have hde : predatorDest R C s.grid (r, c) s.rng ≠ e := by
    intro h; rw [h, hse] at hsd; exact absurd hsd (by decide)
  have hdq : predatorDest R C s.grid (r, c) s.rng ≠ q := by
    intro h; rw [h, hsq] at hsd; exact absurd hsd (by decide)
  have heq : e ≠ q := by
    intro h; rw [h, hsq] at hse; exact absurd hse (by decide)
  have hdp : predatorDest R C s.grid (r, c) s.rng ≠ (r, c) := by
    intro h; rw [h, hst] at hsd; exact absurd hsd (by decide)
  have hnext : (updatePredatorT R C (r, c) s).nextGrid =
      charge (charge (put (kill (put s.nextGrid (predatorDest R C s.grid (r, c) s.rng)
        ⟨.Predator, 9, 0⟩) (r, c)) e ⟨.Predator, 5, 0⟩)
        (predatorDest R C s.grid (r, c) s.rng)) q := by
    have hs : ¬ (look s.grid (r, c)).status ≠ .Predator := fun h => h hst
    have he' : ¬ (look s.grid (r, c)).energy ≤ 0 := by omega
    simp only [updatePredatorT, hs, he', if_false, hE, hdp, if_true, ne_eq, not_false_eq_true,
      spawnT, hq, hes, ge_iff_le]
    rfl
  have hr1 : Rect (put s.nextGrid (predatorDest R C s.grid (r, c) s.rng) ⟨.Predator, 9, 0⟩) R C :=
    rect_put hw.2 _ _
  have hr2 := rect_kill hr1 (r, c)
  have hr3 : Rect (put (kill (put s.nextGrid (predatorDest R C s.grid (r, c) s.rng)
      ⟨.Predator, 9, 0⟩) (r, c)) e ⟨.Predator, 5, 0⟩) R C := rect_put hr2 _ _
  have hr4 := rect_charge hr3 (predatorDest R C s.grid (r, c) s.rng)
  refine ⟨_, _, _, _, _, e, updatePredator_eq hR hw hin,
    classify_eq hw.1 _ (fun q hq => nbrs_inB hq),
    predatorTarget_eq R C s.grid (r, c) _ s.rng, ?_, (mem_withStatus.1 hemem).1, hse, ?_, ?_⟩
  · show (withStatus s.grid .Dead (nbrs R C (r, c))).head? = some e
    have : withStatus s.grid .Dead (nbrs R C (r, c)) = e :: es := hes
    rw [this]
    rfl
  · rw [cellAt_eq_look hw'.2 hein, hnext, look_charge hr4 hqin, if_neg heq,
      look_charge hr3 hd, if_neg (Ne.symm hde), look_put_self hr2 hein]
  · rw [cellAt_eq_look hw'.2 hd, hnext, look_charge hr4 hqin, if_neg hdq,
      look_charge hr3 hd, if_pos rfl, look_put hr2 hein, if_neg hde,
      look_kill hr1 hin, if_neg hdp, look_put_self hw.2 hd]
    rfl

theorem predator_reproduction_scenario_witness :
    ∃ s' nb dest consumed rng' spawn,
      updatePredator 0 1 ⟨spawnRace, spawnRace, fun _ => 0⟩ = .ok s' ∧
      classify spawnRace [(0, 0), (0, 2), (1, 0), (1, 1)] = .ok nb ∧
      predatorTarget 0 1 nb (fun _ => 0) = .ok (dest, consumed, rng') ∧
      nb.emptyNeighbors.head? = some spawn ∧
      spawn ∈ [((0 : Int), (0 : Int)), (0, 2), (1, 0), (1, 1)] ∧
      (look spawnRace spawn).status = .Dead ∧
      cellAt s'.nextGrid spawn.1 spawn.2 = .ok ⟨.Predator, 5, 0⟩ ∧
      cellAt s'.nextGrid dest.1 dest.2 = .ok ⟨.Predator, 6, 0⟩ :=
  predator_reproduction_scenario 2 3 ⟨spawnRace, spawnRace, fun _ => 0⟩ 0 1 (by decide)
    (by decide) (by decide) (by decide) [(0, 0), (0, 2), (1, 0), (1, 1)] rfl (by decide)
    (by decide) (by decide)

/-! ### C14 -/

/-- C14, behaviour of the code at the failing input: in `movedPartner` with the
draws 0, 2, ... the partner moves from (0,0) to (1,0) with energy 4; the
predator of (0,1) moves to (1,1), spawns at (0,2) and is charged (5 to 2), and
the partner's charge lands on the vacated cell (0,0) (5 to 2, status Dead).  The
partner at its post-move cell (1,0) still holds 4, not 1. -/
theorem partner_charged_at_vacated_cell :
    ∃ rng', updateGrid movedPartner (fun n => 2 * n) =
      .ok ([[⟨.Dead, 2, 0⟩, ⟨.Dead, 6, 0⟩, ⟨.Predator, 5, 0⟩],
            [⟨.Predator, 4, 0⟩, ⟨.Predator, 2, 0⟩, ⟨.Dead, 0, 0⟩]], rng') :=
  ⟨_, rfl⟩

/-! ### C15 -/

/-- C16 fails as stated: every Predator of `sharedPartner` has energy at least
0, and after one step the cell (0,0) is a Predator with energy -2: it stayed in
place with energy 4 and was charged 3 as partner by each of the two neighbours
scanned after it. -/
theorem partner_energy_negative :
    AllCells NonNegPredator sharedPartner ∧
      ∃ g' rng', updateGrid sharedPartner (fun _ => 0) = .ok (g', rng') ∧
        cellAt g' 0 0 = .ok ⟨.Predator, -2, 0⟩ := by
  refine ⟨by decide, _, _, rfl, rfl⟩

/-- C16, amended: on a rectangular grid in which every Predator cell has energy
at least 0, `updateGrid` returns for every random stream, and every Predator
cell of the resulting grid has energy at least 0 unless that cell held a
Predator with energy at least 5 before the step (such a cell is charged 3 by
each neighbour that takes it as reproduction partner, with no lower bound). -/
theorem predator_energy_nonneg (grid : Grid) (R C : Nat) (hg : Rect grid R C) (rng : Rand)
    (hen : AllCells NonNegPredator grid) :
    ∃ g' rng', updateGrid grid rng = .ok (g', rng') ∧
      ∀ (r c : Int) (x x' : Cell), cellAt grid r c = .ok x →
        ¬ (x.status = .Predator ∧ x.energy ≥ 5) →
        cellAt g' r c = .ok x' → x'.status = .Predator → 0 ≤ x'.energy := by
  obtain ⟨hstep, hwf⟩ := updateGrid_eq hg rng
  refine ⟨_, _, hstep, ?_⟩
  have h0 : NonNegOn (NotPartner grid) grid := by
    intro x _ hs
    have hin : InB R C x := inB_of_status hg (by rw [hs]; decide)
    exact (allCells_iff_look hg).1 hen x hin hs
  have hw0 : WF R C ⟨grid, grid, rng⟩ := ⟨hg, hg⟩
  have h1 := foldl_inv_simple (updatePreyT R C)
    (fun s => WF R C s ∧ NonNegOn (NotPartner grid) s.nextGrid) (cellList R C)
    ⟨grid, grid, rng⟩ ⟨hw0, h0⟩
    (fun q hq s' h =>
      ⟨wf_updatePreyT h.1 q, nonNegOn_updatePreyT h.1 (mem_cellList.1 hq) h.2⟩)
  have hsame := look_grid_preyPhaseT hw0
  have h1' : NonNegOn (NotPartner (preyPhaseT R C ⟨grid, grid, rng⟩).grid)
      (preyPhaseT R C ⟨grid, grid, rng⟩).nextGrid :=
    fun x hx => h1.2 x ((notPartner_congr (hsame x)).1 hx)
  have h2 := foldl_inv_simple (updatePredatorT R C)
    (fun s => WF R C s ∧ s.grid = (preyPhaseT R C ⟨grid, grid, rng⟩).grid ∧
      NonNegOn (NotPartner (preyPhaseT R C ⟨grid, grid, rng⟩).grid) s.nextGrid)
    (cellList R C) (preyPhaseT R C ⟨grid, grid, rng⟩) ⟨h1.1, rfl, h1'⟩
    (fun q hq s' h => by
      refine ⟨wf_updatePredatorT h.1 q, (grid_updatePredatorT R C q s').trans h.2.1, ?_⟩
      have := nonNegOn_updatePredatorT h.1 (mem_cellList.1 hq) (by rw [h.2.1]; exact h.2.2)
      rw [h.2.1] at this
      exact this)
  intro r c x x' hx hnp hx' hxs'
  have hlx := look_of_cellAt hx
  have hlx' := look_of_cellAt hx'
  have hfin := h2.2.2 (r, c) ((notPartner_congr (hsame (r, c))).2 (by
    unfold NotPartner
    rw [hlx]
    exact hnp))
  have hfin' : (look (stepT R C grid rng).nextGrid (r, c)).status = .Predator →
      0 ≤ (look (stepT R C grid rng).nextGrid (r, c)).energy := hfin
  rw [hlx'] at hfin'
  exact hfin' hxs'

theorem predator_energy_nonneg_witness :
    ∃ g' rng', updateGrid sharedPartner (fun _ => 0) = .ok (g', rng') ∧
      ∀ (r c : Int) (x x' : Cell), cellAt sharedPartner r c = .ok x →
        ¬ (x.status = .Predator ∧ x.energy ≥ 5) →
        cellAt g' r c = .ok x' → x'.status = .Predator → 0 ≤ x'.energy :=
  predator_energy_nonneg sharedPartner 2 3 (by decide) (fun _ => 0) (by decide)

/-! ### C17 -/

/-- C17 fails as stated: there is no rectangular grid with in-bounds cells `a`,
`b` such that `b` is in `getNeighbors(a)` and `a` is not in `getNeighbors(b)`. -/
theorem no_asymmetric_neighbours :
    ¬ ∃ (grid : Grid) (R C : Nat) (a b : Pos) (na nb : List Pos),
        Rect grid R C ∧ InB R C a ∧ InB R C b ∧ getNeighbors a.1 a.2 grid = .ok na ∧
          getNeighbors b.1 b.2 grid = .ok nb ∧ b ∈ na ∧ a ∉ nb := by
  rintro ⟨grid, R, C, a, b, na, nb, hg, ha, hb, hna, hnb, hmem, hnot⟩
  have e1 := getNeighbors_eq hg (inB_pos ha) a.1 a.2
  have e2 := getNeighbors_eq hg (inB_pos hb) b.1 b.2
  rw [hna] at e1
  rw [hnb] at e2
  have e1' := Except.ok.inj e1
  have e2' := Except.ok.inj e2
  subst e1' e2'
  exact hnot (nbrs_symm hmem ha)

/-- C17, amended: the neighbour relation is symmetric on in-bounds cells.  On a
rectangular grid, if `b` is in `getNeighbors(a)` for an in-bounds cell `a`, then
`a` is in `getNeighbors(b)`, although even and odd rows use different offset
tables. -/
theorem getNeighbors_symmetric (grid : Grid) (R C : Nat) (hg : Rect grid R C) (a b : Pos)
    (ha : InB R C a) (na : List Pos) (hna : getNeighbors a.1 a.2 grid = .ok na)
    (hmem : b ∈ na) : ∃ nb, getNeighbors b.1 b.2 grid = .ok nb ∧ a ∈ nb := by
  have e1 := getNeighbors_eq hg (inB_pos ha) a.1 a.2
  rw [hna] at e1
  have e1' := Except.ok.inj e1
  subst e1'
  exact ⟨_, getNeighbors_eq hg (inB_pos ha) b.1 b.2, nbrs_symm hmem ha⟩

theorem getNeighbors_symmetric_witness :
    ∃ nb, getNeighbors (1, 2).1 (1, 2).2 (List.replicate 3 (List.replicate 3 ⟨.Dead, 0, 0⟩)) =
        .ok nb ∧ ((2 : Int), (2 : Int)) ∈ nb :=
  getNeighbors_symmetric (List.replicate 3 (List.replicate 3 ⟨.Dead, 0, 0⟩)) 3 3 (by decide)
    (2, 2) (1, 2) (by decide) [(1, 1), (1, 2), (2, 1)] rfl (by decide)

/-! ### C18 -/

/-- C18: predator decisions depend only on the pre-step snapshot.  For a
Predator cell of a rectangular current grid and a random stream, the decisions
of `updatePredator` are fixed before any buffer is looked at: a starving
predator (energy at most 0) only has its cell marked Dead; an acting predator
has one `Decision` (destination and `consumedPrey` as `predatorTarget` returns
them on the lists of the current grid, new energy, partner and spawn cell) and
one remaining stream such that, for every buffer `N` of the same dimensions,
the call returns the buffer `applyDecision` writes from `N`.  Two buffers `N1`
and `N2` therefore get the same decisions. -/
theorem predator_decisions_snapshot (R C : Nat) (grid : Grid) (rng : Rand) (r c : Int)
    (hg : Rect grid R C) (hin : InB R C (r, c))
    (hst : (look grid (r, c)).status = .Predator) :
    ((look grid (r, c)).energy ≤ 0 →
        ∀ N, Rect N R C →
          updatePredator r c ⟨grid, N, rng⟩ = .ok ⟨grid, kill N (r, c), rng⟩) ∧
      (0 < (look grid (r, c)).energy →
        ∃ (d : Decision) (rng' : Rand) (ns : List Pos) (nb : Split),
          getNeighbors r c grid = .ok ns ∧ classify grid ns = .ok nb ∧
          predatorTarget r c nb rng = .ok (d.dest, d.consumedPrey, rng') ∧
          d.newEnergy = (look grid (r, c)).energy - 1 + (if d.consumedPrey then 5 else 0) ∧
          d.reproduction = reproductionChoice grid d.newEnergy nb ∧
          ∀ N, Rect N R C →
            updatePredator r c ⟨grid, N, rng⟩ = .ok ⟨grid, applyDecision (r, c) d N, rng'⟩) := by
  have hR := inB_pos hin
  constructor
  · intro he N hN
    have hw : WF R C ⟨grid, N, rng⟩ := ⟨hg, hN⟩
    rw [updatePredator_eq hR hw hin]
    have hs : ¬ (look grid (r, c)).status ≠ .Predator := fun h => h hst
    simp only [updatePredatorT, hs, he, if_true, if_false]
  · intro he
    refine ⟨⟨predatorDest R C grid (r, c) rng, decide (preyOf R C grid (r, c) ≠ []),
        newEnergyOf R C grid (r, c),
        reproductionChoice grid (newEnergyOf R C grid (r, c))
          ⟨preyOf R C grid (r, c), emptyOf R C grid (r, c), predatorOf R C grid (r, c)⟩⟩,
      _, _, _, getNeighbors_eq hg hR r c, classify_eq hg _ (fun q hq => nbrs_inB hq),
      predatorTarget_eq R C grid (r, c) _ rng, ?_, rfl, ?_⟩
    · simp only [newEnergyOf, decide_eq_true_eq]
    · intro N hN
      have hw : WF R C ⟨grid, N, rng⟩ := ⟨hg, hN⟩
      rw [updatePredator_eq hR hw hin, updatePredatorT_eq_applyDecision R C grid N rng (r, c) hst he]

theorem predator_decisions_snapshot_witness :
    ((look lonePredator.grid (0, 0)).energy ≤ 0 →
        ∀ N, Rect N 1 2 →
          updatePredator 0 0 ⟨lonePredator.grid, N, fun _ => 0⟩ =
            .ok ⟨lonePredator.grid, kill N (0, 0), fun _ => 0⟩) ∧
      (0 < (look lonePredator.grid (0, 0)).energy →
        ∃ (d : Decision) (rng' : Rand) (ns : List Pos) (nb : Split),
          getNeighbors 0 0 lonePredator.grid = .ok ns ∧ classify lonePredator.grid ns = .ok nb ∧
          predatorTarget 0 0 nb (fun _ => 0) = .ok (d.dest, d.consumedPrey, rng') ∧
          d.newEnergy =
            (look lonePredator.grid (0, 0)).energy - 1 + (if d.consumedPrey then 5 else 0) ∧
          d.reproduction = reproductionChoice lonePredator.grid d.newEnergy nb ∧
          ∀ N, Rect N 1 2 →
            updatePredator 0 0 ⟨lonePredator.grid, N, fun _ => 0⟩ =
              .ok ⟨lonePredator.grid, applyDecision (0, 0) d N, rng'⟩) :=
  predator_decisions_snapshot 1 2 lonePredator.grid (fun _ => 0) 0 0 (by decide) (by decide)
    (by decide)

/-! ### C19 -/

/-- C19 fails as stated: the prey at (0,1) of `preyPair` has cooldown 0 and
reproduces; the cell it moves to, its only Dead neighbour (0,2), is written with
reproductionCooldown 1, not `max(0, 0 - 1) = 0`. -/
theorem prey_write_after_reproduction :
    cellAt preyPair.grid 0 1 = .ok ⟨.Prey, 0, 0⟩ ∧
      getNeighbors 0 1 preyPair.grid = .ok [(0, 0), (0, 2)] ∧
      ∃ s', updatePrey 0 1 preyPair = .ok s' ∧
        cellAt s'.nextGrid 0 2 = .ok ⟨.Prey, 0, 1⟩ ∧ (1 : Int) ≠ max 0 (0 - 1) := by
  refine ⟨rfl, rfl, _, rfl, rfl, by decide⟩

/-- C19, amended: prey movement write.  For a Prey cell with cooldown `c0` on a
well-formed state, after `updatePrey` the destination cell in `nextGrid` (a Dead
neighbour if one exists, otherwise the origin) is a Prey with energy 0 and
reproductionCooldown `max(0, c0 - 1)` when the prey did not reproduce in this
call, and 1 when it did (cooldown 0, a Prey neighbour and a Dead neighbour: the
cooldown is set to 2 before the write); if the destination differs from the
origin, `nextGrid` at the origin has status Dead. -/
theorem prey_movement_write (R C : Nat) (s : Sim) (r c : Int) (hw : WF R C s)
    (hin : InB R C (r, c)) (hst : (look s.grid (r, c)).status = .Prey)
    (ns : List Pos) (hns : getNeighbors r c s.grid = .ok ns) :
    ∃ s' nb s1 dest rng2 x,
      updatePrey r c s = .ok s' ∧ classify s.grid ns = .ok nb ∧
      preyReproduce r c (look s.grid (r, c)) nb s = .ok s1 ∧
      preyTarget r c nb s1.rng = .ok (dest, rng2) ∧
      (hasNeighbor s.grid ns .Dead → dest ∈ ns ∧ (look s.grid dest).status = .Dead) ∧
      (¬ hasNeighbor s.grid ns .Dead → dest = (r, c)) ∧
      cellAt s'.nextGrid dest.1 dest.2 = .ok x ∧ x.status = .Prey ∧ x.energy = 0 ∧
      x.reproductionCooldown =
        (if (look s.grid (r, c)).reproductionCooldown = 0 ∧ hasNeighbor s.grid ns .Prey ∧
            hasNeighbor s.grid ns .Dead then 1
          else max 0 ((look s.grid (r, c)).reproductionCooldown - 1)) ∧
      (dest ≠ (r, c) → ∃ y, cellAt s'.nextGrid r c = .ok y ∧ y.status = .Dead) := by
  have hR := inB_pos hin
  obtain rfl : nbrs R C (r, c) = ns := by
    have := getNeighbors_eq hw.1 hR r c
    rw [hns] at this
    exact (Except.ok.inj this).symm
  have hw' := wf_updatePreyT hw (r, c)
  have hd := preyDest_inB (g := s.grid) hin (preyReproduceT R C (r, c) s).rng
  have hlook := look_dest_updatePreyT hw hin hst
  refine ⟨_, _, _, _, _, _, updatePrey_eq hR hw hin,
    classify_eq hw.1 _ (fun q hq => nbrs_inB hq), preyReproduce_eq hw hin,
    preyTarget_eq R C s.grid (r, c) _ _ _, preyDest_of_empty _, preyDest_of_no_empty _,
    cellAt_eq_look hw'.2 hd, ?_, ?_, ?_, ?_⟩
  · rw [hlook]
  · rw [hlook]
  · rw [hlook]
    dsimp only
    by_cases hrep : PreyReproduces R C s.grid (r, c)
    · rw [if_pos (preyReproduces_iff.1 hrep), preyReproduceT_of_reproduces hrep,
        look_put_self hw.1 hin]
      show max (0 : Int) (2 - 1) = 1
      decide
    · rw [if_neg (fun h => hrep (preyReproduces_iff.2 h)), preyReproduceT_of_not hrep]
  · intro hne
    exact ⟨_, cellAt_eq_look hw'.2 hin, status_origin_updatePreyT hw hin hst hne⟩

theorem prey_movement_write_witness :
    ∃ s' nb s1 dest rng2 x,
      updatePrey 0 1 preyPair = .ok s' ∧ classify preyPair.grid [(0, 0), (0, 2)] = .ok nb ∧
      preyReproduce 0 1 (look preyPair.grid (0, 1)) nb preyPair = .ok s1 ∧
      preyTarget 0 1 nb s1.rng = .ok (dest, rng2) ∧
      (hasNeighbor preyPair.grid [(0, 0), (0, 2)] .Dead →
        dest ∈ [((0 : Int), (0 : Int)), (0, 2)] ∧ (look preyPair.grid dest).status = .Dead) ∧
      (¬ hasNeighbor preyPair.grid [(0, 0), (0, 2)] .Dead → dest = (0, 1)) ∧
      cellAt s'.nextGrid dest.1 dest.2 = .ok x ∧ x.status = .Prey ∧ x.energy = 0 ∧
      x.reproductionCooldown =
        (if (look preyPair.grid (0, 1)).reproductionCooldown = 0 ∧
            hasNeighbor preyPair.grid [(0, 0), (0, 2)] .Prey ∧
            hasNeighbor preyPair.grid [(0, 0), (0, 2)] .Dead then 1
          else max 0 ((look preyPair.grid (0, 1)).reproductionCooldown - 1)) ∧
      (dest ≠ (0, 1) → ∃ y, cellAt s'.nextGrid 0 1 = .ok y ∧ y.status = .Dead) :=
  prey_movement_write 1 3 preyPair 0 1 (by decide) (by decide) (by decide) [(0, 0), (0, 2)] rfl

/-! ### C20 -/

/-- C20, behaviour of the code at the failing input: in `crowdedPredator` the
predator of (0,1) moves to its only Dead neighbour (0,2) with new energy 5 and
reproduces; the spawn is written at the first Dead neighbour, the same cell
(0,2), over the predator that just moved there, and that cell is then charged:
it ends as a Predator with energy 2, and no other cell holds the acting
predator. -/
theorem spawn_overwrites_mover :
    ∃ s' nb rng',
      updatePredator 0 1 crowdedPredator = .ok s' ∧
      classify crowdedPredator.grid [(0, 0), (0, 2)] = .ok nb ∧
      nb.emptyNeighbors = [(0, 2)] ∧
      predatorTarget 0 1 nb crowdedPredator.rng = .ok ((0, 2), false, rng') ∧
      s'.nextGrid = [[⟨.Predator, 2, 0⟩, ⟨.Dead, 6, 0⟩, ⟨.Predator, 2, 0⟩]] :=
  ⟨_, _, _, rfl, rfl, rfl, rfl, rfl⟩

end PredatorPrey
